import Mathlib

/-!
Verification development for the reactive color engine of
`theme-color-editor.js` (cadon/themeColorEditor).

The JavaScript source is shallowly embedded:
* JS numbers are modelled as rationals (`ℚ`) where the code does exact
  arithmetic and as reals (`ℝ`) where it uses `Math.pow`; the JS value
  `NaN` is modelled by `none` in `Option ℚ` where it can arise.
* `Math.round x` is `⌊x + 1/2⌋` (`jround`), the JS remainder operator is
  `jsMod` (sign of the dividend), `parseFloat` on digit/dot tokens is
  `jsParseFloatTok`.
* the regex scanners of the source are embedded as explicit left-to-right
  scanners over `List Char` with the same leftmost-match semantics; the
  character classes involved (digits versus separators) are disjoint, so
  the greedy backtracking match of the JS engine coincides with maximal
  runs; JS `\s` is modelled by its ASCII members (`isSepJs`), the only
  whitespace occurring in the relevant inputs.
* the DOM-backed evaluation of indirect definitions
  (`window.getComputedStyle` inside `getCalculatedColorRgb`) is external
  to the repository and is modelled as an oracle parameter; browsers
  serialize computed background colors as parseable `rgb()/rgba()`
  strings, so the oracle is total.
* `colorChangedThrottled` (a leading-edge throttle around `colorChanged`)
  is modelled as the immediate execution of `colorChanged`; theorems about
  propagation count invocations of the throttled entry point.
-/

namespace TCE

/-- A JS number that may be NaN: `none` models NaN. -/
abbrev JsNum := Option ℚ

/-- A color value as produced by the parsing functions: a list of channels. -/
abbrev JsColor := List JsNum

section JsNumbers

variable {K : Type*} [LinearOrderedField K] [FloorRing K]

/-- JS `Math.round`: round half toward positive infinity. -/
def jround (x : K) : ℤ := ⌊x + 1/2⌋

/-- Truncation toward zero, as used by the JS `%` operator. -/
def jsTrunc (x : K) : ℤ := if 0 ≤ x then ⌊x⌋ else -⌊-x⌋

/-- JS remainder operator `a % b` on numbers (sign of the dividend). -/
def jsMod (a b : K) : K := a - b * (jsTrunc (a / b) : K)

/-- The factor `Math.max(Math.min(k, 4 - k, 1), 0)` of `hsvToRgb`. -/
def wClamp (k : K) : K := max (min (min k (4 - k)) 1) 0

/-- The factor `Math.max(Math.min(k - 3, 9 - k, 1), -1)` of `hslToRgb`. -/
def uClamp (k : K) : K := max (min (min (k - 3) (9 - k)) 1) (-1)

/-- Embedding of `hsvToRgb` (source lines 204-212); hue in degrees,
saturation and value in percent, result channels rounded to integers. -/
def hsvToRgb (h s v : K) : ℤ × ℤ × ℤ :=
  let s' := s / 100
  let v' := v / 100
  let f := fun (n : K) => jround (v' * (1 - s' * wClamp (jsMod (n + h / 60) 6)) * 255)
  (f 5, f 3, f 1)

/-- Embedding of `hslToRgb` (source lines 217-225). -/
def hslToRgb (h s l : K) : ℤ × ℤ × ℤ :=
  let s' := s / 100
  let l' := l / 100
  let f := fun (n : K) =>
    jround ((l' - s' * min l' (1 - l') * uClamp (jsMod (n + h / 30) 12)) * 255)
  (f 0, f 8, f 4)

/-- Embedding of `rgbToHsvSl` (source lines 232-265): channels scaled to
[0,1]; the `switch (max)` of the source compares against `min`, `r`, `g`,
`b` in that order; all five outputs are rounded to integers. -/
def rgbToHsvSl (r g b : K) : ℤ × ℤ × ℤ × ℤ × ℤ :=
  let r' := r / 255
  let g' := g / 255
  let b' := b / 255
  let mx := max r' (max g' b')
  let mn := min r' (min g' b')
  let d := mx - mn
  let s := if mx = 0 then 0 else d / mx
  let v := mx
  let h : K :=
    if mx = mn then 0
    else if mx = r' then jsMod (60 * (g' - b') / d + 360) 360
    else if mx = g' then jsMod (60 * (b' - r') / d + 120) 360
    else jsMod (60 * (r' - g') / d + 240) 360
  (jround h, jround (s * 100), jround (v * 100),
   jround (if mx = mn then 0 else 100 * d / (1 - |mx + mn - 1|)),
   jround ((mx + mn) * 50))

end JsNumbers

/-- The round trip of the C6 claim through HSV: convert an RGB triple with
`rgbToHsvSl` and feed the `[hue, satHSV, value]` components back through
`hsvToRgb`. -/
def roundtripHsv (r g b : ℚ) : ℤ × ℤ × ℤ :=
  let o := rgbToHsvSl r g b
  hsvToRgb (o.1 : ℚ) (o.2.1 : ℚ) (o.2.2.1 : ℚ)

/-- The round trip of the C6 claim through HSL: convert an RGB triple with
`rgbToHsvSl` and feed the `[hue, satHSL, lightness]` components back
through `hslToRgb`. -/
def roundtripHsl (r g b : ℚ) : ℤ × ℤ × ℤ :=
  let o := rgbToHsvSl r g b
  hslToRgb (o.1 : ℚ) (o.2.2.2.1 : ℚ) (o.2.2.2.2 : ℚ)

/-- Digit test used by the `\d` character class. -/
def isDigitJs (c : Char) : Bool := '0' ≤ c && c ≤ '9'

/-- Hex-digit test used by the regex `[\da-fA-F]` in `hexToRgb`. -/
def isHexDigitJs (c : Char) : Bool :=
  ('0' ≤ c && c ≤ '9') || ('a' ≤ c && c ≤ 'f') || ('A' ≤ c && c ≤ 'F')

/-- Value of a hex digit (`parseInt(·, 16)` on one digit). -/
def hexVal (c : Char) : ℕ :=
  if '0' ≤ c ∧ c ≤ '9' then c.toNat - '0'.toNat
  else if 'a' ≤ c ∧ c ≤ 'f' then c.toNat - 'a'.toNat + 10
  else if 'A' ≤ c ∧ c ≤ 'F' then c.toNat - 'A'.toNat + 10
  else 0

/-- JS `\s` character class, restricted to its ASCII members (the inputs
relevant here contain no Unicode whitespace). -/
def isSepJs (c : Char) : Bool :=
  c = ' ' || c = '\t' || c = '\n' || c = '\r' || c = '\x0b' || c = '\x0c'

/-- Numeric value of a list of decimal digits (`Number(...)` / `parseInt`
on an all-digit string). -/
def natOfDigits (ds : List Char) : ℕ :=
  ds.foldl (fun a c => 10 * a + (c.toNat - '0'.toNat)) 0

/-- JS `parseFloat` on a token matched by `[\d\.]+`: parses the leading
`digits [. digits]` prefix; `none` models the NaN result when that prefix
holds no digit. -/
def jsParseFloatTok (t : List Char) : Option ℚ :=
  let intPart := t.takeWhile isDigitJs
  let rest := t.dropWhile isDigitJs
  let fracPart := if rest.head? = some '.' then rest.tail.takeWhile isDigitJs else []
  if intPart = [] ∧ fracPart = [] then none
  else if fracPart = [] then some (natOfDigits intPart : ℚ)
  else some ((natOfDigits intPart : ℚ) + (natOfDigits fracPart : ℚ) / (10 ^ fracPart.length : ℚ))

/-- Embedding of `hexToRgb` (source lines 161-180): a 3-digit hex string is
doubled digit-wise, then the string must match `^[\da-fA-F]{6}$`; the three
channel bytes are `parseInt` of the hex pairs. -/
def hexToRgb (cs0 : List Char) : Option JsColor :=
  if cs0 = [] then none
  else
    let cs := if cs0.length = 3 then cs0.flatMap (fun c => [c, c]) else cs0
    match cs, cs.all isHexDigitJs with
    | [a, b, c, d, e, f], true =>
        some [some ((hexVal a * 16 + hexVal b : ℕ) : ℚ),
              some ((hexVal c * 16 + hexVal d : ℕ) : ℚ),
              some ((hexVal e * 16 + hexVal f : ℕ) : ℚ)]
    | _, _ => none

/-- One attempt of the regex `(?:rgb\()?(\d+)[\s,]+(\d+)[\s,]+(\d+)\)?` at a
fixed start position.  The optional `rgb(` prefix is consumed when present
(matching without it would require a digit at the same position, which `r`
is not, so this is equivalent to the JS alternative order). -/
def matchRgbTripleAt (cs : List Char) : Option (ℕ × ℕ × ℕ) :=
  let cs := if cs.take 4 = ['r', 'g', 'b', '('] then cs.drop 4 else cs
  let d1 := cs.takeWhile isDigitJs
  if d1 = [] then none else
  let r1 := cs.dropWhile isDigitJs
  if r1.takeWhile (fun c => isSepJs c || c = ',') = [] then none else
  let r2 := r1.dropWhile (fun c => isSepJs c || c = ',')
  let d2 := r2.takeWhile isDigitJs
  if d2 = [] then none else
  let r3 := r2.dropWhile isDigitJs
  if r3.takeWhile (fun c => isSepJs c || c = ',') = [] then none else
  let r4 := r3.dropWhile (fun c => isSepJs c || c = ',')
  let d3 := r4.takeWhile isDigitJs
  if d3 = [] then none else
  some (natOfDigits d1, natOfDigits d2, natOfDigits d3)

/-- Leftmost search for the first-regex match of `rgbParenthesisToRgb`. -/
def scanRgbTriple : List Char → Option (ℕ × ℕ × ℕ)
  | [] => none
  | c :: rest =>
    match matchRgbTripleAt (c :: rest) with
    | some t => some t
    | none => scanRgbTriple rest

/-- One attempt of the regex
`color\(srgb\s+([\d\.]+)\s+([\d\.]+)\s+([\d\.]+)\)?` at a fixed start
position, returning the three raw component tokens. -/
def matchSrgbAt (cs : List Char) : Option (List Char × List Char × List Char) :=
  if cs.take 10 = ['c', 'o', 'l', 'o', 'r', '(', 's', 'r', 'g', 'b'] then
    let r0 := cs.drop 10
    if r0.takeWhile isSepJs = [] then none else
    let r1 := r0.dropWhile isSepJs
    let t1 := r1.takeWhile (fun c => isDigitJs c || c = '.')
    if t1 = [] then none else
    let r2 := r1.dropWhile (fun c => isDigitJs c || c = '.')
    if r2.takeWhile isSepJs = [] then none else
    let r3 := r2.dropWhile isSepJs
    let t2 := r3.takeWhile (fun c => isDigitJs c || c = '.')
    if t2 = [] then none else
    let r4 := r3.dropWhile (fun c => isDigitJs c || c = '.')
    if r4.takeWhile isSepJs = [] then none else
    let r5 := r4.dropWhile isSepJs
    let t3 := r5.takeWhile (fun c => isDigitJs c || c = '.')
    if t3 = [] then none else
    some (t1, t2, t3)
  else none

/-- Leftmost search for the `color(srgb ...)` regex. -/
def scanSrgb : List Char → Option (List Char × List Char × List Char)
  | [] => none
  | c :: rest =>
    match matchSrgbAt (c :: rest) with
    | some t => some t
    | none => scanSrgb rest

/-- Embedding of `rgbParenthesisToRgb` (source lines 141-153).  The first
regex yields the three decimal numbers unchanged; the second scales each
`parseFloat`ed component by 255 and rounds.  A component token without a
digit makes `parseFloat` return NaN (`none` channel). -/
def rgbParenthesisToRgb (cs : List Char) : Option JsColor :=
  match scanRgbTriple cs with
  | some (a, b, c) => some [some (a : ℚ), some (b : ℚ), some (c : ℚ)]
  | none =>
    match scanSrgb cs with
    | some (t1, t2, t3) =>
        some [(jsParseFloatTok t1).map (fun q => (jround (q * 255) : ℚ)),
              (jsParseFloatTok t2).map (fun q => (jround (q * 255) : ℚ)),
              (jsParseFloatTok t3).map (fun q => (jround (q * 255) : ℚ))]
    | none => none

/-- Embedding of `parseColor` (source lines 124-134): empty input is falsy,
a leading `#` dispatches to `hexToRgb` on the rest, otherwise
`rgbParenthesisToRgb` is tried; `none` models the `null` result. -/
def parseColor (cs : List Char) : Option JsColor :=
  if cs = [] then none
  else if cs.head? = some '#' then hexToRgb cs.tail
  else rgbParenthesisToRgb cs

/-- String-level wrapper of `parseColor`. -/
def parseColorS (s : String) : Option JsColor := parseColor s.data

/-! Contrast functions (source lines 2164-2324).  These use `Math.pow`, so
they are embedded over the reals. -/

/-- A plain numeric rgb triple as used by the contrast functions. -/
abbrev RgbR := ℝ × ℝ × ℝ

/-- Embedding of `relativeLuminance` (source lines 2216-2224): WCAG gamma
decoding with weights 0.2126 / 0.7152 / 0.0722. -/
noncomputable def relativeLuminance (c : RgbR) : ℝ :=
  let s0 := c.1 / 255
  let s1 := c.2.1 / 255
  let s2 := c.2.2 / 255
  0.2126 * (if s0 < 0.03928 then s0 / 12.92 else Real.rpow ((s0 + 0.055) / 1.055) 2.4) +
  0.7152 * (if s1 < 0.03928 then s1 / 12.92 else Real.rpow ((s1 + 0.055) / 1.055) 2.4) +
  0.0722 * (if s2 < 0.03928 then s2 / 12.92 else Real.rpow ((s2 + 0.055) / 1.055) 2.4)

/-- Embedding of `luminanceContrast` (source lines 2239-2242). -/
noncomputable def luminanceContrast (relLum1 relLum2 : ℝ) : ℝ :=
  if relLum1 > relLum2 then (relLum1 + 0.05) / (relLum2 + 0.05)
  else (relLum2 + 0.05) / (relLum1 + 0.05)

/-- Embedding of `colorContrast` (source lines 2232-2237); `none` models the
`undefined` result for a null argument. -/
noncomputable def colorContrast (rgb1 rgb2 : Option RgbR) : Option ℝ :=
  match rgb1, rgb2 with
  | some c1, some c2 => some (luminanceContrast (relativeLuminance c1) (relativeLuminance c2))
  | _, _ => none

/-- Embedding of `neededLuminanceForContrast` (source lines 2250-2253). -/
noncomputable def neededLuminanceForContrast (relLum neededContrast : ℝ) : ℝ × ℝ :=
  if neededContrast < 1 then (relLum, relLum)
  else ((relLum + 0.05) / neededContrast - 0.05, neededContrast * (relLum + 0.05) - 0.05)

/-- Integer rgb triple produced by the rounding conversions. -/
abbrev RgbZ := ℤ × ℤ × ℤ

/-- Cast an integer rgb triple to a real one. -/
def rgbZtoR (c : RgbZ) : RgbR := ((c.1 : ℝ), (c.2.1 : ℝ), (c.2.2 : ℝ))

/-- The binary-search loop of `setRelativeLuminance` (source lines
2180-2192) with the remaining iteration count explicit; the JS loop runs its
body at most 20 times and returns the color computed last, breaking early
once the luminance differs from the target by less than `maxDifference`. -/
noncomputable def setRelativeLuminanceLoop (h s target maxDiff : ℝ) :
    ℕ → ℝ → ℝ → RgbZ
  | 0, minL, maxL => hslToRgb h s ((minL + maxL) / 2)
  | r + 1, minL, maxL =>
    let lightness := (minL + maxL) / 2
    let c := hslToRgb h s lightness
    let diff := target - relativeLuminance (rgbZtoR c)
    if |diff| < maxDiff then c
    else if r = 0 then c
    else if diff > 0 then setRelativeLuminanceLoop h s target maxDiff r lightness maxL
    else setRelativeLuminanceLoop h s target maxDiff r minL lightness

/-- Embedding of `setRelativeLuminance` (source lines 2171-2196): binary
search on HSL lightness, hue and HSL saturation taken from `rgbToHsvSl`. -/
noncomputable def setRelativeLuminance (rgb : RgbR) (target maxDiff : ℝ) : RgbZ :=
  let hsvsl := rgbToHsvSl rgb.1 rgb.2.1 rgb.2.2
  setRelativeLuminanceLoop (hsvsl.1 : ℝ) (hsvsl.2.2.2.1 : ℝ) target maxDiff 19 0 100

/-- A contrast link of `fixContrastWithLightness`: the target variable's
current rgb and the link's `minContrast`. -/
abbrev ContrastLink := RgbR × ℝ

/-- The blocked-luminance union computed by the `reduce` in
`fixContrastWithLightness` (source lines 2268-2279): links whose
`neededLuminanceForContrast` interval is degenerate contribute nothing;
otherwise the union is widened (`min` of lows, `max` of highs); `none`
models the initial `[undefined, undefined]`. -/
noncomputable def fixContrastBlockedRange (links : List ContrastLink) : Option (ℝ × ℝ) :=
  links.foldl
    (fun acc cv =>
      let lum := relativeLuminance cv.1
      let block := neededLuminanceForContrast lum cv.2
      if block.1 = block.2 then acc
      else
        match acc with
        | none => some (block.1, block.2)
        | some (lo, hi) => some (min lo block.1, max hi block.2))
    none

/-- The padding-and-clamping step of `fixContrastWithLightness` (source
lines 2291-2292): `Math.max(lo - 0.005, 0)` and `Math.min(hi + 0.005, 1)`. -/
noncomputable def fixContrastPaddedRange (lo hi : ℝ) : ℝ × ℝ :=
  (max (lo - 0.005) 0, min (hi + 0.005) 1)

/-- The test guarding the pure-black/white fallback of
`fixContrastWithLightness` (source line 2294): `avoidLuminance[0] < 0 &&
avoidLuminance[1] > 1`, evaluated on the already clamped bounds. -/
noncomputable def fixContrastRangeFull (p : ℝ × ℝ) : Bool :=
  decide (p.1 < 0) && decide (p.2 > 1)

/-- Embedding of `fixContrastWithLightness` (source lines 2260-2324) for a
non-empty effective link list (`onlyToVar` present means a one-element
list).  The returned value is the color passed to `varToAdjust.setColor`,
`none` meaning the function returned without adjusting the color. -/
noncomputable def fixContrastWithLightness (rgb : RgbR) (links : List ContrastLink) :
    Option RgbZ :=
  if links = [] then none
  else
    let luminanceMean := ((links.map (fun cv => relativeLuminance cv.1)).sum) / links.length
    let lumSubject := relativeLuminance rgb
    match fixContrastBlockedRange links with
    | none => none
    | some (lo, hi) =>
      if lumSubject ≤ lo ∨ lumSubject ≥ hi then none
      else
        let p := fixContrastPaddedRange lo hi
        if fixContrastRangeFull p then
          some (if luminanceMean < 0.18 then (255, 255, 255) else (0, 0, 0))
        else if luminanceMean < 0.18 then
          if p.2 ≤ 1 then some (setRelativeLuminance rgb p.2 0.005)
          else some (setRelativeLuminance rgb p.1 0.005)
        else
          if p.1 ≥ 0 then some (setRelativeLuminance rgb p.1 0.005)
          else some (setRelativeLuminance rgb p.2 0.005)

/-! The dependency graph of `VariableInfo` objects (source lines
1165-1484).  A graph is a total map from variable names to states; the set
of known names (the keys of `themeColorEditor.variableInfo`) is the
parameter `dom`.  JS `undefined` field values are `none`. -/

/-- State of one `VariableInfo`; DOM-element fields are reduced to the data
they carry (`dependsOnVarsElValue` is the text input's value,
`explicitBg` the `backgroundColor` of `colorExplicitEl`). -/
structure VarState where
  value : Option String
  baseValue : Option String
  rgb : Option JsColor
  baseColor : Option JsColor
  useIndirectDefinition : Option Bool
  indirectDefinition : Option String
  dependsOnVarsElValue : String
  explicitBg : String
  dependsOnVars : Option (List String)
  affectsVars : Option (List String)
  saveExplicitRgbInOutput : Option Bool
  optionInvert : Option Bool
  optionHueRotate : Option ℚ
  optionSaturationFactor : Option ℚ
  optionLightnessFactor : Option ℚ
  deriving DecidableEq

/-- A fresh `VariableInfo` (all fields undefined). -/
def VarState.init : VarState :=
  ⟨none, none, none, none, none, none, "", "", none, none, none, none, none, none, none⟩

/-- JS truthiness of a possibly-undefined boolean. -/
def truthyB (o : Option Bool) : Bool := o.getD false

/-- JS truthiness of a possibly-undefined string (empty string is falsy). -/
def truthyS (o : Option String) : Bool :=
  match o with
  | none => false
  | some s => s ≠ ""

/-- Channel access `rgb[i]`: `none` for a missing index models `undefined`
(which behaves like NaN in arithmetic and like `undefined` in `==`). -/
def chanAt (c : JsColor) (i : ℕ) : Option JsNum := c.get? i

/-- JS loose equality `rgb1[i] == rgb2[i]` for channels: NaN (inner `none`)
equals nothing, `undefined == undefined` is true. -/
def chanEqAt (c1 c2 : JsColor) (i : ℕ) : Bool :=
  match chanAt c1 i, chanAt c2 i with
  | none, none => true
  | some none, _ => false
  | _, some none => false
  | some (some x), some (some y) => x = y
  | some (some _), none => false
  | none, some (some _) => false

/-- Embedding of `rgbEqual` (source lines 376-382): both null-ish compare
equal, one null-ish compares unequal, otherwise the first three channels
are compared with `==`. -/
def rgbEqual : Option JsColor → Option JsColor → Bool
  | none, none => true
  | none, some _ => false
  | some _, none => false
  | some a, some b => chanEqAt a b 0 && chanEqAt a b 1 && chanEqAt a b 2

/-- Embedding of `invertedColor` (source lines 300-303) on a non-null
color; a NaN or missing channel yields NaN. -/
def invertedColor (c : JsColor) : JsColor :=
  [((chanAt c 0).getD none).map (fun x => 255 - x),
   ((chanAt c 1).getD none).map (fun x => 255 - x),
   ((chanAt c 2).getD none).map (fun x => 255 - x)]

/-- Embedding of `adjustHsl` (source lines 342-350) on a non-null color.
When any channel is NaN the JS conversions produce an all-NaN color
(`Math.max`/`Math.min` propagate NaN), which the catch-all branch models. -/
def adjustHsl (c : JsColor) (hueRotate satF lightF : Option ℚ) : JsColor :=
  match chanAt c 0, chanAt c 1, chanAt c 2 with
  | some (some r), some (some g), some (some b) =>
    let o := rgbToHsvSl r g b
    let h := (o.1 : ℚ) + hueRotate.getD 0
    let s : ℚ :=
      match satF with
      | none => (o.2.2.2.1 : ℚ)
      | some f => min 100 (max 0 ((o.2.2.2.1 : ℚ) * f))
    let l : ℚ :=
      match lightF with
      | none => (o.2.2.2.2 : ℚ)
      | some f => min 100 (max 0 ((o.2.2.2.2 : ℚ) * f))
    let z := hslToRgb h s l
    [some (z.1 : ℚ), some (z.2.1 : ℚ), some (z.2.2 : ℚ)]
  | _, _, _ => [none, none, none]

/-- The graph: a total assignment of states to names; names outside `dom`
keep `VarState.init`. -/
abbrev Graph := String → VarState

/-- Point update of one variable's state. -/
def updateVar (g : Graph) (n : String) (f : VarState → VarState) : Graph :=
  fun m => if m = n then f (g m) else g m

/-- Modelled from the spec: the browser side of `getCalculatedColorRgb`
(source line 1307), `parseColor(window.getComputedStyle(colorExplicitEl)
.backgroundColor)`.  Resolution of the CSS text against the live document
is outside the repository; computed background colors always serialize to
parseable `rgb()/rgba()` strings, so the oracle is total.  It may read the
whole current graph (the document's variable values). -/
abbrev Oracle := Graph → String → JsColor

/-- Embedding of `getCalculatedColorRgb` (source lines 1306-1313): the
computed color, optionally run through the adjustment-option pipeline when
`saveExplicitRgbInOutput` is truthy. -/
def getCalculatedColorRgb (o : Oracle) (g : Graph) (n : String) : JsColor :=
  let computed := o g n
  if ¬ truthyB (g n).saveExplicitRgbInOutput then computed
  else
    let c1 := if truthyB (g n).optionInvert then invertedColor computed else computed
    if (g n).optionHueRotate = none ∧ (g n).optionSaturationFactor = none ∧
        (g n).optionLightnessFactor = none then c1
    else adjustHsl c1 (g n).optionHueRotate (g n).optionSaturationFactor
      (g n).optionLightnessFactor

/-- The push step of the `set dependsOnVars` mutator (source lines 1265-1268):
ensure `n` is listed in an `affectsVars` array. -/
def pushAffects (a : Option (List String)) (n : String) : Option (List String) :=
  match a with
  | none => some [n]
  | some l => if n ∈ l then some l else some (l ++ [n])

/-- Embedding of the `set dependsOnVars(v)` mutator (source lines
1259-1276): store the new list, add back-links on every new source, then
remove this node from the `affectsVars` of sources no longer referenced. -/
def setDependsOnVars (g : Graph) (n : String) (v : Option (List String)) : Graph :=
  let old := (g n).dependsOnVars
  match v with
  | none =>
    let g1 := updateVar g n (fun s => { s with dependsOnVars := none })
    (old.getD []).foldl
      (fun gm x => updateVar gm x
        (fun s => { s with affectsVars := s.affectsVars.map (fun l => l.filter (· ≠ n)) }))
      g1
  | some l =>
    let g1 := updateVar g n (fun s => { s with dependsOnVars := some l })
    let g2 := l.foldl
      (fun gm x => updateVar gm x (fun s => { s with affectsVars := pushAffects s.affectsVars n }))
      g1
    let removeL := (old.getD []).filter (fun x => ¬ l.contains x)
    removeL.foldl
      (fun gm x => updateVar gm x
        (fun s => { s with affectsVars := s.affectsVars.map (fun l2 => l2.filter (· ≠ n)) }))
      g2

/-- Word-or-hyphen character of the class `[\w\-]`. -/
def isWordDash (c : Char) : Bool := c.isAlphanum || c = '_' || c = '-'

/-- Scanner for the global regex `(?<=var\()--[\w\-]+(?=\))` of
`updateDependencyVariables` (source line 1241): at each position, a
`var(` followed by `--`, a maximal word/hyphen run and a closing `)` yields
a match, and scanning resumes after the matched name.  The fuel is the
remaining length, which bounds the number of steps. -/
def extractVarRefsGo : ℕ → List Char → List String
  | 0, _ => []
  | fuel + 1, cs =>
    match cs with
    | [] => []
    | _c :: rest =>
      if cs.take 4 = ['v', 'a', 'r', '('] then
        match cs.drop 4 with
        | '-' :: '-' :: t =>
          let run := t.takeWhile isWordDash
          let ra := t.dropWhile isWordDash
          if run ≠ [] ∧ ra.head? = some ')' then
            String.mk ('-' :: '-' :: run) :: extractVarRefsGo fuel ra
          else extractVarRefsGo fuel rest
        | _ => extractVarRefsGo fuel rest
      else extractVarRefsGo fuel rest

/-- Variable references appearing in an indirect definition. -/
def extractVarRefs (cs : List Char) : List String := extractVarRefsGo cs.length cs

/-- Embedding of `updateDependencyVariables` (source lines 1234-1249):
without a truthy indirect definition and flag the dependency list becomes
null, otherwise the referenced names that exist in `dom` (unknown names are
skipped by the `variableInfo.get` check); an empty result is stored as
null. -/
def updateDependencyVariables (dom : List String) (g : Graph) (n : String) : Graph :=
  if ¬ truthyS (g n).indirectDefinition ∨ ¬ truthyB (g n).useIndirectDefinition then
    setDependsOnVars g n none
  else
    let vars := (extractVarRefs (((g n).indirectDefinition).getD "").data).filter
      (fun vn => dom.contains vn)
    setDependsOnVars g n (if vars = [] then none else some vars)

/-- The `affectsVars` traversal list of `updateAffectedColors` (source
lines 1380-1385); a null list is skipped. -/
def updAffList (g : Graph) (n : String) : List String := ((g n).affectsVars).getD []

/-- One step of the propagation walk: `updateValueFromAffectors` (source
lines 1391-1395) with the inner `setColor(c, false, null)` inlined (the
`null` third argument leaves `useIndirectDefinition` untouched) and the
nested `colorChanged` continuation abstracted as `recurse`.  The second
component is the log of variables on which `colorChangedThrottled` was
invoked. -/
def propagateStep (o : Oracle) (recurse : Graph → String → Graph × List String)
    (g : Graph) (m : String) : Graph × List String :=
  if truthyB (g m).useIndirectDefinition && (g m).dependsOnVars.isSome then
    let c := getCalculatedColorRgb o g m
    if rgbEqual (g m).rgb (some c) then (g, [])
    else
      let g2 := updateVar g m (fun s => { s with rgb := some c })
      let r := recurse g2 m
      (r.1, m :: r.2)
  else (g, [])

/-- Execution of `colorChanged` (source lines 1465-1470) for variable `n`:
the page update and custom callback have no graph effect; the
`updateAffectedColors` walk recurses depth-first with decreasing fuel
(the graphs of the claims are finite and acyclic, so any sufficiently
large fuel is exact). -/
def colorChangedRun (o : Oracle) : ℕ → Graph → String → Graph × List String
  | 0, g, _ => (g, [])
  | fuel + 1, g, n =>
    (updAffList g n).foldl
      (fun acc m =>
        let r := propagateStep o (colorChangedRun o fuel) acc.1 m
        (r.1, acc.2 ++ r.2))
      (g, [])

/-- `setColor(rgb, alsoSetAsBase, null)`: the variant of `setColor` that
leaves `useIndirectDefinition` untouched, as called by
`updateValueFromAffectors`. -/
def setColorPlain (o : Oracle) (fuel : ℕ) (g : Graph) (n : String)
    (c : JsColor) (alsoBase : Bool) : Graph × List String :=
  let g1 := if alsoBase then updateVar g n (fun s => { s with baseColor := some c }) else g
  if rgbEqual (g1 n).rgb (some c) then (g1, [])
  else
    let g2 := updateVar g1 n (fun s => { s with rgb := some c })
    let r := colorChangedRun o fuel g2 n
    (r.1, n :: r.2)

/-- Embedding of `updateValueFromAffectors` (source lines 1391-1395). -/
def updateValueFromAffectors (o : Oracle) (fuel : ℕ) (g : Graph) (m : String) :
    Graph × List String :=
  if truthyB (g m).useIndirectDefinition && (g m).dependsOnVars.isSome then
    setColorPlain o fuel g m (getCalculatedColorRgb o g m) false
  else (g, [])

/-- Embedding of the bound `useIndirectDefinition` property setter created
by `addColorOptionControlAndBind` (source lines 2034-2048): no-op when the
value is unchanged (`===`), otherwise store it, run
`enableIndirectDefinition` (source lines 1209-1216: set `colorExplicitEl`'s
background from the text input and fire `colorChangedThrottled`), rebuild
the dependency links, and recompute from the affectors when the flag is now
truthy. -/
def setUseIndirect (dom : List String) (o : Oracle) (fuel : ℕ)
    (g : Graph) (n : String) (b : Bool) : Graph × List String :=
  if (g n).useIndirectDefinition = some b then (g, [])
  else
    let g1 := updateVar g n (fun s => { s with useIndirectDefinition := some b })
    let g2 := updateVar g1 n
      (fun s => { s with explicitBg := if b then s.dependsOnVarsElValue else "" })
    let r1 := colorChangedRun o fuel g2 n
    let g4 := updateDependencyVariables dom r1.1 n
    if truthyB (g4 n).useIndirectDefinition then
      let r2 := updateValueFromAffectors o fuel g4 n
      (r2.1, n :: r1.2 ++ r2.2)
    else (g4, n :: r1.2)

/-- Embedding of `setColor` (source lines 1426-1441): optional base-color
update, optional `useIndirectDefinition` assignment (only for an actual
boolean third argument), then the `rgbEqual` no-op check, and otherwise the
rgb store plus `colorChangedThrottled`. -/
def setColor (dom : List String) (o : Oracle) (fuel : ℕ) (g : Graph) (n : String)
    (c : JsColor) (alsoBase : Bool) (ind : Option Bool) : Graph × List String :=
  let g1 := if alsoBase then updateVar g n (fun s => { s with baseColor := some c }) else g
  let r0 := match ind with
    | some b => setUseIndirect dom o fuel g1 n b
    | none => (g1, [])
  if rgbEqual (r0.1 n).rgb (some c) then (r0.1, r0.2)
  else
    let g3 := updateVar r0.1 n (fun s => { s with rgb := some c })
    let r := colorChangedRun o fuel g3 n
    (r.1, r0.2 ++ n :: r.2)

/-- Embedding of `setIndirectDefition` (source lines 1223-1229): store the
definition text (also in the text input, `?? ''`), assign the truthiness to
`useIndirectDefinition` (through the bound setter), and for a truthy
definition set the computed color with `setColor(…, alsoSetAsBase, true)`. -/
def setIndirectDefition (dom : List String) (o : Oracle) (fuel : ℕ)
    (g : Graph) (n : String) (v : Option String) (alsoBase : Bool) :
    Graph × List String :=
  let g1 := updateVar g n
    (fun s => { s with indirectDefinition := v, dependsOnVarsElValue := v.getD "" })
  let r1 := setUseIndirect dom o fuel g1 n (truthyS v)
  if truthyS v then
    let r2 := setColor dom o fuel r1.1 n (getCalculatedColorRgb o r1.1 n) alsoBase (some true)
    (r2.1, r1.2 ++ r2.2)
  else r1

/-- Substring test `value.includes('var')`. -/
def containsVar : List Char → Bool
  | [] => false
  | c :: rest => (c :: rest).take 3 = ['v', 'a', 'r'] || containsVar rest

/-- Embedding of `setValue` (source lines 1406-1418): store the value (and
base value), attempt a literal parse unless the text contains `var`; a
parsed color goes to `setColor` (whose omitted third argument defaults to
`false`), anything else to `setIndirectDefition`. -/
def setValue (dom : List String) (o : Oracle) (fuel : ℕ) (g : Graph) (n : String)
    (v : Option String) (alsoBase : Bool) : Graph × List String :=
  let g1 := updateVar g n (fun s => { s with value := v })
  let g2 := if alsoBase then updateVar g1 n (fun s => { s with baseValue := v }) else g1
  let parsed : Option JsColor :=
    match v with
    | some str => if str ≠ "" ∧ ¬ containsVar str.data then parseColor str.data else none
    | none => none
  match parsed with
  | some c => setColor dom o fuel g2 n c alsoBase (some false)
  | none => setIndirectDefition dom o fuel g2 n v alsoBase

/-- A `setValue` call description: variable name, new value, and the
`alsoSetAsBaseValue` flag. -/
abbrev SetValueOp := String × Option String × Bool

/-- Apply a sequence of `setValue` calls. -/
def applySetValues (dom : List String) (o : Oracle) (fuel : ℕ)
    (ops : List SetValueOp) (g : Graph) : Graph :=
  ops.foldl (fun gm op => (setValue dom o fuel gm op.1 op.2.1 op.2.2).1) g

/-- Dependency list of a state (null reads as empty). -/
def depsL (s : VarState) : List String := s.dependsOnVars.getD []

/-- Affects list of a state (null reads as empty). -/
def affL (s : VarState) : List String := s.affectsVars.getD []

/-- The graph-wide invariant of claim C1: `dependsOnVars` and `affectsVars`
are exact mutual inverses. -/
def Inv (g : Graph) : Prop := ∀ a b : String, b ∈ depsL (g a) ↔ a ∈ affL (g b)

/-- Embedding of `valueShouldGoInOutput` (source lines 1345-1348). -/
def valueShouldGoInOutput (s : VarState) : Bool :=
  (truthyB s.saveExplicitRgbInOutput || !truthyB s.useIndirectDefinition ||
    !truthyS s.value || decide (s.value ≠ s.baseValue)) &&
  !rgbEqual s.rgb s.baseColor

/-- The C8 claim's predicate, written from the claim's words: the
explicit-output flag is set, or the variable is not indirectly defined, or
its current value differs from its base value — and the resolved color
differs from the base color. -/
def specValueShouldGoInOutput (s : VarState) : Bool :=
  (truthyB s.saveExplicitRgbInOutput || !truthyB s.useIndirectDefinition ||
    decide (s.value ≠ s.baseValue)) &&
  !rgbEqual s.rgb s.baseColor

/-! Export and import of a variable's declaration line (source lines
539-597 and 603-644), for claim C7.  The export path modelled is the one
with `exportIncludeExplicitOptions` enabled. -/

/-- The character of one decimal digit. -/
def digitChar : ℕ → Char
  | 0 => '0' | 1 => '1' | 2 => '2' | 3 => '3' | 4 => '4'
  | 5 => '5' | 6 => '6' | 7 => '7' | 8 => '8' | _ => '9'

/-- Decimal digits of a natural number (helper for JS number
stringification), most significant first. -/
def natToDigitsGo : ℕ → ℕ → List Char
  | 0, _ => []
  | f + 1, n =>
    if n < 10 then [digitChar n]
    else natToDigitsGo f (n / 10) ++ [digitChar (n % 10)]

/-- Decimal digit string of a natural number. -/
def natToDigits (n : ℕ) : List Char := natToDigitsGo (n + 1) n

/-- JS stringification of a number, modelled for nonnegative integral
values (JS prints an integral double as its plain decimal digits; the C7
theorems restrict option values to naturals, so other values never reach
this function there). -/
def jsNumToString (q : ℚ) : String :=
  if q.den = 1 ∧ 0 ≤ q.num then String.mk (natToDigits q.num.toNat) else ""

/-- The option tokens pushed by `exportStyles` (source lines 609-614):
`saveExplicitRgbInOutput: 1` when the flag is truthy, `invert: 1` whenever
`optionInvert` is defined (also when it is `false`), and `key: value` for
each defined numeric option. -/
def optionTokens (s : VarState) : List String :=
  (if truthyB s.saveExplicitRgbInOutput then ["saveExplicitRgbInOutput: 1"] else []) ++
  (if s.optionInvert.isSome then ["invert: 1"] else []) ++
  (match s.optionHueRotate with
   | some q => ["hueRotate: " ++ jsNumToString q]
   | none => []) ++
  (match s.optionSaturationFactor with
   | some q => ["saturationFactor: " ++ jsNumToString q]
   | none => []) ++
  (match s.optionLightnessFactor with
   | some q => ["lightnessFactor: " ++ jsNumToString q]
   | none => [])

/-- JS `Array.prototype.join(', ')`. -/
def joinComma : List String → String
  | [] => ""
  | [t] => t
  | t :: rest => t ++ ", " ++ joinComma rest

/-- The declaration line `exportStyles` produces for one variable when
`exportIncludeExplicitOptions` is set (source lines 607-627): skipped
(`none`) when there is no option comment and `valueShouldGoInOutput` is
false; an undefined value prints as the string `undefined`. -/
def exportVarLineWithOptions (s : VarState) (name : String) : Option String :=
  let options := optionTokens s
  let explicitDefinition : Option String :=
    if options = [] then none else some (joinComma options)
  if explicitDefinition = none ∧ ¬ valueShouldGoInOutput s then none
  else
    some (name ++ ": " ++ s.value.getD "undefined" ++ ";" ++
      (match explicitDefinition with
       | some d => " /* \x7b" ++ d ++ "\x7d */"
       | none => ""))

/-- One attempt of the import regex
`(--[\-\w]+)\s*:\s*([^;]+)\s*;(?:[ \t]*\/\*[ \t]*\{([^\}]+)\}[ \t]*\*\/)?`
(source line 540) at a fixed start position: variable name, raw value, and
the optional option comment. -/
def matchVarDeclAt (cs : List Char) : Option (String × String × Option String) :=
  match cs with
  | '-' :: '-' :: t =>
    let run := t.takeWhile isWordDash
    if run = [] then none else
    let r1 := t.dropWhile isWordDash
    let r2 := r1.dropWhile isSepJs
    match r2 with
    | ':' :: r3 =>
      let r4 := r3.dropWhile isSepJs
      let valueChars := r4.takeWhile (· ≠ ';')
      if valueChars = [] then none else
      let r5 := r4.dropWhile (· ≠ ';')
      match r5 with
      | ';' :: r6 =>
        let c0 := r6.dropWhile (fun c => c = ' ' || c = '\t')
        let comment : Option String :=
          match c0 with
          | '/' :: '*' :: c1 =>
            let c2 := c1.dropWhile (fun c => c = ' ' || c = '\t')
            match c2 with
            | '{' :: c3 =>
              let inner := c3.takeWhile (· ≠ '}')
              if inner = [] then none else
              match c3.dropWhile (· ≠ '}') with
              | '}' :: c5 =>
                let c6 := c5.dropWhile (fun c => c = ' ' || c = '\t')
                match c6 with
                | '*' :: '/' :: _ => some (String.mk inner)
                | _ => none
              | _ => none
            | _ => none
          | _ => none
        some (String.mk ('-' :: '-' :: run), String.mk valueChars, comment)
      | _ => none
    | _ => none
  | _ => none

/-- Leftmost search for the first variable declaration in a line. -/
def scanVarDecl : List Char → Option (String × String × Option String)
  | [] => none
  | c :: rest =>
    match matchVarDeclAt (c :: rest) with
    | some m => some m
    | none => scanVarDecl rest

/-- The five option keywords of the import regex alternation, in its
order. -/
def optionKeywords : List String :=
  ["saveExplicitRgbInOutput", "invert", "hueRotate", "saturationFactor", "lightnessFactor"]

/-- One attempt of the option regex
`(saveExplicitRgbInOutput|invert|hueRotate|saturationFactor|lightnessFactor) *: *(\d+(?:\.\d+)?)`
(source line 558) at a fixed position: matched keyword, numeric token, and
the remainder after the match. -/
def attemptKw (cs : List Char) (kw : String) : Option (String × List Char × List Char) :=
  if cs.take kw.length = kw.data then
    let r0 := (cs.drop kw.length).dropWhile (· = ' ')
    match r0 with
    | ':' :: r1 =>
      let r2 := r1.dropWhile (· = ' ')
      let d1 := r2.takeWhile isDigitJs
      if d1 = [] then none else
      let r3 := r2.dropWhile isDigitJs
      match r3 with
      | '.' :: r4 =>
        let d2 := r4.takeWhile isDigitJs
        if d2 = [] then some (kw, d1, r3)
        else some (kw, d1 ++ '.' :: d2, r4.dropWhile isDigitJs)
      | _ => some (kw, d1, r3)
    | _ => none
  else none

def matchOptionAt (cs : List Char) : Option (String × List Char × List Char) :=
  (optionKeywords.filterMap (attemptKw cs)).head?

/-- `matchAll` of the option regex: leftmost matches, scanning resuming
after each match; the fuel is the remaining length. -/
def scanOptions : ℕ → List Char → List (String × List Char)
  | 0, _ => []
  | _f + 1, [] => []
  | f + 1, c :: rest =>
    match matchOptionAt (c :: rest) with
    | some (kw, tok, ra) => (kw, tok) :: scanOptions f ra
    | none => scanOptions f rest

/-- The defaults-then-overrides option `Map` built by `importStyles`
(source lines 562-588), as a record. -/
structure ImportedOptions where
  saveExplicit : Bool
  invert : Bool
  hueRotate : ℚ
  satF : ℚ
  lightF : ℚ

/-- Fold the matched options over the defaults (source lines 569-588); the
flag options are set to the truthiness of the matched digit string (always
true, since the token is nonempty — also for `invert: 0`), the numeric ones
to its `parseFloat`. -/
def foldImportedOptions (ms : List (String × List Char)) : ImportedOptions :=
  ms.foldl
    (fun o m =>
      if m.1 = "saveExplicitRgbInOutput" then { o with saveExplicit := m.2 ≠ [] }
      else if m.1 = "invert" then { o with invert := m.2 ≠ [] }
      else if m.1 = "hueRotate" then { o with hueRotate := (jsParseFloatTok m.2).getD 0 }
      else if m.1 = "saturationFactor" then { o with satF := (jsParseFloatTok m.2).getD 0 }
      else if m.1 = "lightnessFactor" then { o with lightF := (jsParseFloatTok m.2).getD 0 }
      else o)
    ⟨false, false, 0, 1, 1⟩

/-- Field effect of one imported declaration on its variable (source lines
555-592): `setValue(m[2])` stores the raw value; when the comment yields at
least one option match, all five option fields are assigned from the
defaults-then-overrides map.  (The color recomputation the assignments
trigger does not touch these fields.) -/
def importRestoreFields (s : VarState) (line : String) : Option VarState :=
  match scanVarDecl line.data with
  | none => none
  | some (_nm, value, commentOpt) =>
    let s1 := { s with value := some value }
    match commentOpt with
    | none => some s1
    | some comment =>
      let ms := scanOptions comment.data.length comment.data
      if ms = [] then some s1
      else
        let o := foldImportedOptions ms
        some { s1 with
          saveExplicitRgbInOutput := some o.saveExplicit,
          optionInvert := some o.invert,
          optionHueRotate := some o.hueRotate,
          optionSaturationFactor := some o.satF,
          optionLightnessFactor := some o.lightF }

/-- The C7 round trip on one variable: export its declaration line (with
explicit adjustment options enabled), then apply the import of that line to
the variable's state as it stands after the `applyTheme` that `importStyles`
performs first (a state with the same option fields, since `applyTheme`
only calls `setValue`). -/
def exportImportVar (s sAfterTheme : VarState) (name : String) : Option VarState :=
  match exportVarLineWithOptions s name with
  | none => none
  | some line => importRestoreFields sAfterTheme line

/-! Helper lemmas. -/

/-- All fields of a state except `rgb`, for frame reasoning. -/
def nonRgb (s : VarState) :=
  (s.value, s.baseValue, s.baseColor, s.useIndirectDefinition, s.indirectDefinition,
   s.dependsOnVarsElValue, s.explicitBg, s.dependsOnVars, s.affectsVars,
   s.saveExplicitRgbInOutput, s.optionInvert, s.optionHueRotate,
   s.optionSaturationFactor, s.optionLightnessFactor)

/-- Two graphs agreeing on every field except possibly `rgb`. -/
def eqExceptRgb (g g' : Graph) : Prop := ∀ x, nonRgb (g' x) = nonRgb (g x)

/-- All fields of a state except the two link lists. -/
def nonLink (s : VarState) :=
  (s.value, s.baseValue, s.rgb, s.baseColor, s.useIndirectDefinition, s.indirectDefinition,
   s.dependsOnVarsElValue, s.explicitBg, s.saveExplicitRgbInOutput, s.optionInvert,
   s.optionHueRotate, s.optionSaturationFactor, s.optionLightnessFactor)

/-- Two graphs agreeing on everything except possibly the link lists. -/
def eqExceptLinks (g g' : Graph) : Prop := ∀ x, nonLink (g' x) = nonLink (g x)


/-- A one-variable graph used for the C2 checks: rgb already (0,0,0), the
`useIndirectDefinition` flag still undefined. -/
def c2Graph : Graph :=
  fun _ => { VarState.init with rgb := some [some 0, some 0, some 0] }

/-- A one-variable graph with the flag already `false`. -/
def c2GraphF : Graph :=
  fun _ =>
    { VarState.init with
      rgb := some [some 0, some 0, some 0]
      useIndirectDefinition := some false }

/-- The two link fields of a state. -/
def linkPair (s : VarState) := (s.dependsOnVars, s.affectsVars)

/-- Two graphs with identical link fields everywhere. -/
def eqLinks (g g' : Graph) : Prop := ∀ x, linkPair (g' x) = linkPair (g x)


/-- The character shape of an option comment built from keyword/digit
pairs joined by a comma and space. -/
def joinPairs : List (String × List Char) → List Char
  | [] => []
  | [(kw, d)] => kw.data ++ ':' :: ' ' :: d
  | (kw, d) :: t => kw.data ++ ':' :: ' ' :: (d ++ ',' :: ' ' :: joinPairs t)

/-- The keyword/digit pairs corresponding to a variable's option fields. -/
def optTemplate (t0 binv : Bool) (dh ds dl : Option (List Char)) :
    List (String × List Char) :=
  (if t0 then [(("saveExplicitRgbInOutput" : String), ['1'])] else []) ++
  (if binv then [(("invert" : String), ['1'])] else []) ++
  (match dh with | some d => [(("hueRotate" : String), d)] | none => []) ++
  (match ds with | some d => [(("saturationFactor" : String), d)] | none => []) ++
  (match dl with | some d => [(("lightnessFactor" : String), d)] | none => [])

/-- A state whose defined-but-false `optionInvert` breaks the C7 claim. -/
def c7State : VarState :=
  { VarState.init with value := some "#112233", optionInvert := some false }

/-- A state used by the C7 witness. -/
def c7S : VarState :=
  { VarState.init with
    value := some "#112233"
    optionInvert := some true
    optionHueRotate := some ((30 : ℕ) : ℚ) }

theorem char_toNat_le {a b : Char} (h : a ≤ b) : a.toNat ≤ b.toNat := h

theorem hexVal_le (c : Char) : hexVal c ≤ 15 := by
  unfold hexVal
  split_ifs with h1 h2 h3
  · have ha := char_toNat_le h1.1
    have hb := char_toNat_le h1.2
    simp only [show ('0' : Char).toNat = 48 from rfl,
      show ('9' : Char).toNat = 57 from rfl] at ha hb ⊢
    omega
  · have ha := char_toNat_le h2.1
    have hb := char_toNat_le h2.2
    simp only [show ('a' : Char).toNat = 97 from rfl,
      show ('f' : Char).toNat = 102 from rfl] at ha hb ⊢
    omega
  · have ha := char_toNat_le h3.1
    have hb := char_toNat_le h3.2
    simp only [show ('A' : Char).toNat = 65 from rfl,
      show ('F' : Char).toNat = 70 from rfl] at ha hb ⊢
    omega
  · omega

theorem hexToRgb_three (c1 c2 c3 : Char)
    (h1 : isHexDigitJs c1) (h2 : isHexDigitJs c2) (h3 : isHexDigitJs c3) :
    hexToRgb [c1, c2, c3]
      = some [some ((hexVal c1 * 16 + hexVal c1 : ℕ) : ℚ),
              some ((hexVal c2 * 16 + hexVal c2 : ℕ) : ℚ),
              some ((hexVal c3 * 16 + hexVal c3 : ℕ) : ℚ)] := by
  have hall : ([c1, c1, c2, c2, c3, c3] : List Char).all isHexDigitJs = true := by
    simp [List.all_cons, h1, h2, h3]
  unfold hexToRgb
  rw [if_neg (by simp)]
  have e : (if ([c1, c2, c3] : List Char).length = 3
      then [c1, c2, c3].flatMap (fun c => [c, c]) else [c1, c2, c3])
      = [c1, c1, c2, c2, c3, c3] := by simp
  rw [e]
  simp only [hall]

theorem hexToRgb_six (c1 c2 c3 c4 c5 c6 : Char)
    (h : ([c1, c2, c3, c4, c5, c6] : List Char).all isHexDigitJs = true) :
    hexToRgb [c1, c2, c3, c4, c5, c6]
      = some [some ((hexVal c1 * 16 + hexVal c2 : ℕ) : ℚ),
              some ((hexVal c3 * 16 + hexVal c4 : ℕ) : ℚ),
              some ((hexVal c5 * 16 + hexVal c6 : ℕ) : ℚ)] := by
  unfold hexToRgb
  rw [if_neg (by simp)]
  have e : (if ([c1, c2, c3, c4, c5, c6] : List Char).length = 3
      then [c1, c2, c3, c4, c5, c6].flatMap (fun c => [c, c]) else [c1, c2, c3, c4, c5, c6])
      = [c1, c2, c3, c4, c5, c6] := by simp
  rw [e]
  simp only [h]

theorem hexToRgb_eight (cs : List Char) (h : cs.length = 8) : hexToRgb cs = none := by
  rcases cs with _ | ⟨a, _ | ⟨b, _ | ⟨c, _ | ⟨d, _ | ⟨e, _ | ⟨f, _ | ⟨g, _ | ⟨i, _ | ⟨j, t⟩⟩⟩⟩⟩⟩⟩⟩⟩ <;>
      simp_all
  unfold hexToRgb
  rw [if_neg (by simp)]
  have e : (if ([a, b, c, d, e, f, g, i] : List Char).length = 3
      then [a, b, c, d, e, f, g, i].flatMap (fun ch => [ch, ch]) else [a, b, c, d, e, f, g, i])
      = [a, b, c, d, e, f, g, i] := by simp
  rw [e]

theorem parseColor_hash (cs : List Char) : parseColor ('#' :: cs) = hexToRgb cs := rfl

theorem jsParseFloatTok_nonneg {t : List Char} {q : ℚ} (h : jsParseFloatTok t = some q) :
    0 ≤ q := by
  simp only [jsParseFloatTok] at h
  split_ifs at h
  all_goals first
    | exact Option.noConfusion h
    | · injection h with h
        subst h
        positivity

theorem jround_nonneg {x : ℚ} (h : 0 ≤ x) : 0 ≤ jround x := by
  unfold jround
  have : (0 : ℤ) = ⌊(1 : ℚ)/2⌋ := by norm_num
  rw [this]
  exact Int.floor_mono (by linarith)

theorem hexPair_le (a b : Char) : hexVal a * 16 + hexVal b ≤ 255 := by
  have := hexVal_le a
  have := hexVal_le b
  omega

theorem hexToRgb_channels {cs : List Char} {c : JsColor} (h : hexToRgb cs = some c) :
    ∃ x y z : ℕ, c = [some (x : ℚ), some (y : ℚ), some (z : ℚ)] ∧
      x ≤ 255 ∧ y ≤ 255 ∧ z ≤ 255 := by
  simp only [hexToRgb] at h
  split_ifs at h <;>
  · split at h
    all_goals first
      | exact Option.noConfusion h
      | (injection h with h
         subst h
         exact ⟨_, _, _, rfl, hexPair_le _ _, hexPair_le _ _, hexPair_le _ _⟩)

theorem rgbParenthesisToRgb_channels {cs : List Char} {c : JsColor}
    (h : rgbParenthesisToRgb cs = some c) :
    ∀ ch ∈ c, ∀ q : ℚ, ch = some q → ∃ n : ℕ, q = n := by
  simp only [rgbParenthesisToRgb] at h
  split at h
  next a b c3 _ =>
    injection h with h
    subst h
    intro ch hch q hq
    simp only [List.mem_cons, List.not_mem_nil, or_false] at hch
    rcases hch with rfl | rfl | rfl <;> · injection hq with hq; exact ⟨_, hq.symm⟩
  next =>
    split at h
    next t1 t2 t3 _ =>
      injection h with h
      subst h
      intro ch hch q hq
      simp only [List.mem_cons, List.not_mem_nil, or_false] at hch
      have core : ∀ t : List Char, ∀ q : ℚ,
          (jsParseFloatTok t).map (fun q0 => (jround (q0 * 255) : ℚ)) = some q →
          ∃ n : ℕ, q = n := by
        intro t q0 hm
        rcases hmap : jsParseFloatTok t with _ | v
        · rw [hmap] at hm
          simp at hm
        · rw [hmap] at hm
          simp only [Option.map_some'] at hm
          injection hm with hm
          have hv := jsParseFloatTok_nonneg hmap
          have hj : 0 ≤ jround (v * 255) := jround_nonneg (by positivity)
          refine ⟨(jround (v * 255)).toNat, ?_⟩
          rw [← hm]
          exact_mod_cast (Int.toNat_of_nonneg hj).symm
      rcases hch with rfl | rfl | rfl <;> exact core _ q hq
    next => exact Option.noConfusion h

/-- Claim C9 (amended): every channel of a color returned by `parseColor`
is a nonnegative integer, and on the hex path (inputs starting with `#`)
additionally at most 255; the `rgb()`/`color(srgb …)` paths perform no
range check, so channels above 255 occur there (see the counterexample). -/
theorem c9_parseColor_channel_ranges (cs : List Char) (c : JsColor)
    (h : parseColor cs = some c) :
    (∀ ch ∈ c, ∀ q : ℚ, ch = some q → ∃ n : ℕ, q = n) ∧
    (cs.head? = some '#' → ∀ ch ∈ c, ∀ q : ℚ, ch = some q → q ≤ 255) := by
  simp only [parseColor] at h
  split_ifs at h with he hh
  · -- hex path
    obtain ⟨x, y, z, rfl, hx, hy, hz⟩ := hexToRgb_channels h
    constructor
    · intro ch hch q hq
      simp only [List.mem_cons, List.not_mem_nil, or_false] at hch
      rcases hch with rfl | rfl | rfl <;> · injection hq with hq; exact ⟨_, hq.symm⟩
    · intro _ ch hch q hq
      simp only [List.mem_cons, List.not_mem_nil, or_false] at hch
      rcases hch with rfl | rfl | rfl <;>
        · injection hq with hq
          subst hq
          exact_mod_cast by assumption
  · -- parenthesis path; the head is not '#', so the bound is vacuous
    exact ⟨rgbParenthesisToRgb_channels h, fun hhead => absurd hhead hh⟩

/-- Claim C9 counterexample: `parseColor` accepts `rgb(999, 0, 0)` and
returns the out-of-range channel 999, so the claim that every returned
channel lies in [0,255] is false. -/
theorem c9_counterexample :
    parseColorS "rgb(999, 0, 0)" = some [some 999, some 0, some 0] ∧
    ¬ ((999 : ℚ) ≤ 255) := by
  constructor
  · decide
  · norm_num

/-- Claim C9 witness: the amended theorem applied to the concrete input
`#0aff33`. -/
theorem c9_witness :
    (∀ ch ∈ ([some (10 : ℚ), some (255 : ℚ), some (51 : ℚ)] : JsColor),
      ∀ q : ℚ, ch = some q → ∃ n : ℕ, q = n) ∧
    ((('#' :: ['0', 'a', 'f', 'f', '3', '3']).head? = some '#') →
      ∀ ch ∈ ([some (10 : ℚ), some (255 : ℚ), some (51 : ℚ)] : JsColor),
        ∀ q : ℚ, ch = some q → q ≤ 255) :=
  c9_parseColor_channel_ranges ('#' :: ['0', 'a', 'f', 'f', '3', '3'])
    [some 10, some 255, some 51] (by decide)

theorem srgbTok_eval (d1 d2 : Char) (hd1 : isDigitJs d1) (hd2 : isDigitJs d2) :
    jsParseFloatTok [d1, '.', d2]
      = some ((natOfDigits [d1] : ℚ) + (natOfDigits [d2] : ℚ) / 10) := by
  simp only [jsParseFloatTok]
  have e1 : List.takeWhile isDigitJs [d1, '.', d2] = [d1] := by
    simp [List.takeWhile, hd1, show isDigitJs '.' = false from rfl]
  have e2 : List.dropWhile isDigitJs [d1, '.', d2] = ['.', d2] := by
    simp [List.dropWhile, hd1, show isDigitJs '.' = false from rfl]
  rw [e1, e2]
  norm_num [List.takeWhile, hd2]

/-- Claim C3 (amended): `parseColor` succeeds on every `#rgb` and `#rrggbb`
hex literal and on `rgb()`/`rgba()` and `color(srgb r g b [/ a])` literals
(witnessed on representatives), but it returns null on every 8-hex-digit
`#rrggbbaa` literal, and it returns null on non-color syntax such as
`var()` references, `color-mix()` and gradients (witnessed on
representatives). -/
theorem c3_parseColor_accepted_forms :
    (∀ c1 c2 c3 : Char, isHexDigitJs c1 → isHexDigitJs c2 → isHexDigitJs c3 →
      (parseColor ('#' :: [c1, c2, c3])).isSome) ∧
    (∀ c1 c2 c3 c4 c5 c6 : Char,
      ([c1, c2, c3, c4, c5, c6] : List Char).all isHexDigitJs = true →
      (parseColor ('#' :: [c1, c2, c3, c4, c5, c6])).isSome) ∧
    (∀ cs : List Char, cs.length = 8 → parseColor ('#' :: cs) = none) ∧
    parseColorS "rgb(24, 144, 0)" = some [some 24, some 144, some 0] ∧
    parseColorS "rgba(24, 144, 0, 0.5)" = some [some 24, some 144, some 0] ∧
    parseColorS "color(srgb 0.2 0.3 0.4)" = some [some 51, some 77, some 102] ∧
    parseColorS "color(srgb 0.2 0.3 0.4 / 0.5)" = some [some 51, some 77, some 102] ∧
    parseColorS "var(--wiki-color)" = none ∧
    parseColorS "color-mix(in srgb, var(--a) 50%, var(--b))" = none ∧
    parseColorS "linear-gradient(to right, red, blue)" = none := by
  refine ⟨?_, ?_, ?_, by decide, by decide, ?_, ?_, by decide, by decide, by decide⟩
  · intro c1 c2 c3 h1 h2 h3
    rw [parseColor_hash, hexToRgb_three c1 c2 c3 h1 h2 h3]
    rfl
  · intro c1 c2 c3 c4 c5 c6 h
    rw [parseColor_hash, hexToRgb_six c1 c2 c3 c4 c5 c6 h]
    rfl
  · intro cs h
    rw [parseColor_hash, hexToRgb_eight cs h]
  · have h1 : scanRgbTriple "color(srgb 0.2 0.3 0.4)".data = none := by decide
    have h2 : scanSrgb "color(srgb 0.2 0.3 0.4)".data
        = some (['0', '.', '2'], ['0', '.', '3'], ['0', '.', '4']) := by decide
    have e0 : parseColorS "color(srgb 0.2 0.3 0.4)"
        = rgbParenthesisToRgb "color(srgb 0.2 0.3 0.4)".data := rfl
    rw [e0, rgbParenthesisToRgb, h1, h2]
    dsimp only
    rw [srgbTok_eval '0' '2' (by decide) (by decide),
      srgbTok_eval '0' '3' (by decide) (by decide),
      srgbTok_eval '0' '4' (by decide) (by decide)]
    simp only [Option.map_some']
    norm_num [jround, natOfDigits, show ('2' : Char).toNat - '0'.toNat = 2 from rfl,
      show ('3' : Char).toNat - '0'.toNat = 3 from rfl,
      show ('4' : Char).toNat - '0'.toNat = 4 from rfl]
  · have h1 : scanRgbTriple "color(srgb 0.2 0.3 0.4 / 0.5)".data = none := by decide
    have h2 : scanSrgb "color(srgb 0.2 0.3 0.4 / 0.5)".data
        = some (['0', '.', '2'], ['0', '.', '3'], ['0', '.', '4']) := by decide
    have e0 : parseColorS "color(srgb 0.2 0.3 0.4 / 0.5)"
        = rgbParenthesisToRgb "color(srgb 0.2 0.3 0.4 / 0.5)".data := rfl
    rw [e0, rgbParenthesisToRgb, h1, h2]
    dsimp only
    rw [srgbTok_eval '0' '2' (by decide) (by decide),
      srgbTok_eval '0' '3' (by decide) (by decide),
      srgbTok_eval '0' '4' (by decide) (by decide)]
    simp only [Option.map_some']
    norm_num [jround, natOfDigits, show ('2' : Char).toNat - '0'.toNat = 2 from rfl,
      show ('3' : Char).toNat - '0'.toNat = 3 from rfl,
      show ('4' : Char).toNat - '0'.toNat = 4 from rfl]

/-- Claim C3 counterexample: the well-formed `#rrggbbaa` literal
`#0a0b0c0d` is rejected by `parseColor`, contradicting the claim that all
`#rrggbbaa` literals parse successfully. -/
theorem c3_counterexample : parseColorS "#0a0b0c0d" = none := by decide

/-- Claim C3 witness: the amended theorem's quantified parts applied at
concrete inputs. -/
theorem c3_witness :
    (parseColor ('#' :: ['a', 'b', 'c'])).isSome ∧
    (parseColor ('#' :: ['0', '1', 'a', 'B', 'c', 'F'])).isSome ∧
    parseColor ('#' :: ['0', '1', '2', '3', '4', '5', '6', '7']) = none :=
  ⟨c3_parseColor_accepted_forms.1 'a' 'b' 'c' (by decide) (by decide) (by decide),
   c3_parseColor_accepted_forms.2.1 '0' '1' 'a' 'B' 'c' 'F' (by decide),
   c3_parseColor_accepted_forms.2.2.1 ['0', '1', '2', '3', '4', '5', '6', '7'] (by decide)⟩

/-! Claim C8: `valueShouldGoInOutput`. -/

/-- Claim C8 (amended): `valueShouldGoInOutput()` is true exactly when
((the explicit-output flag is set) OR (the variable is not indirectly
defined) OR (the value is unset/empty) OR (the value differs from the base
value)) AND (the resolved color differs from the base color); in
particular a variable whose resolved color equals its base color is always
excluded. -/
theorem c8_valueShouldGoInOutput_characterization (s : VarState) :
    (valueShouldGoInOutput s = true ↔
      ((truthyB s.saveExplicitRgbInOutput = true ∨ truthyB s.useIndirectDefinition = false ∨
        truthyS s.value = false ∨ s.value ≠ s.baseValue) ∧
       rgbEqual s.rgb s.baseColor = false)) ∧
    (rgbEqual s.rgb s.baseColor = true → valueShouldGoInOutput s = false) := by
  constructor
  · simp only [valueShouldGoInOutput, Bool.and_eq_true, Bool.or_eq_true, Bool.not_eq_true',
      decide_eq_true_eq]
    constructor
    · rintro ⟨h1, h2⟩
      refine ⟨?_, h2⟩
      rcases h1 with ((h | h) | h) | h
      · exact Or.inl h
      · exact Or.inr (Or.inl h)
      · exact Or.inr (Or.inr (Or.inl h))
      · exact Or.inr (Or.inr (Or.inr h))
    · rintro ⟨h1, h2⟩
      refine ⟨?_, h2⟩
      rcases h1 with h | h | h | h
      · exact Or.inl (Or.inl (Or.inl h))
      · exact Or.inl (Or.inl (Or.inr h))
      · exact Or.inl (Or.inr h)
      · exact Or.inr h
  · intro h
    simp [valueShouldGoInOutput, h]

/-- Claim C8 counterexample: an indirect variable with unset value and
base value (loosely equal) but differing colors is included by the code
(the `!this.value` disjunct) while the claim's condition excludes it. -/
theorem c8_counterexample :
    valueShouldGoInOutput
      { VarState.init with
        useIndirectDefinition := some true,
        rgb := some [some 1, some 1, some 1],
        baseColor := some [some 2, some 2, some 2] } = true ∧
    specValueShouldGoInOutput
      { VarState.init with
        useIndirectDefinition := some true,
        rgb := some [some 1, some 1, some 1],
        baseColor := some [some 2, some 2, some 2] } = false := by
  constructor <;> decide

/-- Claim C8 witness: the amended theorem applied to the fresh state, whose
color equals its base color (both unset), hence exclusion. -/
theorem c8_witness : valueShouldGoInOutput VarState.init = false :=
  (c8_valueShouldGoInOutput_characterization VarState.init).2 (by decide)

/-! Claim C10: `colorContrast`. -/

theorem luminanceContrast_comm (a b : ℝ) : luminanceContrast a b = luminanceContrast b a := by
  unfold luminanceContrast
  rcases lt_trichotomy a b with h | h | h
  · rw [if_neg (by linarith), if_pos h]
  · subst h
    simp
  · rw [if_pos h, if_neg (by linarith)]

theorem relativeLuminance_nonneg (c : RgbR) (h1 : 0 ≤ c.1) (h2 : 0 ≤ c.2.1)
    (h3 : 0 ≤ c.2.2) : 0 ≤ relativeLuminance c := by
  unfold relativeLuminance
  have key : ∀ x : ℝ, 0 ≤ x →
      0 ≤ (if x / 255 < 0.03928 then x / 255 / 12.92
        else Real.rpow ((x / 255 + 0.055) / 1.055) 2.4) := by
    intro x hx
    split_ifs
    · positivity
    · exact Real.rpow_nonneg (by positivity) _
  have k1 := key c.1 h1
  have k2 := key c.2.1 h2
  have k3 := key c.2.2 h3
  dsimp only
  nlinarith [k1, k2, k3]

theorem luminanceContrast_ge_one (a b : ℝ) (ha : 0 ≤ a) (hb : 0 ≤ b) :
    1 ≤ luminanceContrast a b := by
  unfold luminanceContrast
  split_ifs with h
  · rw [le_div_iff₀ (by linarith)]
    linarith
  · rw [le_div_iff₀ (by linarith)]
    push_neg at h
    linarith

/-- Claim C10: for non-null colors `colorContrast` is symmetric, and with
channels in range (nonnegative suffices) its value is at least 1, because
`luminanceContrast` divides the larger luminance plus 0.05 by the smaller
plus 0.05; it is `undefined` (`none`) exactly when an argument is null. -/
theorem c10_colorContrast_properties :
    (∀ c1 c2 : RgbR, colorContrast (some c1) (some c2) = colorContrast (some c2) (some c1)) ∧
    (∀ c1 c2 : RgbR, (0 ≤ c1.1 ∧ 0 ≤ c1.2.1 ∧ 0 ≤ c1.2.2) →
      (0 ≤ c2.1 ∧ 0 ≤ c2.2.1 ∧ 0 ≤ c2.2.2) →
      ∀ r : ℝ, colorContrast (some c1) (some c2) = some r → 1 ≤ r) ∧
    (∀ o : Option RgbR, colorContrast none o = none ∧ colorContrast o none = none) := by
  refine ⟨?_, ?_, ?_⟩
  · intro c1 c2
    unfold colorContrast
    dsimp only
    rw [luminanceContrast_comm]
  · intro c1 c2 h1 h2 r hr
    unfold colorContrast at hr
    dsimp only at hr
    injection hr with hr
    subst hr
    exact luminanceContrast_ge_one _ _
      (relativeLuminance_nonneg c1 h1.1 h1.2.1 h1.2.2)
      (relativeLuminance_nonneg c2 h2.1 h2.2.1 h2.2.2)
  · intro o
    constructor
    · rfl
    · cases o <;> rfl

/-- Claim C10 witness: the theorem applied to black and white. -/
theorem c10_witness :
    colorContrast (some ((0 : ℝ), (0 : ℝ), (0 : ℝ))) (some ((255 : ℝ), 255, 255))
      = colorContrast (some ((255 : ℝ), 255, 255)) (some ((0 : ℝ), 0, 0)) ∧
    (∀ r : ℝ, colorContrast (some ((0 : ℝ), 0, 0)) (some ((255 : ℝ), 255, 255)) = some r →
      1 ≤ r) :=
  ⟨c10_colorContrast_properties.1 (0, 0, 0) (255, 255, 255),
   fun r hr => c10_colorContrast_properties.2.1 (0, 0, 0) (255, 255, 255)
     (by norm_num) (by norm_num) r hr⟩

/-! Claims C4 and C5: `fixContrastWithLightness`. -/

theorem relativeLuminance_black : relativeLuminance (0, 0, 0) = 0 := by
  unfold relativeLuminance
  norm_num

theorem relativeLuminance_white : relativeLuminance (255, 255, 255) = 1 := by
  unfold relativeLuminance
  dsimp only
  rw [if_neg (by norm_num)]
  have e : ((255 : ℝ) / 255 + 0.055) / 1.055 = 1 := by norm_num
  rw [e]
  have e2 : Real.rpow 1 2.4 = 1 := Real.one_rpow 2.4
  rw [e2]
  norm_num

/-- Claim C4: when the subject's current relative luminance already lies
outside the blocked luminance union computed from its contrast links (at
or below the union's lower bound, at or above its upper bound, or when the
union is empty), `fixContrastWithLightness` leaves the subject's color
unchanged; in particular, for a link with subject luminance 0.04 and
target luminance 0.91 at `minContrast` 4.5 the subject luminance is at or
below the blocked interval's lower bound, so the call is a no-op. -/
theorem c4_fixContrast_noop :
    (∀ (rgb : RgbR) (links : List ContrastLink),
      (fixContrastBlockedRange links = none ∨
        ∃ lo hi, fixContrastBlockedRange links = some (lo, hi) ∧
          (relativeLuminance rgb ≤ lo ∨ relativeLuminance rgb ≥ hi)) →
      fixContrastWithLightness rgb links = none) ∧
    ((0.04 : ℝ) ≤ (neededLuminanceForContrast 0.91 4.5).1) := by
  constructor
  · intro rgb links h
    unfold fixContrastWithLightness
    split_ifs with he
    · rfl
    · rcases h with h | ⟨lo, hi, h, hside⟩
      · rw [h]
      · rw [h]
        dsimp only
        rw [if_pos hside]
  · unfold neededLuminanceForContrast
    rw [if_neg (by norm_num)]
    norm_num

/-- Claim C4 witness: a black subject against a white target at
`minContrast` 4.5 is already sufficient and `fixContrastWithLightness`
does not adjust it. -/
theorem c4_witness :
    fixContrastWithLightness ((0 : ℝ), 0, 0) [(((255 : ℝ), 255, 255), 4.5)] = none := by
  have hb : fixContrastBlockedRange [(((255 : ℝ), 255, 255), 4.5)]
      = some ((1 + 0.05) / 4.5 - 0.05, 4.5 * (1 + 0.05) - 0.05) := by
    unfold fixContrastBlockedRange
    simp only [List.foldl_cons, List.foldl_nil, relativeLuminance_white]
    unfold neededLuminanceForContrast
    rw [if_neg (by norm_num)]
    rw [if_neg (by norm_num)]
  refine c4_fixContrast_noop.1 _ _ (Or.inr ⟨_, _, hb, Or.inl ?_⟩)
  rw [relativeLuminance_black]
  norm_num

/-- Claim C5 (code bug): the pure-black/white fallback of
`fixContrastWithLightness` tests `avoidLuminance[0] < 0 &&
avoidLuminance[1] > 1` on bounds that have already been clamped into
`[0, 1]`, so the test can never be true and the fallback branch is
unreachable for all inputs. -/
theorem c5_fixContrast_fallback_unreachable (lo hi : ℝ) :
    fixContrastRangeFull (fixContrastPaddedRange lo hi) = false := by
  unfold fixContrastRangeFull fixContrastPaddedRange
  have h1 : ¬ (max (lo - 0.005) 0 < 0) := not_lt.mpr (le_max_right _ _)
  simp [h1]

/-! Propagation frame lemmas: the `colorChanged` walk only rewrites `rgb`
fields, and it only fires on variables with a truthy
`useIndirectDefinition`. -/

theorem eqExceptRgb_refl (g : Graph) : eqExceptRgb g g := fun _ => rfl

theorem eqExceptRgb_trans {g1 g2 g3 : Graph} (h12 : eqExceptRgb g1 g2)
    (h23 : eqExceptRgb g2 g3) : eqExceptRgb g1 g3 :=
  fun x => (h23 x).trans (h12 x)

theorem eqExceptRgb_flag {g g' : Graph} (h : eqExceptRgb g g') (x : String) :
    (g' x).useIndirectDefinition = (g x).useIndirectDefinition :=
  congrArg (fun t => t.2.2.2.1) (h x)

theorem eqExceptRgb_deps {g g' : Graph} (h : eqExceptRgb g g') (x : String) :
    (g' x).dependsOnVars = (g x).dependsOnVars :=
  congrArg (fun t => t.2.2.2.2.2.2.2.1) (h x)

theorem eqExceptRgb_affects {g g' : Graph} (h : eqExceptRgb g g') (x : String) :
    (g' x).affectsVars = (g x).affectsVars :=
  congrArg (fun t => t.2.2.2.2.2.2.2.2.1) (h x)

theorem eqExceptRgb_update_rgb (g : Graph) (n : String) (r : Option JsColor) :
    eqExceptRgb g (updateVar g n (fun s => { s with rgb := r })) := by
  intro x
  unfold updateVar
  split_ifs <;> rfl

theorem updateVar_rgb_other (g : Graph) (n : String) (f : VarState → VarState)
    (x : String) (h : x ≠ n) : updateVar g n f x = g x := by
  unfold updateVar
  rw [if_neg h]

theorem propagateStep_eqExceptRgb (o : Oracle)
    (recurse : Graph → String → Graph × List String)
    (hrec : ∀ g m, eqExceptRgb g (recurse g m).1) (g : Graph) (m : String) :
    eqExceptRgb g (propagateStep o recurse g m).1 := by
  simp only [propagateStep]
  split_ifs
  · exact eqExceptRgb_refl g
  · exact eqExceptRgb_trans (eqExceptRgb_update_rgb g m _) (hrec _ m)
  · exact eqExceptRgb_refl g

theorem foldlPropagate_eqExceptRgb (o : Oracle)
    (recurse : Graph → String → Graph × List String)
    (hrec : ∀ g m, eqExceptRgb g (recurse g m).1) (l : List String) :
    ∀ (g : Graph) (log : List String),
      eqExceptRgb g
        ((l.foldl (fun acc m =>
          let r := propagateStep o recurse acc.1 m
          (r.1, acc.2 ++ r.2)) (g, log)).1) := by
  induction l with
  | nil => intro g log; exact eqExceptRgb_refl g
  | cons m t ih =>
    intro g log
    rw [List.foldl_cons]
    exact eqExceptRgb_trans (propagateStep_eqExceptRgb o recurse hrec g m) (ih _ _)

theorem colorChangedRun_eqExceptRgb (o : Oracle) :
    ∀ (fuel : ℕ) (g : Graph) (n : String), eqExceptRgb g (colorChangedRun o fuel g n).1 := by
  intro fuel
  induction fuel with
  | zero => intro g n; exact eqExceptRgb_refl g
  | succ f ih =>
    intro g n
    simp only [colorChangedRun]
    exact foldlPropagate_eqExceptRgb o (colorChangedRun o f) (fun g m => ih g m) _ g []

theorem propagateStep_rgb_unflagged (o : Oracle)
    (recurse : Graph → String → Graph × List String)
    (hrec : ∀ g n x, truthyB (g x).useIndirectDefinition = false →
      ((recurse g n).1 x).rgb = (g x).rgb)
    (g : Graph) (m x : String) (hx : truthyB (g x).useIndirectDefinition = false) :
    ((propagateStep o recurse g m).1 x).rgb = (g x).rgb := by
  simp only [propagateStep]
  split_ifs with h1 h2
  · rfl
  · have hmx : x ≠ m := by
      intro e
      subst e
      rw [Bool.and_eq_true] at h1
      rw [h1.1] at hx
      exact Bool.noConfusion hx
    have hg2x : updateVar g m
        (fun s => { s with rgb := some (getCalculatedColorRgb o g m) }) x = g x :=
      updateVar_rgb_other g m _ x hmx
    have hx2 : truthyB
        (updateVar g m
          (fun s => { s with rgb := some (getCalculatedColorRgb o g m) }) x).useIndirectDefinition
        = false := by
      rw [hg2x]
      exact hx
    calc ((recurse (updateVar g m
            (fun s => { s with rgb := some (getCalculatedColorRgb o g m) })) m).1 x).rgb
        = ((updateVar g m
            (fun s => { s with rgb := some (getCalculatedColorRgb o g m) })) x).rgb :=
          hrec _ m x hx2
      _ = (g x).rgb := by rw [hg2x]
  · rfl

theorem colorChangedRun_rgb_unflagged (o : Oracle) :
    ∀ (fuel : ℕ) (g : Graph) (n x : String),
      truthyB (g x).useIndirectDefinition = false →
      ((colorChangedRun o fuel g n).1 x).rgb = (g x).rgb := by
  intro fuel
  induction fuel with
  | zero => intro g n x _; rfl
  | succ f ih =>
    intro g n x hx
    simp only [colorChangedRun]
    have main : ∀ (l : List String) (g : Graph) (log : List String),
        truthyB (g x).useIndirectDefinition = false →
        (((l.foldl (fun acc m =>
          let r := propagateStep o (colorChangedRun o f) acc.1 m
          (r.1, acc.2 ++ r.2)) (g, log)).1) x).rgb = (g x).rgb := by
      intro l
      induction l with
      | nil => intro g log _; rfl
      | cons m t iht =>
        intro g log hg
        rw [List.foldl_cons]
        have hstep := propagateStep_rgb_unflagged o (colorChangedRun o f)
          (fun g n x => ih g n x) g m x hg
        have hflagstep : truthyB
            ((propagateStep o (colorChangedRun o f) g m).1 x).useIndirectDefinition
            = false := by
          rw [eqExceptRgb_flag (propagateStep_eqExceptRgb o (colorChangedRun o f)
            (fun g m => colorChangedRun_eqExceptRgb o f g m) g m) x]
          exact hg
        rw [iht _ _ hflagstep]
        exact hstep
    exact main _ g [] hx

theorem propagateStep_log_flagged (o : Oracle)
    (recurse : Graph → String → Graph × List String)
    (hrec : ∀ g n x, x ∈ (recurse g n).2 → truthyB (g x).useIndirectDefinition = true)
    (g : Graph) (m x : String) (hx : x ∈ (propagateStep o recurse g m).2) :
    truthyB (g x).useIndirectDefinition = true := by
  simp only [propagateStep] at hx
  split_ifs at hx with h1 h2
  · exact absurd hx (List.not_mem_nil x)
  · rw [List.mem_cons] at hx
    rcases hx with rfl | hx
    · rw [Bool.and_eq_true] at h1
      exact h1.1
    · have hmem := hrec _ m x hx
      by_cases hmx : x = m
      · subst hmx
        rw [Bool.and_eq_true] at h1
        exact h1.1
      · rw [updateVar_rgb_other g m _ x hmx] at hmem
        exact hmem
  · exact absurd hx (List.not_mem_nil x)

theorem colorChangedRun_log_flagged (o : Oracle) :
    ∀ (fuel : ℕ) (g : Graph) (n x : String),
      x ∈ (colorChangedRun o fuel g n).2 →
      truthyB (g x).useIndirectDefinition = true := by
  intro fuel
  induction fuel with
  | zero => intro g n x hx; exact absurd hx (List.not_mem_nil x)
  | succ f ih =>
    intro g n x hx
    simp only [colorChangedRun] at hx
    have main : ∀ (l : List String) (g : Graph) (log : List String),
        x ∈ ((l.foldl (fun acc m =>
          let r := propagateStep o (colorChangedRun o f) acc.1 m
          (r.1, acc.2 ++ r.2)) (g, log)).2) →
        (x ∈ log ∨ truthyB (g x).useIndirectDefinition = true) := by
      intro l
      induction l with
      | nil => intro g log h; exact Or.inl h
      | cons m t iht =>
        intro g log h
        rw [List.foldl_cons] at h
        rcases iht _ _ h with h' | h'
        · rw [List.mem_append] at h'
          rcases h' with h' | h'
          · exact Or.inl h'
          · exact Or.inr (propagateStep_log_flagged o (colorChangedRun o f)
              (fun g n x => ih g n x) g m x h')
        · rw [eqExceptRgb_flag (propagateStep_eqExceptRgb o (colorChangedRun o f)
            (fun g m => colorChangedRun_eqExceptRgb o f g m) g m) x] at h'
          exact Or.inr h'
    rcases main _ g [] hx with h | h
    · exact absurd h (List.not_mem_nil x)
    · exact h

/-- Point evaluation of `updateVar` at the updated variable. -/
theorem updateVar_at (g : Graph) (n : String) (f : VarState → VarState) :
    updateVar g n f n = f (g n) := by
  simp [updateVar]

theorem eqExceptLinks_refl (g : Graph) : eqExceptLinks g g := fun _ => rfl

theorem eqExceptLinks_trans {g1 g2 g3 : Graph} (h12 : eqExceptLinks g1 g2)
    (h23 : eqExceptLinks g2 g3) : eqExceptLinks g1 g3 :=
  fun x => (h23 x).trans (h12 x)

theorem eqExceptLinks_rgb {g g' : Graph} (h : eqExceptLinks g g') (x : String) :
    (g' x).rgb = (g x).rgb :=
  congrArg (fun t => t.2.2.1) (h x)

theorem eqExceptLinks_base {g g' : Graph} (h : eqExceptLinks g g') (x : String) :
    (g' x).baseColor = (g x).baseColor :=
  congrArg (fun t => t.2.2.2.1) (h x)

theorem eqExceptLinks_flag {g g' : Graph} (h : eqExceptLinks g g') (x : String) :
    (g' x).useIndirectDefinition = (g x).useIndirectDefinition :=
  congrArg (fun t => t.2.2.2.2.1) (h x)

theorem eqExceptLinks_updateVar_deps (g : Graph) (n : String) (v : Option (List String)) :
    eqExceptLinks g (updateVar g n (fun s => { s with dependsOnVars := v })) := by
  intro x
  unfold updateVar
  split_ifs <;> rfl

theorem eqExceptLinks_updateVar_aff (g : Graph) (n : String)
    (F : VarState → Option (List String)) :
    eqExceptLinks g (updateVar g n (fun s => { s with affectsVars := F s })) := by
  intro x
  unfold updateVar
  split_ifs <;> rfl

theorem eqExceptLinks_foldl {β : Type} (step : Graph → β → Graph)
    (hstep : ∀ g b, eqExceptLinks g (step g b)) (l : List β) :
    ∀ g : Graph, eqExceptLinks g (l.foldl step g) := by
  induction l with
  | nil => intro g; exact eqExceptLinks_refl g
  | cons b t ih =>
    intro g
    rw [List.foldl_cons]
    exact eqExceptLinks_trans (hstep g b) (ih _)

theorem setDependsOnVars_eqExceptLinks (g : Graph) (n : String) (v : Option (List String)) :
    eqExceptLinks g (setDependsOnVars g n v) := by
  simp only [setDependsOnVars]
  cases v with
  | none =>
    exact eqExceptLinks_trans (eqExceptLinks_updateVar_deps g n none)
      (eqExceptLinks_foldl _ (fun g x => eqExceptLinks_updateVar_aff g x _) _ _)
  | some l =>
    exact eqExceptLinks_trans (eqExceptLinks_updateVar_deps g n (some l))
      (eqExceptLinks_trans
        (eqExceptLinks_foldl _ (fun g x => eqExceptLinks_updateVar_aff g x _) _ _)
        (eqExceptLinks_foldl _ (fun g x => eqExceptLinks_updateVar_aff g x _) _ _))

theorem updateDependencyVariables_eqExceptLinks (dom : List String) (g : Graph) (n : String) :
    eqExceptLinks g (updateDependencyVariables dom g n) := by
  simp only [updateDependencyVariables]
  split_ifs <;> exact setDependsOnVars_eqExceptLinks g n _

theorem eqExceptRgb_base {g g' : Graph} (h : eqExceptRgb g g') (x : String) :
    (g' x).baseColor = (g x).baseColor :=
  congrArg (fun t => t.2.2.1) (h x)

theorem setUseIndirect_false_fields (dom : List String) (o : Oracle) (fuel : ℕ)
    (g : Graph) (n : String) :
    ((setUseIndirect dom o fuel g n false).1 n).useIndirectDefinition = some false ∧
    ((setUseIndirect dom o fuel g n false).1 n).rgb = (g n).rgb ∧
    ((setUseIndirect dom o fuel g n false).1 n).baseColor = (g n).baseColor := by
  simp only [setUseIndirect, Bool.false_eq_true, if_false]
  split_ifs with h1 h2
  · exact ⟨h1, rfl, rfl⟩
  · exfalso
    rw [eqExceptLinks_flag (updateDependencyVariables_eqExceptLinks _ _ _) n,
      eqExceptRgb_flag (colorChangedRun_eqExceptRgb o fuel _ n) n,
      updateVar_at, updateVar_at] at h2
    exact Bool.noConfusion h2
  · dsimp only
    refine ⟨?_, ?_, ?_⟩
    · rw [eqExceptLinks_flag (updateDependencyVariables_eqExceptLinks _ _ _) n,
        eqExceptRgb_flag (colorChangedRun_eqExceptRgb o fuel _ n) n,
        updateVar_at, updateVar_at]
    · have hfl : truthyB ((updateVar (updateVar g n
          (fun s => { s with useIndirectDefinition := some false })) n
          (fun s => { s with explicitBg := "" })) n).useIndirectDefinition = false := by
        rw [updateVar_at, updateVar_at]
        rfl
      rw [eqExceptLinks_rgb (updateDependencyVariables_eqExceptLinks _ _ _) n]
      rw [colorChangedRun_rgb_unflagged o fuel _ n n hfl]
      rw [updateVar_at, updateVar_at]
    · rw [eqExceptLinks_base (updateDependencyVariables_eqExceptLinks _ _ _) n,
        eqExceptRgb_base (colorChangedRun_eqExceptRgb o fuel _ n) n,
        updateVar_at, updateVar_at]

theorem setUseIndirect_noop (dom : List String) (o : Oracle) (fuel : ℕ)
    (g : Graph) (n : String) (b : Bool) (h : (g n).useIndirectDefinition = some b) :
    setUseIndirect dom o fuel g n b = (g, []) := by
  rw [setUseIndirect, if_pos h]

theorem setColor_false_fields (dom : List String) (o : Oracle) (fuel : ℕ)
    (g : Graph) (n : String) (c : JsColor) (alsoBase : Bool)
    (hc : rgbEqual (some c) (some c) = true) :
    ((setColor dom o fuel g n c alsoBase (some false)).1 n).useIndirectDefinition = some false ∧
    rgbEqual ((setColor dom o fuel g n c alsoBase (some false)).1 n).rgb (some c) = true := by
  cases alsoBase with
  | false =>
    simp only [setColor, Bool.false_eq_true, if_false]
    obtain ⟨hf, hr, hb⟩ := setUseIndirect_false_fields dom o fuel g n
    split_ifs with h1
    · exact ⟨hf, h1⟩
    · constructor
      · rw [eqExceptRgb_flag (colorChangedRun_eqExceptRgb o fuel _ n) n, updateVar_at]
        exact hf
      · have hfl : truthyB ((updateVar (setUseIndirect dom o fuel g n false).1 n
            (fun s => { s with rgb := some c })) n).useIndirectDefinition = false := by
          rw [updateVar_at]
          show truthyB ((setUseIndirect dom o fuel g n false).1 n).useIndirectDefinition = false
          rw [hf]
          rfl
        rw [colorChangedRun_rgb_unflagged o fuel _ n n hfl, updateVar_at]
        exact hc
  | true =>
    simp only [setColor, eq_self_iff_true, if_true]
    obtain ⟨hf, hr, hb⟩ := setUseIndirect_false_fields dom o fuel
      (updateVar g n (fun s => { s with baseColor := some c })) n
    split_ifs with h1
    · exact ⟨hf, h1⟩
    · constructor
      · rw [eqExceptRgb_flag (colorChangedRun_eqExceptRgb o fuel _ n) n, updateVar_at]
        exact hf
      · have hfl : truthyB ((updateVar
            (setUseIndirect dom o fuel
              (updateVar g n (fun s => { s with baseColor := some c })) n false).1 n
            (fun s => { s with rgb := some c })) n).useIndirectDefinition = false := by
          rw [updateVar_at]
          show truthyB
            ((setUseIndirect dom o fuel
              (updateVar g n (fun s => { s with baseColor := some c }))
              n false).1 n).useIndirectDefinition = false
          rw [hf]
          rfl
        rw [colorChangedRun_rgb_unflagged o fuel _ n n hfl, updateVar_at]
        exact hc

/-- Claim C2 (amended): for a variable whose `useIndirectDefinition` flag is
already the boolean `false` passed by default, `setColor` with a color
loosely equal to the current rgb is a no-op apart from the base-color
update, firing no propagation; and a second `setColor` call with the same
NaN-free color right after a first one is always silent, so two identical
calls produce at most one propagation pass. -/
theorem c2_setColor_idempotent (dom : List String) (o : Oracle) (fuel : ℕ)
    (g : Graph) (n : String) (c : JsColor) (alsoBase : Bool)
    (hc : rgbEqual (some c) (some c) = true) :
    ((g n).useIndirectDefinition = some false →
      rgbEqual (g n).rgb (some c) = true →
      setColor dom o fuel g n c alsoBase (some false)
        = (if alsoBase then updateVar g n (fun s => { s with baseColor := some c }) else g,
           ([] : List String)))
    ∧ setColor dom o fuel
        (setColor dom o fuel g n c false (some false)).1 n c false (some false)
      = ((setColor dom o fuel g n c false (some false)).1, []) := by
  have key : ∀ (G : Graph), (G n).useIndirectDefinition = some false →
      rgbEqual (G n).rgb (some c) = true →
      setColor dom o fuel G n c false (some false) = (G, []) := by
    intro G hf hr
    simp only [setColor, Bool.false_eq_true, if_false]
    rw [setUseIndirect_noop dom o fuel G n false hf]
    rw [if_pos hr]
  constructor
  · intro hf hr
    cases alsoBase with
    | false =>
      rw [key g hf hr]
      rfl
    | true =>
      simp only [setColor, eq_self_iff_true, if_true]
      have hf1 :
          (updateVar g n (fun s => { s with baseColor := some c }) n).useIndirectDefinition
          = some false := by
        rw [updateVar_at]
        exact hf
      rw [setUseIndirect_noop dom o fuel _ n false hf1]
      have hr1 : rgbEqual (((updateVar g n
          (fun s => { s with baseColor := some c }), ([] : List String)).1 n)).rgb
          (some c) = true := by
        show rgbEqual ((updateVar g n (fun s => { s with baseColor := some c })) n).rgb
          (some c) = true
        rw [updateVar_at]
        exact hr
      rw [if_pos hr1]
  · obtain ⟨hf, hr⟩ := setColor_false_fields dom o fuel g n c false hc
    exact key _ hf hr

/-- Claim C2 counterexample: on a fresh variable (flag undefined) whose rgb
already equals the color passed in, the default third argument `false` of
`setColor` flips the flag through the bound property setter, which fires
`colorChangedThrottled` (the call log is `["--x"]`, not empty) even though
the rgb never changes. -/
theorem c2_counterexample :
    rgbEqual (c2Graph "--x").rgb (some [some 0, some 0, some 0]) = true ∧
    (setColor [] (fun _ _ => []) 1 c2Graph "--x" [some 0, some 0, some 0]
      false (some false)).2 = ["--x"] := by
  constructor
  · decide
  · rfl

/-- Claim C2 witness: the amended theorem applied to a concrete
one-variable graph whose flag is already `false` and whose rgb is (0,0,0). -/
theorem c2_witness :
    (setColor [] (fun _ _ => []) 1 c2GraphF "--x" [some 0, some 0, some 0] false (some false)
      = (c2GraphF, [])) ∧
    setColor [] (fun _ _ => []) 1
        (setColor [] (fun _ _ => []) 1 c2GraphF "--x"
          [some 0, some 0, some 0] false (some false)).1
        "--x" [some 0, some 0, some 0] false (some false)
      = ((setColor [] (fun _ _ => []) 1 c2GraphF "--x"
          [some 0, some 0, some 0] false (some false)).1, []) := by
  have h := c2_setColor_idempotent [] (fun _ _ => []) 1 c2GraphF "--x"
    [some 0, some 0, some 0] false (by decide)
  exact ⟨h.1 rfl (by decide), h.2⟩

theorem eqLinks_refl (g : Graph) : eqLinks g g := fun _ => rfl

theorem eqLinks_trans {g1 g2 g3 : Graph} (h12 : eqLinks g1 g2) (h23 : eqLinks g2 g3) :
    eqLinks g1 g3 :=
  fun x => (h23 x).trans (h12 x)

theorem eqLinks_of_eqExceptRgb {g g' : Graph} (h : eqExceptRgb g g') : eqLinks g g' :=
  fun x => by
    have hd := eqExceptRgb_deps h x
    have ha := eqExceptRgb_affects h x
    unfold linkPair
    rw [hd, ha]

theorem eqLinks_updateVar (g : Graph) (n : String) (f : VarState → VarState)
    (hf : ∀ s, linkPair (f s) = linkPair s) : eqLinks g (updateVar g n f) := by
  intro x
  unfold updateVar
  split_ifs with h
  · exact hf (g x)
  · rfl

theorem Inv_eqLinks {g g' : Graph} (hL : eqLinks g g') (h : Inv g) : Inv g' := by
  intro a b
  have hda : depsL (g' a) = depsL (g a) := congrArg (fun t => t.1.getD []) (hL a)
  have hab : affL (g' b) = affL (g b) := congrArg (fun t => t.2.getD []) (hL b)
  rw [hda, hab]
  exact h a b

theorem affL_push (s : VarState) (n y : String) :
    y ∈ affL { s with affectsVars := pushAffects s.affectsVars n } ↔ y ∈ affL s ∨ y = n := by
  show y ∈ (pushAffects s.affectsVars n).getD [] ↔ y ∈ s.affectsVars.getD [] ∨ y = n
  cases h : s.affectsVars with
  | none => simp [pushAffects]
  | some L =>
    simp only [pushAffects, Option.getD_some]
    split_ifs with hn
    · simp only [Option.getD_some]
      constructor
      · exact Or.inl
      · rintro (hy | rfl)
        · exact hy
        · exact hn
    · simp [List.mem_append]

theorem affL_remove (s : VarState) (n y : String) :
    y ∈ affL { s with affectsVars := s.affectsVars.map (fun l2 => l2.filter (· ≠ n)) } ↔
      y ∈ affL s ∧ y ≠ n := by
  show y ∈ (s.affectsVars.map (fun l2 => l2.filter (· ≠ n))).getD [] ↔
    y ∈ s.affectsVars.getD [] ∧ y ≠ n
  cases h : s.affectsVars with
  | none => simp
  | some L => simp [List.mem_filter]

theorem pushFoldl_char (n : String) (l : List String) :
    ∀ G : Graph,
      (∀ x, ((l.foldl (fun gm x => updateVar gm x
          (fun s => { s with affectsVars := pushAffects s.affectsVars n })) G) x).dependsOnVars
        = (G x).dependsOnVars) ∧
      (∀ x y, y ∈ affL ((l.foldl (fun gm x => updateVar gm x
          (fun s => { s with affectsVars := pushAffects s.affectsVars n })) G) x)
        ↔ (y ∈ affL (G x) ∨ (y = n ∧ x ∈ l))) := by
  induction l with
  | nil =>
    intro G
    refine ⟨fun x => rfl, fun x y => ?_⟩
    simp
  | cons x0 t ih =>
    intro G
    obtain ⟨ihd, ihm⟩ := ih (updateVar G x0
      (fun s => { s with affectsVars := pushAffects s.affectsVars n }))
    constructor
    · intro x
      rw [List.foldl_cons, ihd x]
      by_cases hx : x = x0
      · subst hx
        rw [updateVar_at]
      · rw [updateVar_rgb_other G x0 _ x hx]
    · intro x y
      rw [List.foldl_cons, ihm x y]
      by_cases hx : x = x0
      · subst hx
        rw [updateVar_at]
        simp only [affL_push, List.mem_cons]
        tauto
      · rw [updateVar_rgb_other G x0 _ x hx]
        simp only [List.mem_cons]
        have : (x = x0) → False := hx
        tauto

theorem removeFoldl_char (n : String) (rl : List String) :
    ∀ G : Graph,
      (∀ x, ((rl.foldl (fun gm x => updateVar gm x
          (fun s => { s with affectsVars := s.affectsVars.map (fun l2 => l2.filter (· ≠ n)) }))
          G) x).dependsOnVars
        = (G x).dependsOnVars) ∧
      (∀ x y, y ∈ affL ((rl.foldl (fun gm x => updateVar gm x
          (fun s => { s with affectsVars := s.affectsVars.map (fun l2 => l2.filter (· ≠ n)) }))
          G) x)
        ↔ (y ∈ affL (G x) ∧ ¬(y = n ∧ x ∈ rl))) := by
  induction rl with
  | nil =>
    intro G
    refine ⟨fun x => rfl, fun x y => ?_⟩
    simp
  | cons x0 t ih =>
    intro G
    obtain ⟨ihd, ihm⟩ := ih (updateVar G x0
      (fun s => { s with affectsVars := s.affectsVars.map (fun l2 => l2.filter (· ≠ n)) }))
    constructor
    · intro x
      rw [List.foldl_cons, ihd x]
      by_cases hx : x = x0
      · subst hx
        rw [updateVar_at]
      · rw [updateVar_rgb_other G x0 _ x hx]
    · intro x y
      rw [List.foldl_cons, ihm x y]
      by_cases hx : x = x0
      · subst hx
        rw [updateVar_at]
        simp only [affL_remove, List.mem_cons]
        tauto
      · rw [updateVar_rgb_other G x0 _ x hx]
        simp only [List.mem_cons]
        have : (x = x0) → False := hx
        tauto

theorem setDependsOnVars_char (g : Graph) (n : String) (v : Option (List String)) :
    (∀ a, ((setDependsOnVars g n v) a).dependsOnVars
      = (if a = n then v else (g a).dependsOnVars)) ∧
    (∀ b y, y ∈ affL ((setDependsOnVars g n v) b) ↔
      (match v with
       | none => y ∈ affL (g b) ∧ ¬(y = n ∧ b ∈ depsL (g n))
       | some l => (y ∈ affL (g b) ∨ (y = n ∧ b ∈ l)) ∧
           ¬(y = n ∧ b ∈ (depsL (g n)).filter (fun x => ¬ l.contains x)))) := by
  cases v with
  | none =>
    simp only [setDependsOnVars]
    obtain ⟨hd, hm⟩ := removeFoldl_char n ((g n).dependsOnVars.getD [])
      (updateVar g n (fun s => { s with dependsOnVars := none }))
    constructor
    · intro a
      rw [hd a]
      by_cases ha : a = n
      · subst ha
        rw [updateVar_at, if_pos rfl]
      · rw [updateVar_rgb_other g n _ a ha, if_neg ha]
    · intro b y
      rw [hm b y]
      by_cases hb : b = n
      · subst hb
        rw [updateVar_at]
        exact Iff.rfl
      · rw [updateVar_rgb_other g n _ b hb]
        exact Iff.rfl
  | some l =>
    simp only [setDependsOnVars]
    obtain ⟨hd2, hm2⟩ := pushFoldl_char n l
      (updateVar g n (fun s => { s with dependsOnVars := some l }))
    obtain ⟨hd3, hm3⟩ := removeFoldl_char n
      (((g n).dependsOnVars.getD []).filter (fun x => ¬ l.contains x))
      (l.foldl (fun gm x => updateVar gm x
        (fun s => { s with affectsVars := pushAffects s.affectsVars n }))
        (updateVar g n (fun s => { s with dependsOnVars := some l })))
    constructor
    · intro a
      rw [hd3 a, hd2 a]
      by_cases ha : a = n
      · subst ha
        rw [updateVar_at, if_pos rfl]
      · rw [updateVar_rgb_other g n _ a ha, if_neg ha]
    · intro b y
      rw [hm3 b y, hm2 b y]
      by_cases hb : b = n
      · subst hb
        rw [updateVar_at]
        exact Iff.rfl
      · rw [updateVar_rgb_other g n _ b hb]
        exact Iff.rfl

theorem setDependsOnVars_inv (g : Graph) (n : String) (v : Option (List String))
    (h : Inv g) : Inv (setDependsOnVars g n v) := by
  obtain ⟨hd, hm⟩ := setDependsOnVars_char g n v
  simp only [Inv, depsL] at h ⊢
  intro a b
  have hL : ((setDependsOnVars g n v) a).dependsOnVars.getD []
      = (if a = n then v else (g a).dependsOnVars).getD [] := by rw [hd a]
  rw [hL, hm b a]
  cases v with
  | none =>
    by_cases ha : a = n
    · subst ha
      rw [if_pos rfl]
      have hb := h a b
      simp only [Option.getD_none, List.not_mem_nil, false_iff, eq_self_iff_true, true_and,
        depsL]
      tauto
    · rw [if_neg ha]
      have hb := h a b
      have hna : (a = n) → False := ha
      simp only [depsL]
      tauto
  | some l =>
    by_cases ha : a = n
    · subst ha
      rw [if_pos rfl]
      have hb := h a b
      simp only [Option.getD_some, List.mem_filter, eq_self_iff_true, true_and,
        decide_eq_true_eq, List.elem_iff, depsL]
      tauto
    · rw [if_neg ha]
      have hb := h a b
      have hna : (a = n) → False := ha
      simp only [depsL]
      tauto

theorem updateDependencyVariables_inv (dom : List String) (g : Graph) (n : String)
    (h : Inv g) : Inv (updateDependencyVariables dom g n) := by
  simp only [updateDependencyVariables]
  split_ifs <;> exact setDependsOnVars_inv _ _ _ h

theorem colorChangedRun_eqLinks (o : Oracle) (fuel : ℕ) (g : Graph) (n : String) :
    eqLinks g (colorChangedRun o fuel g n).1 :=
  eqLinks_of_eqExceptRgb (colorChangedRun_eqExceptRgb o fuel g n)

theorem eqLinks_updateVar2 (g : Graph) (n m : String) (f1 f2 : VarState → VarState)
    (h1 : ∀ s, linkPair (f1 s) = linkPair s) (h2 : ∀ s, linkPair (f2 s) = linkPair s) :
    eqLinks g (updateVar (updateVar g n f1) m f2) :=
  eqLinks_trans (eqLinks_updateVar g n f1 h1) (eqLinks_updateVar _ m f2 h2)

theorem eqLinks_ccr_after1 (o : Oracle) (fuel : ℕ) (n' : String) (g : Graph)
    (n : String) (f1 : VarState → VarState) (h1 : ∀ s, linkPair (f1 s) = linkPair s) :
    eqLinks g (colorChangedRun o fuel (updateVar g n f1) n').1 :=
  eqLinks_trans (eqLinks_updateVar g n f1 h1) (colorChangedRun_eqLinks _ _ _ _)

theorem eqLinks_ccr_after2 (o : Oracle) (fuel : ℕ) (n' : String) (g : Graph)
    (n m : String) (f1 f2 : VarState → VarState)
    (h1 : ∀ s, linkPair (f1 s) = linkPair s) (h2 : ∀ s, linkPair (f2 s) = linkPair s) :
    eqLinks g (colorChangedRun o fuel (updateVar (updateVar g n f1) m f2) n').1 :=
  eqLinks_trans (eqLinks_updateVar2 g n m f1 f2 h1 h2) (colorChangedRun_eqLinks _ _ _ _)

theorem setColorPlain_eqLinks (o : Oracle) (fuel : ℕ) (g : Graph) (n : String)
    (c : JsColor) (ab : Bool) : eqLinks g (setColorPlain o fuel g n c ab).1 := by
  simp only [setColorPlain]
  split_ifs <;>
  first
    | exact eqLinks_refl g
    | exact eqLinks_updateVar _ _ _ (fun s => rfl)
    | exact eqLinks_ccr_after1 _ _ _ _ _ _ (fun s => rfl)
    | exact eqLinks_ccr_after2 _ _ _ _ _ _ _ _ (fun s => rfl) (fun s => rfl)

theorem updateValueFromAffectors_eqLinks (o : Oracle) (fuel : ℕ) (g : Graph) (m : String) :
    eqLinks g (updateValueFromAffectors o fuel g m).1 := by
  simp only [updateValueFromAffectors]
  split_ifs
  · exact setColorPlain_eqLinks _ _ _ _ _ _
  · exact eqLinks_refl g

theorem setUseIndirect_inv (dom : List String) (o : Oracle) (fuel : ℕ)
    (g : Graph) (n : String) (b : Bool) (h : Inv g) :
    Inv (setUseIndirect dom o fuel g n b).1 := by
  simp only [setUseIndirect]
  split_ifs <;>
  first
    | exact h
    | exact Inv_eqLinks (updateValueFromAffectors_eqLinks _ _ _ _)
        (updateDependencyVariables_inv _ _ _
          (Inv_eqLinks
            (eqLinks_ccr_after2 _ _ _ _ _ _ _ _ (fun s => rfl) (fun s => rfl)) h))
    | exact updateDependencyVariables_inv _ _ _
        (Inv_eqLinks
          (eqLinks_ccr_after2 _ _ _ _ _ _ _ _ (fun s => rfl) (fun s => rfl)) h)

theorem setColor_inv (dom : List String) (o : Oracle) (fuel : ℕ) (g : Graph)
    (n : String) (c : JsColor) (ab : Bool) (ind : Option Bool) (h : Inv g) :
    Inv (setColor dom o fuel g n c ab ind).1 := by
  cases ind with
  | none =>
    simp only [setColor]
    split_ifs <;>
    first
      | exact h
      | exact Inv_eqLinks (eqLinks_updateVar _ _ _ (fun s => rfl)) h
      | exact Inv_eqLinks (eqLinks_ccr_after1 _ _ _ _ _ _ (fun s => rfl)) h
      | exact Inv_eqLinks (eqLinks_ccr_after2 _ _ _ _ _ _ _ _ (fun s => rfl) (fun s => rfl)) h
  | some b =>
    simp only [setColor]
    have hg1 : ∀ G : Graph, Inv G →
        Inv (setUseIndirect dom o fuel G n b).1 := fun G hG => setUseIndirect_inv _ _ _ _ _ _ hG
    split_ifs <;>
    first
      | exact hg1 _ h
      | exact hg1 _ (Inv_eqLinks (eqLinks_updateVar _ _ _ (fun s => rfl)) h)
      | exact Inv_eqLinks (eqLinks_ccr_after1 _ _ _ _ _ _ (fun s => rfl)) (hg1 _ h)
      | exact Inv_eqLinks (eqLinks_ccr_after1 _ _ _ _ _ _ (fun s => rfl))
          (hg1 _ (Inv_eqLinks (eqLinks_updateVar _ _ _ (fun s => rfl)) h))

theorem setIndirectDefition_inv (dom : List String) (o : Oracle) (fuel : ℕ)
    (g : Graph) (n : String) (v : Option String) (ab : Bool) (h : Inv g) :
    Inv (setIndirectDefition dom o fuel g n v ab).1 := by
  simp only [setIndirectDefition]
  split_ifs <;>
  first
    | exact setColor_inv _ _ _ _ _ _ _ _
        (setUseIndirect_inv _ _ _ _ _ _
          (Inv_eqLinks (eqLinks_updateVar _ _ _ (fun s => rfl)) h))
    | exact setUseIndirect_inv _ _ _ _ _ _
        (Inv_eqLinks (eqLinks_updateVar _ _ _ (fun s => rfl)) h)

theorem setValue_inv (dom : List String) (o : Oracle) (fuel : ℕ) (g : Graph)
    (n : String) (v : Option String) (ab : Bool) (h : Inv g) :
    Inv (setValue dom o fuel g n v ab).1 := by
  cases v with
  | none =>
    simp only [setValue]
    split_ifs <;>
    first
      | exact setIndirectDefition_inv _ _ _ _ _ _ _
          (Inv_eqLinks (eqLinks_updateVar2 _ _ _ _ _ (fun s => rfl) (fun s => rfl)) h)
      | exact setIndirectDefition_inv _ _ _ _ _ _ _
          (Inv_eqLinks (eqLinks_updateVar _ _ _ (fun s => rfl)) h)
  | some str =>
    simp only [setValue]
    split_ifs <;>
    cases parseColor str.data <;>
    first
      | exact setIndirectDefition_inv _ _ _ _ _ _ _
          (Inv_eqLinks (eqLinks_updateVar2 _ _ _ _ _ (fun s => rfl) (fun s => rfl)) h)
      | exact setIndirectDefition_inv _ _ _ _ _ _ _
          (Inv_eqLinks (eqLinks_updateVar _ _ _ (fun s => rfl)) h)
      | exact setColor_inv _ _ _ _ _ _ _ _
          (Inv_eqLinks (eqLinks_updateVar2 _ _ _ _ _ (fun s => rfl) (fun s => rfl)) h)
      | exact setColor_inv _ _ _ _ _ _ _ _
          (Inv_eqLinks (eqLinks_updateVar _ _ _ (fun s => rfl)) h)

/-- Claim C1: `dependsOnVars` and `affectsVars` stay exact mutual inverses
across the whole graph through any sequence of `setValue` calls (including
ones that remove variable references from an indirect definition), given
that they are mutual inverses initially. -/
theorem c1_links_mutual_inverse (dom : List String) (o : Oracle) (fuel : ℕ)
    (ops : List SetValueOp) (g : Graph) (h : Inv g) :
    Inv (applySetValues dom o fuel ops g) := by
  induction ops generalizing g with
  | nil => exact h
  | cons op t ih =>
    simp only [applySetValues, List.foldl_cons]
    exact ih _ (setValue_inv _ _ _ _ _ _ _ h)

/-- Claim C1 witness: a sequence of two `setValue` calls (one storing a
literal, one an indirect `var()` reference) on the all-fresh graph, whose
empty link lists are mutual inverses. -/
theorem c1_witness :
    Inv (applySetValues ["--x", "--y"] (fun _ _ => []) 2
      [("--x", some "#112233", true), ("--y", some "var(--x)", false)]
      (fun _ => VarState.init)) :=
  c1_links_mutual_inverse ["--x", "--y"] (fun _ _ => []) 2
    [("--x", some "#112233", true), ("--y", some "var(--x)", false)]
    (fun _ => VarState.init)
    (fun _ _ => iff_of_false (List.not_mem_nil _) (List.not_mem_nil _))

theorem digitChar_toNat (d : ℕ) (h : d < 10) : (digitChar d).toNat = 48 + d := by
  interval_cases d <;> rfl

theorem isDigitJs_digitChar (d : ℕ) : isDigitJs (digitChar d) = true := by
  unfold digitChar
  split <;> rfl

theorem natOfDigits_append (l : List Char) (c : Char) :
    natOfDigits (l ++ [c]) = 10 * natOfDigits l + (c.toNat - '0'.toNat) := by
  unfold natOfDigits
  rw [List.foldl_append]
  rfl

theorem natToDigitsGo_spec (fuel : ℕ) :
    ∀ n : ℕ, n < fuel →
      natToDigitsGo fuel n ≠ [] ∧ (∀ c ∈ natToDigitsGo fuel n, isDigitJs c = true) ∧
      natOfDigits (natToDigitsGo fuel n) = n := by
  induction fuel with
  | zero => intro n h; omega
  | succ f ih =>
    intro n h
    rw [natToDigitsGo]
    split_ifs with h10
    · refine ⟨by simp, ?_, ?_⟩
      · intro c hc
        rw [List.mem_singleton] at hc
        subst hc
        exact isDigitJs_digitChar n
      · show natOfDigits [digitChar n] = n
        unfold natOfDigits
        simp only [List.foldl_cons, List.foldl_nil]
        rw [digitChar_toNat n h10]
        simp only [show ('0' : Char).toNat = 48 from rfl]
        omega
    · have hdiv : n / 10 < f := by
        have h1 : n / 10 < n := Nat.div_lt_self (by omega) (by omega)
        omega
      obtain ⟨hne, hdig, hval⟩ := ih (n / 10) hdiv
      refine ⟨by simp, ?_, ?_⟩
      · intro c hc
        rw [List.mem_append] at hc
        rcases hc with hc | hc
        · exact hdig c hc
        · rw [List.mem_singleton] at hc
          subst hc
          exact isDigitJs_digitChar _
      · rw [natOfDigits_append, hval, digitChar_toNat _ (Nat.mod_lt n (by omega))]
        simp only [show ('0' : Char).toNat = 48 from rfl]
        omega

theorem natToDigits_spec (n : ℕ) :
    natToDigits n ≠ [] ∧ (∀ c ∈ natToDigits n, isDigitJs c = true) ∧
    natOfDigits (natToDigits n) = n :=
  natToDigitsGo_spec (n + 1) n (by omega)

theorem takeWhile_all_eq {p : Char → Bool} : ∀ {l : List Char}, (∀ c ∈ l, p c = true) →
    l.takeWhile p = l ∧ l.dropWhile p = [] := by
  intro l
  induction l with
  | nil => intro _; exact ⟨rfl, rfl⟩
  | cons a t ih =>
    intro h
    have ha := h a (List.mem_cons_self a t)
    obtain ⟨h1, h2⟩ := ih (fun c hc => h c (List.mem_cons_of_mem a hc))
    constructor
    · rw [List.takeWhile_cons, ha, if_pos rfl, h1]
    · rw [List.dropWhile_cons, ha, if_pos rfl]
      exact h2

theorem takeWhile_append_stop {p : Char → Bool} {c : Char} (hc : p c = false) :
    ∀ (l1 l2 : List Char), (∀ x ∈ l1, p x = true) →
      (l1 ++ c :: l2).takeWhile p = l1 ∧ (l1 ++ c :: l2).dropWhile p = c :: l2 := by
  intro l1
  induction l1 with
  | nil =>
    intro l2 _
    constructor
    · rw [List.nil_append, List.takeWhile_cons, hc, if_neg Bool.false_ne_true]
    · rw [List.nil_append, List.dropWhile_cons, hc, if_neg Bool.false_ne_true]
  | cons a t ih =>
    intro l2 h
    have ha := h a (List.mem_cons_self a t)
    obtain ⟨h1, h2⟩ := ih l2 (fun x hx => h x (List.mem_cons_of_mem a hx))
    constructor
    · rw [List.cons_append, List.takeWhile_cons, ha, if_pos rfl, h1]
    · rw [List.cons_append, List.dropWhile_cons, ha, if_pos rfl]
      exact h2

theorem jsParseFloatTok_digits (d : List Char) (hne : d ≠ [])
    (hd : ∀ c ∈ d, isDigitJs c = true) :
    jsParseFloatTok d = some ((natOfDigits d : ℚ)) := by
  obtain ⟨h1, h2⟩ := takeWhile_all_eq hd
  simp [jsParseFloatTok, h1, h2, hne]

theorem take_ne_head {a b : Char} (h : (a = b) → False) (n : ℕ) (hn : n ≠ 0)
    {l1 l2 : List Char} : (a :: l1).take n = b :: l2 → False := by
  cases n with
  | zero => exact absurd rfl hn
  | succ m =>
    rw [List.take_succ_cons]
    intro he
    injection he with h1 _
    exact h h1

theorem take_ne_third {c z : Char} (h : (c = z) → False) (n : ℕ) (hn : 3 ≤ n)
    {a b : Char} {l1 : List Char} {x y : Char} {l2 : List Char} :
    (a :: b :: c :: l1).take n = x :: y :: z :: l2 → False := by
  obtain ⟨m, rfl⟩ : ∃ m, n = m + 3 := ⟨n - 3, by omega⟩
  rw [show m + 3 = (m + 2) + 1 from rfl, List.take_succ_cons,
    show m + 2 = (m + 1) + 1 from rfl, List.take_succ_cons, List.take_succ_cons]
  intro he
  injection he with _ he
  injection he with _ he
  injection he with h3 _
  exact h h3

theorem attempt_ne (cs : List Char) (kw : String)
    (h : cs.take kw.length = kw.data → False) : attemptKw cs kw = none := by
  rw [attemptKw, if_neg h]

theorem attempt_token (kw : String) (c0 : Char) (d' rest : List Char)
    (hc0 : isDigitJs c0 = true) (hdd : ∀ c ∈ d', isDigitJs c = true)
    (hrest : rest = [] ∨ ∃ r', rest = ',' :: ' ' :: r') :
    attemptKw (kw.data ++ ':' :: ' ' :: (c0 :: d' ++ rest)) kw
      = some (kw, c0 :: d', rest) := by
  have hsp : decide (c0 = ' ') = false := by
    rw [decide_eq_false_iff_not]
    intro he
    subst he
    exact absurd hc0 (by decide)
  have hall : ∀ c ∈ c0 :: d', isDigitJs c = true := by
    intro c hc
    rcases List.mem_cons.mp hc with rfl | hc
    · exact hc0
    · exact hdd c hc
  have htw : (c0 :: d' ++ rest).takeWhile isDigitJs = c0 :: d' ∧
      (c0 :: d' ++ rest).dropWhile isDigitJs = rest := by
    rcases hrest with rfl | ⟨r', rfl⟩
    · rw [List.append_nil]
      exact takeWhile_all_eq hall
    · exact takeWhile_append_stop (by decide) (c0 :: d') _ hall
  have htake : (kw.data ++ ':' :: ' ' :: (c0 :: d' ++ rest)).take kw.length = kw.data :=
    List.take_left' rfl
  have hdrop : (kw.data ++ ':' :: ' ' :: (c0 :: d' ++ rest)).drop kw.length
      = ':' :: ' ' :: (c0 :: d' ++ rest) :=
    List.drop_left' rfl
  have e0 : List.dropWhile (fun x => decide (x = ' ')) (':' :: ' ' :: (c0 :: d' ++ rest))
      = ':' :: ' ' :: (c0 :: d' ++ rest) := by
    rw [List.dropWhile_cons, if_neg (by decide)]
  have e1 : List.dropWhile (fun x => decide (x = ' ')) (' ' :: (c0 :: d' ++ rest))
      = c0 :: d' ++ rest := by
    rw [List.dropWhile_cons, if_pos (by decide), List.cons_append, List.dropWhile_cons,
      if_neg (by simp [hsp])]
  rw [attemptKw, if_pos htake]
  simp only [hdrop, e0, e1, htw.1, htw.2]
  rw [if_neg (by simp)]
  rcases hrest with rfl | ⟨r', rfl⟩ <;> rfl

theorem matchOptionAt_token (kw : String) (hkw : kw ∈ optionKeywords) (c0 : Char)
    (d' rest : List Char) (hc0 : isDigitJs c0 = true) (hdd : ∀ c ∈ d', isDigitJs c = true)
    (hrest : rest = [] ∨ ∃ r', rest = ',' :: ' ' :: r') :
    matchOptionAt (kw.data ++ ':' :: ' ' :: (c0 :: d' ++ rest))
      = some (kw, c0 :: d', rest) := by
  have htok := attempt_token kw c0 d' rest hc0 hdd hrest
  simp only [optionKeywords, List.mem_cons, List.not_mem_nil, or_false] at hkw
  rcases hkw with rfl | rfl | rfl | rfl | rfl
  · rw [matchOptionAt, optionKeywords]
    simp only [List.filterMap_cons, List.filterMap_nil, htok,
      attempt_ne (("saveExplicitRgbInOutput" : String).data ++ ':' :: ' ' :: (c0 :: d' ++ rest))
        "invert" (fun he => @take_ne_head 's' 'i' (by decide) 6 (by decide) _ _ he),
      attempt_ne (("saveExplicitRgbInOutput" : String).data ++ ':' :: ' ' :: (c0 :: d' ++ rest))
        "hueRotate" (fun he => @take_ne_head 's' 'h' (by decide) 9 (by decide) _ _ he),
      attempt_ne (("saveExplicitRgbInOutput" : String).data ++ ':' :: ' ' :: (c0 :: d' ++ rest))
        "saturationFactor" (fun he => @take_ne_third 'v' 't' (by decide) 16 (by decide) _ _ _ _ _ _ he),
      attempt_ne (("saveExplicitRgbInOutput" : String).data ++ ':' :: ' ' :: (c0 :: d' ++ rest))
        "lightnessFactor" (fun he => @take_ne_head 's' 'l' (by decide) 15 (by decide) _ _ he)]
    rfl
  · rw [matchOptionAt, optionKeywords]
    simp only [List.filterMap_cons, List.filterMap_nil, htok,
      attempt_ne (("invert" : String).data ++ ':' :: ' ' :: (c0 :: d' ++ rest))
        "saveExplicitRgbInOutput" (fun he => @take_ne_head 'i' 's' (by decide) 23 (by decide) _ _ he),
      attempt_ne (("invert" : String).data ++ ':' :: ' ' :: (c0 :: d' ++ rest))
        "hueRotate" (fun he => @take_ne_head 'i' 'h' (by decide) 9 (by decide) _ _ he),
      attempt_ne (("invert" : String).data ++ ':' :: ' ' :: (c0 :: d' ++ rest))
        "saturationFactor" (fun he => @take_ne_head 'i' 's' (by decide) 16 (by decide) _ _ he),
      attempt_ne (("invert" : String).data ++ ':' :: ' ' :: (c0 :: d' ++ rest))
        "lightnessFactor" (fun he => @take_ne_head 'i' 'l' (by decide) 15 (by decide) _ _ he)]
    rfl
  · rw [matchOptionAt, optionKeywords]
    simp only [List.filterMap_cons, List.filterMap_nil, htok,
      attempt_ne (("hueRotate" : String).data ++ ':' :: ' ' :: (c0 :: d' ++ rest))
        "saveExplicitRgbInOutput" (fun he => @take_ne_head 'h' 's' (by decide) 23 (by decide) _ _ he),
      attempt_ne (("hueRotate" : String).data ++ ':' :: ' ' :: (c0 :: d' ++ rest))
        "invert" (fun he => @take_ne_head 'h' 'i' (by decide) 6 (by decide) _ _ he),
      attempt_ne (("hueRotate" : String).data ++ ':' :: ' ' :: (c0 :: d' ++ rest))
        "saturationFactor" (fun he => @take_ne_head 'h' 's' (by decide) 16 (by decide) _ _ he),
      attempt_ne (("hueRotate" : String).data ++ ':' :: ' ' :: (c0 :: d' ++ rest))
        "lightnessFactor" (fun he => @take_ne_head 'h' 'l' (by decide) 15 (by decide) _ _ he)]
    rfl
  · rw [matchOptionAt, optionKeywords]
    simp only [List.filterMap_cons, List.filterMap_nil, htok,
      attempt_ne (("saturationFactor" : String).data ++ ':' :: ' ' :: (c0 :: d' ++ rest))
        "saveExplicitRgbInOutput" (fun he => @take_ne_third 't' 'v' (by decide) 23 (by decide) _ _ _ _ _ _ he),
      attempt_ne (("saturationFactor" : String).data ++ ':' :: ' ' :: (c0 :: d' ++ rest))
        "invert" (fun he => @take_ne_head 's' 'i' (by decide) 6 (by decide) _ _ he),
      attempt_ne (("saturationFactor" : String).data ++ ':' :: ' ' :: (c0 :: d' ++ rest))
        "hueRotate" (fun he => @take_ne_head 's' 'h' (by decide) 9 (by decide) _ _ he),
      attempt_ne (("saturationFactor" : String).data ++ ':' :: ' ' :: (c0 :: d' ++ rest))
        "lightnessFactor" (fun he => @take_ne_head 's' 'l' (by decide) 15 (by decide) _ _ he)]
    rfl
  · rw [matchOptionAt, optionKeywords]
    simp only [List.filterMap_cons, List.filterMap_nil, htok,
      attempt_ne (("lightnessFactor" : String).data ++ ':' :: ' ' :: (c0 :: d' ++ rest))
        "saveExplicitRgbInOutput" (fun he => @take_ne_head 'l' 's' (by decide) 23 (by decide) _ _ he),
      attempt_ne (("lightnessFactor" : String).data ++ ':' :: ' ' :: (c0 :: d' ++ rest))
        "invert" (fun he => @take_ne_head 'l' 'i' (by decide) 6 (by decide) _ _ he),
      attempt_ne (("lightnessFactor" : String).data ++ ':' :: ' ' :: (c0 :: d' ++ rest))
        "hueRotate" (fun he => @take_ne_head 'l' 'h' (by decide) 9 (by decide) _ _ he),
      attempt_ne (("lightnessFactor" : String).data ++ ':' :: ' ' :: (c0 :: d' ++ rest))
        "saturationFactor" (fun he => @take_ne_head 'l' 's' (by decide) 16 (by decide) _ _ he)]
    rfl

theorem matchOptionAt_comma (l : List Char) : matchOptionAt (',' :: l) = none := by
  rw [matchOptionAt, optionKeywords]
  simp only [List.filterMap_cons, List.filterMap_nil,
      attempt_ne (',' :: l) "saveExplicitRgbInOutput"
        (fun he => @take_ne_head ',' 's' (by decide) 23 (by decide) _ _ he),
      attempt_ne (',' :: l) "invert"
        (fun he => @take_ne_head ',' 'i' (by decide) 6 (by decide) _ _ he),
      attempt_ne (',' :: l) "hueRotate"
        (fun he => @take_ne_head ',' 'h' (by decide) 9 (by decide) _ _ he),
      attempt_ne (',' :: l) "saturationFactor"
        (fun he => @take_ne_head ',' 's' (by decide) 16 (by decide) _ _ he),
      attempt_ne (',' :: l) "lightnessFactor"
        (fun he => @take_ne_head ',' 'l' (by decide) 15 (by decide) _ _ he)]
  rfl

theorem matchOptionAt_space (l : List Char) : matchOptionAt (' ' :: l) = none := by
  rw [matchOptionAt, optionKeywords]
  simp only [List.filterMap_cons, List.filterMap_nil,
      attempt_ne (' ' :: l) "saveExplicitRgbInOutput"
        (fun he => @take_ne_head ' ' 's' (by decide) 23 (by decide) _ _ he),
      attempt_ne (' ' :: l) "invert"
        (fun he => @take_ne_head ' ' 'i' (by decide) 6 (by decide) _ _ he),
      attempt_ne (' ' :: l) "hueRotate"
        (fun he => @take_ne_head ' ' 'h' (by decide) 9 (by decide) _ _ he),
      attempt_ne (' ' :: l) "saturationFactor"
        (fun he => @take_ne_head ' ' 's' (by decide) 16 (by decide) _ _ he),
      attempt_ne (' ' :: l) "lightnessFactor"
        (fun he => @take_ne_head ' ' 'l' (by decide) 15 (by decide) _ _ he)]
  rfl

theorem scanOptions_step (f : ℕ) (cs : List Char) (hne : cs ≠ []) :
    scanOptions (f + 1) cs =
      match matchOptionAt cs with
      | some (kw, tok, ra) => (kw, tok) :: scanOptions f ra
      | none => scanOptions f cs.tail := by
  cases cs with
  | nil => exact absurd rfl hne
  | cons c rest => rfl

theorem matchOptionAt_token_nil (kw : String) (hkw : kw ∈ optionKeywords) (c0 : Char)
    (d' : List Char) (hc0 : isDigitJs c0 = true) (hdd : ∀ c ∈ d', isDigitJs c = true) :
    matchOptionAt (kw.data ++ ':' :: ' ' :: (c0 :: d')) = some (kw, c0 :: d', []) := by
  have h := matchOptionAt_token kw hkw c0 d' [] hc0 hdd (Or.inl rfl)
  rwa [List.append_nil] at h

theorem scanOptions_join :
    ∀ (toks : List (String × List Char)) (fuel : ℕ),
      (∀ m ∈ toks, m.1 ∈ optionKeywords ∧ m.2 ≠ [] ∧ ∀ c ∈ m.2, isDigitJs c = true) →
      (joinPairs toks).length ≤ fuel →
      scanOptions fuel (joinPairs toks) = toks := by
  intro toks
  induction toks with
  | nil =>
    intro fuel _ _
    cases fuel with
    | zero => rfl
    | succ f => rfl
  | cons m t ih =>
    intro fuel hwf hlen
    obtain ⟨kw, d⟩ := m
    obtain ⟨hkw, hdne, hdd⟩ := hwf (kw, d) (List.mem_cons_self _ _)
    obtain ⟨c0, d', rfl⟩ : ∃ c0 d', d = c0 :: d' := by
      cases d with
      | nil => exact absurd rfl hdne
      | cons a b => exact ⟨a, b, rfl⟩
    have hc0 : isDigitJs c0 = true := hdd c0 (List.mem_cons_self _ _)
    have hd' : ∀ c ∈ d', isDigitJs c = true := fun c hc => hdd c (List.mem_cons_of_mem _ hc)
    cases t with
    | nil =>
      rw [joinPairs] at hlen ⊢
      have hpos : 0 < (kw.data ++ ':' :: ' ' :: (c0 :: d')).length := by
        simp [List.length_append]
      obtain ⟨f, rfl⟩ : ∃ f, fuel = f + 1 := ⟨fuel - 1, by omega⟩
      rw [scanOptions_step f _
          (by intro he; exact absurd (List.append_eq_nil.mp he).2 (List.cons_ne_nil _ _)),
        matchOptionAt_token_nil kw hkw c0 d' hc0 hd']
      have : scanOptions f [] = [] := by
        cases f with
        | zero => rfl
        | succ f2 => rfl
      dsimp only
      rw [this]
    | cons m2 t2 =>
      rw [joinPairs] at hlen ⊢
      have hlen2 : (joinPairs (m2 :: t2)).length + 5 ≤ fuel := by
        simp only [List.length_append, List.length_cons] at hlen ⊢
        have hkwlen : 1 ≤ kw.data.length := by
          simp only [optionKeywords, List.mem_cons, List.not_mem_nil, or_false] at hkw
          rcases hkw with rfl | rfl | rfl | rfl | rfl <;> decide
        omega
      obtain ⟨f, rfl⟩ : ∃ f, fuel = f + 1 := ⟨fuel - 1, by omega⟩
      have hsh : kw.data ++ ':' :: ' ' :: (c0 :: d' ++ ',' :: ' ' :: joinPairs (m2 :: t2))
          = kw.data ++ ':' :: ' ' :: (c0 :: (d' ++ ',' :: ' ' :: joinPairs (m2 :: t2))) := rfl
      rw [scanOptions_step f _
          (by intro he; exact absurd (List.append_eq_nil.mp he).2 (List.cons_ne_nil _ _)),
        matchOptionAt_token kw hkw c0 d' (',' :: ' ' :: joinPairs (m2 :: t2)) hc0 hd'
          (Or.inr ⟨joinPairs (m2 :: t2), rfl⟩)]
      dsimp only
      obtain ⟨f2, rfl⟩ : ∃ f2, f = f2 + 1 := ⟨f - 1, by omega⟩
      rw [show (scanOptions (f2 + 1) (',' :: ' ' :: joinPairs (m2 :: t2)) : List (String × List Char))
          = scanOptions f2 (' ' :: joinPairs (m2 :: t2)) from by
        rw [scanOptions_step _ _ (List.cons_ne_nil _ _), matchOptionAt_comma]
        rfl]
      obtain ⟨f3, rfl⟩ : ∃ f3, f2 = f3 + 1 := ⟨f2 - 1, by omega⟩
      rw [show (scanOptions (f3 + 1) (' ' :: joinPairs (m2 :: t2)) : List (String × List Char))
          = scanOptions f3 (joinPairs (m2 :: t2)) from by
        rw [scanOptions_step _ _ (List.cons_ne_nil _ _), matchOptionAt_space]
        rfl]
      rw [ih f3 (fun x hx => hwf x (List.mem_cons_of_mem _ hx)) (by omega)]
      all_goals exact fun h => List.noConfusion h

theorem foldImportedOptions_template (t0 binv : Bool) (dh ds dl : Option (List Char)) :
    foldImportedOptions (optTemplate t0 binv dh ds dl) =
      ⟨t0, binv,
       (dh.map (fun d => (jsParseFloatTok d).getD 0)).getD 0,
       (ds.map (fun d => (jsParseFloatTok d).getD 0)).getD 1,
       (dl.map (fun d => (jsParseFloatTok d).getD 0)).getD 1⟩ := by
  cases t0 <;> cases binv <;> cases dh <;> cases ds <;> cases dl <;> rfl

theorem jsNumToString_nat (n : ℕ) : jsNumToString (n : ℚ) = String.mk (natToDigits n) := by
  rw [jsNumToString, if_pos ⟨Rat.den_natCast n, by rw [Rat.num_natCast]; exact Int.natCast_nonneg n⟩]
  rw [Rat.num_natCast, Int.toNat_natCast]

theorem optionTokens_template (s : VarState) (nh ns nl : Option ℕ)
    (hh : s.optionHueRotate = nh.map (fun n : ℕ => (n : ℚ)))
    (hs : s.optionSaturationFactor = ns.map (fun n : ℕ => (n : ℚ)))
    (hl : s.optionLightnessFactor = nl.map (fun n : ℕ => (n : ℚ))) :
    optionTokens s = (optTemplate (truthyB s.saveExplicitRgbInOutput) s.optionInvert.isSome
        (nh.map natToDigits) (ns.map natToDigits) (nl.map natToDigits)).map
      (fun m => m.1 ++ ": " ++ String.mk m.2) := by
  rw [optionTokens, hh, hs, hl]
  cases truthyB s.saveExplicitRgbInOutput <;> cases s.optionInvert.isSome <;>
    cases nh <;> cases ns <;> cases nl <;>
    simp [optTemplate, jsNumToString_nat]

theorem joinComma_data (toks : List (String × List Char)) :
    (joinComma (toks.map (fun m => m.1 ++ ": " ++ String.mk m.2))).data = joinPairs toks := by
  induction toks with
  | nil => rfl
  | cons m t ih =>
    obtain ⟨kw, d⟩ := m
    cases t with
    | nil =>
      rw [joinPairs]
      show (kw ++ ": " ++ String.mk d).data = _
      rw [String.data_append, String.data_append]
      simp
    | cons m2 t2 =>
      rw [joinPairs]
      show (kw ++ ": " ++ String.mk d ++ ", " ++
        joinComma ((m2 :: t2).map (fun m => m.1 ++ ": " ++ String.mk m.2))).data = _
      rw [String.data_append, String.data_append, String.data_append, String.data_append, ih]
      simp [List.append_assoc]
      all_goals exact fun h => List.noConfusion h

theorem joinPairs_no_brace (toks : List (String × List Char))
    (hwf : ∀ m ∈ toks, m.1 ∈ optionKeywords ∧ m.2 ≠ [] ∧ ∀ c ∈ m.2, isDigitJs c = true) :
    ∀ c ∈ joinPairs toks, (c = '}') = False := by
  induction toks with
  | nil => intro c hc; exact absurd hc (List.not_mem_nil c)
  | cons m t ih =>
    obtain ⟨kw, d⟩ := m
    obtain ⟨hkw, hdne, hdd⟩ := hwf (kw, d) (List.mem_cons_self _ _)
    have hkwc : ∀ c ∈ kw.data, (c = '}') = False := by
      simp only [optionKeywords, List.mem_cons, List.not_mem_nil, or_false] at hkw
      rcases hkw with rfl | rfl | rfl | rfl | rfl <;> decide
    have hdc : ∀ c ∈ d, (c = '}') = False := by
      intro c hc
      simp only [eq_iff_iff, iff_false]
      intro he
      subst he
      exact absurd (hdd _ hc) (by decide)
    cases t with
    | nil =>
      intro c hc
      rw [joinPairs] at hc
      rcases List.mem_append.mp hc with hc | hc
      · exact hkwc c hc
      · rcases List.mem_cons.mp hc with rfl | hc
        · simp
        · rcases List.mem_cons.mp hc with rfl | hc
          · simp
          · exact hdc c hc
    | cons m2 t2 =>
      intro c hc
      rw [joinPairs] at hc
      rcases List.mem_append.mp hc with hc | hc
      · exact hkwc c hc
      · rcases List.mem_cons.mp hc with rfl | hc
        · simp
        · rcases List.mem_cons.mp hc with rfl | hc
          · simp
          · rcases List.mem_append.mp hc with hc | hc
            · exact hdc c hc
            · rcases List.mem_cons.mp hc with rfl | hc
              · simp
              · rcases List.mem_cons.mp hc with rfl | hc
                · simp
                · exact ih (fun x hx => hwf x (List.mem_cons_of_mem _ hx)) c hc
      all_goals exact fun h => List.noConfusion h

theorem joinPairs_ne_nil (m : String × List Char) (t : List (String × List Char)) :
    joinPairs (m :: t) ≠ [] := by
  obtain ⟨kw, d⟩ := m
  cases t with
  | nil =>
    rw [joinPairs]
    intro he
    obtain ⟨_, h2⟩ := List.append_eq_nil.mp he
    exact List.noConfusion h2
  | cons m2 t2 =>
    rw [joinPairs]
    · intro he
      obtain ⟨_, h2⟩ := List.append_eq_nil.mp he
      exact List.noConfusion h2
    · exact fun h => List.noConfusion h

theorem matchVarDeclAt_line (w : List Char) (hw : w ≠ []) (hwd : ∀ c ∈ w, isWordDash c = true)
    (v0 : Char) (val' : List Char) (hv1 : ∀ c ∈ v0 :: val', (c = ';') = False)
    (hv2 : isSepJs v0 = false) (tail : List Char) :
    matchVarDeclAt ('-' :: '-' :: (w ++ ':' :: ' ' :: (v0 :: val' ++ ';' :: tail)))
      = some (String.mk ('-' :: '-' :: w), String.mk (v0 :: val'),
        match tail.dropWhile (fun c => c = ' ' || c = '\t') with
        | '/' :: '*' :: c1 =>
          (match c1.dropWhile (fun c => c = ' ' || c = '\t') with
           | '{' :: c3 =>
             (if c3.takeWhile (· ≠ '}') = [] then none else
              match c3.dropWhile (· ≠ '}') with
              | '}' :: c5 =>
                (match c5.dropWhile (fun c => c = ' ' || c = '\t') with
                 | '*' :: '/' :: _ => some (String.mk (c3.takeWhile (· ≠ '}')))
                 | _ => none)
              | _ => none)
           | _ => none)
        | _ => none) := by
  have hvp : ∀ c ∈ v0 :: val', (fun c => decide ¬(c = ';')) c = true := by
    intro c hc
    simp [hv1 c hc]
  have hcolon : isWordDash ':' = false := by decide
  have htw := takeWhile_append_stop (p := isWordDash) hcolon w (' ' :: (v0 :: val' ++ ';' :: tail)) hwd
  have hvc := takeWhile_append_stop (p := fun c => decide ¬(c = ';')) (c := ';') (by decide)
    (v0 :: val') tail hvp
  rw [matchVarDeclAt]
  simp only [htw.1, htw.2]
  rw [if_neg hw]
  simp only [List.dropWhile_cons, show (isSepJs ':') = false from rfl, Bool.false_eq_true,
    if_false, show (isSepJs ' ') = true from rfl, if_true]
  rw [List.cons_append, List.dropWhile_cons]
  simp only [hv2, Bool.false_eq_true, if_false]
  have hvc1 : List.takeWhile (fun c => decide ¬(c = ';')) (v0 :: (val' ++ ';' :: tail))
      = v0 :: val' := by
    rw [← List.cons_append]
    exact hvc.1
  have hvc2 : List.dropWhile (fun c => decide ¬(c = ';')) (v0 :: (val' ++ ';' :: tail))
      = ';' :: tail := by
    rw [← List.cons_append]
    exact hvc.2
  simp only [hvc1, hvc2]
  rw [if_neg (List.cons_ne_nil v0 val')]

theorem matchVarDeclAt_line_nc (w : List Char) (hw : w ≠ [])
    (hwd : ∀ c ∈ w, isWordDash c = true)
    (v0 : Char) (val' : List Char) (hv1 : ∀ c ∈ v0 :: val', (c = ';') = False)
    (hv2 : isSepJs v0 = false) :
    matchVarDeclAt ('-' :: '-' :: (w ++ ':' :: ' ' :: (v0 :: val' ++ ';' :: [])))
      = some (String.mk ('-' :: '-' :: w), String.mk (v0 :: val'), none) := by
  rw [matchVarDeclAt_line w hw hwd v0 val' hv1 hv2 []]
  rfl

theorem matchVarDeclAt_line_c (w : List Char) (hw : w ≠ [])
    (hwd : ∀ c ∈ w, isWordDash c = true)
    (v0 : Char) (val' : List Char) (hv1 : ∀ c ∈ v0 :: val', (c = ';') = False)
    (hv2 : isSepJs v0 = false) (dd : List Char) (hdne : dd ≠ [])
    (hdb : ∀ c ∈ dd, (c = '}') = False) :
    matchVarDeclAt ('-' :: '-' :: (w ++ ':' :: ' ' :: (v0 :: val' ++ ';' ::
        (' ' :: '/' :: '*' :: ' ' :: '{' :: (dd ++ '}' :: ' ' :: '*' :: '/' :: [])))))
      = some (String.mk ('-' :: '-' :: w), String.mk (v0 :: val'), some (String.mk dd)) := by
  have hddp : ∀ c ∈ dd, (fun c => decide ¬(c = '}')) c = true := by
    intro c hc
    simp [hdb c hc]
  have hdw := takeWhile_append_stop (p := fun c => decide ¬(c = '}')) (c := '}') (by decide)
    dd (' ' :: '*' :: '/' :: []) hddp
  rw [matchVarDeclAt_line w hw hwd v0 val' hv1 hv2]
  show some (String.mk ('-' :: '-' :: w), String.mk (v0 :: val'),
      if (dd ++ '}' :: ' ' :: '*' :: '/' :: []).takeWhile (fun c => decide ¬(c = '}')) = []
      then none
      else
        match (dd ++ '}' :: ' ' :: '*' :: '/' :: []).dropWhile (fun c => decide ¬(c = '}')) with
        | '}' :: c5 =>
          (match c5.dropWhile (fun c => c = ' ' || c = '\t') with
           | '*' :: '/' :: _ =>
             some (String.mk ((dd ++ '}' :: ' ' :: '*' :: '/' :: []).takeWhile
               (fun c => decide ¬(c = '}'))))
           | _ => none)
        | _ => none)
    = some (String.mk ('-' :: '-' :: w), String.mk (v0 :: val'), some (String.mk dd))
  rw [hdw.1, hdw.2, if_neg hdne]
  rfl

theorem optTemplate_wf (t0 binv : Bool) (dh ds dl : Option (List Char))
    (hdh : ∀ d ∈ dh, d ≠ [] ∧ ∀ c ∈ d, isDigitJs c = true)
    (hds : ∀ d ∈ ds, d ≠ [] ∧ ∀ c ∈ d, isDigitJs c = true)
    (hdl : ∀ d ∈ dl, d ≠ [] ∧ ∀ c ∈ d, isDigitJs c = true) :
    ∀ m ∈ optTemplate t0 binv dh ds dl,
      m.1 ∈ optionKeywords ∧ m.2 ≠ [] ∧ ∀ c ∈ m.2, isDigitJs c = true := by
  intro m hm
  have hone : (m = (("saveExplicitRgbInOutput" : String), ['1'])) ∨
      (m = (("invert" : String), ['1'])) ∨
      (∃ d, dh = some d ∧ m = (("hueRotate" : String), d)) ∨
      (∃ d, ds = some d ∧ m = (("saturationFactor" : String), d)) ∨
      (∃ d, dl = some d ∧ m = (("lightnessFactor" : String), d)) := by
    cases t0 <;> cases binv <;> rcases dh with _ | d1 <;> rcases ds with _ | d2 <;>
      rcases dl with _ | d3 <;> simp_all [optTemplate] <;> tauto
  rcases hone with rfl | rfl | ⟨d, hd, rfl⟩ | ⟨d, hd, rfl⟩ | ⟨d, hd, rfl⟩
  · exact ⟨by decide, by decide, by decide⟩
  · exact ⟨by decide, by decide, by decide⟩
  · obtain ⟨h1, h2⟩ := hdh d (hd ▸ rfl)
    exact ⟨show ("hueRotate" : String) ∈ optionKeywords from by decide, h1, h2⟩
  · obtain ⟨h1, h2⟩ := hds d (hd ▸ rfl)
    exact ⟨show ("saturationFactor" : String) ∈ optionKeywords from by decide, h1, h2⟩
  · obtain ⟨h1, h2⟩ := hdl d (hd ▸ rfl)
    exact ⟨show ("lightnessFactor" : String) ∈ optionKeywords from by decide, h1, h2⟩

theorem scanVarDecl_cons (c : Char) (rest : List Char) (r : String × String × Option String)
    (h : matchVarDeclAt (c :: rest) = some r) : scanVarDecl (c :: rest) = some r := by
  rw [scanVarDecl, h]

theorem importRestoreFields_line (sA : VarState) (w : List Char) (hw : w ≠ [])
    (hwd : ∀ c ∈ w, isWordDash c = true)
    (v0 : Char) (val' : List Char) (hv1 : ∀ c ∈ v0 :: val', (c = ';') = False)
    (hv2 : isSepJs v0 = false) (toks : List (String × List Char))
    (hwf : ∀ m ∈ toks, m.1 ∈ optionKeywords ∧ m.2 ≠ [] ∧ ∀ c ∈ m.2, isDigitJs c = true)
    (htne : toks ≠ []) :
    importRestoreFields sA
      (String.mk ('-' :: '-' :: w) ++ ": " ++ String.mk (v0 :: val') ++ ";" ++
        (" /* \x7b" ++ joinComma (toks.map (fun m => m.1 ++ ": " ++ String.mk m.2)) ++ "\x7d */"))
      = some { sA with
          value := some (String.mk (v0 :: val')),
          saveExplicitRgbInOutput := some (foldImportedOptions toks).saveExplicit,
          optionInvert := some (foldImportedOptions toks).invert,
          optionHueRotate := some (foldImportedOptions toks).hueRotate,
          optionSaturationFactor := some (foldImportedOptions toks).satF,
          optionLightnessFactor := some (foldImportedOptions toks).lightF } := by
  obtain ⟨m0, toks', rfl⟩ : ∃ m0 toks', toks = m0 :: toks' := by
    cases toks with
    | nil => exact absurd rfl htne
    | cons a b => exact ⟨a, b, rfl⟩
  have hdata : (String.mk ('-' :: '-' :: w) ++ ": " ++ String.mk (v0 :: val') ++ ";" ++
      (" /* \x7b" ++ joinComma ((m0 :: toks').map (fun m => m.1 ++ ": " ++ String.mk m.2)) ++
        "\x7d */")).data
      = '-' :: '-' :: (w ++ ':' :: ' ' :: (v0 :: val' ++ ';' ::
        (' ' :: '/' :: '*' :: ' ' :: '{' ::
          (joinPairs (m0 :: toks') ++ '}' :: ' ' :: '*' :: '/' :: [])))) := by
    simp only [String.data_append, joinComma_data,
      show (String.mk ('-' :: '-' :: w)).data = '-' :: '-' :: w from rfl,
      show (": " : String).data = [':', ' '] from rfl,
      show (";" : String).data = [';'] from rfl,
      show (" /* \x7b" : String).data = [' ', '/', '*', ' ', '{'] from rfl,
      show ("\x7d */" : String).data = ['}', ' ', '*', '/'] from rfl,
      show (String.mk (v0 :: val')).data = v0 :: val' from rfl]
    simp [List.append_assoc]
  rw [importRestoreFields, hdata,
    scanVarDecl_cons _ _ _ (matchVarDeclAt_line_c w hw hwd v0 val' hv1 hv2
      (joinPairs (m0 :: toks')) (joinPairs_ne_nil m0 toks')
      (joinPairs_no_brace _ hwf))]
  have hscan : scanOptions (String.mk (joinPairs (m0 :: toks'))).data.length
      (String.mk (joinPairs (m0 :: toks'))).data = m0 :: toks' :=
    scanOptions_join (m0 :: toks') _ hwf (le_refl _)
  simp only [hscan]
  rw [if_neg (List.cons_ne_nil m0 toks')]

theorem importRestoreFields_line_nc (sA : VarState) (w : List Char) (hw : w ≠ [])
    (hwd : ∀ c ∈ w, isWordDash c = true)
    (v0 : Char) (val' : List Char) (hv1 : ∀ c ∈ v0 :: val', (c = ';') = False)
    (hv2 : isSepJs v0 = false) :
    importRestoreFields sA
      (String.mk ('-' :: '-' :: w) ++ ": " ++ String.mk (v0 :: val') ++ ";" ++ "")
      = some { sA with value := some (String.mk (v0 :: val')) } := by
  have hdata : (String.mk ('-' :: '-' :: w) ++ ": " ++ String.mk (v0 :: val') ++ ";" ++
      ("" : String)).data
      = '-' :: '-' :: (w ++ ':' :: ' ' :: (v0 :: val' ++ ';' :: [])) := by
    simp only [String.data_append,
      show (String.mk ('-' :: '-' :: w)).data = '-' :: '-' :: w from rfl,
      show (": " : String).data = [':', ' '] from rfl,
      show (";" : String).data = [';'] from rfl,
      show ("" : String).data = [] from rfl,
      show (String.mk (v0 :: val')).data = v0 :: val' from rfl]
    simp [List.append_assoc]
  rw [importRestoreFields, hdata,
    scanVarDecl_cons _ _ _ (matchVarDeclAt_line_nc w hw hwd v0 val' hv1 hv2)]

theorem exportVarLine_some (s : VarState) (name val : String)
    (hval : s.value = some val) (hopts : optionTokens s ≠ []) :
    exportVarLineWithOptions s name
      = some (name ++ ": " ++ val ++ ";" ++
          (" /* \x7b" ++ joinComma (optionTokens s) ++ "\x7d */")) := by
  simp only [exportVarLineWithOptions, hval]
  rw [if_neg hopts]
  rw [if_neg (by simp)]
  rfl

theorem exportVarLine_nc (s : VarState) (name val : String)
    (hval : s.value = some val) (hopts : optionTokens s = [])
    (hout : valueShouldGoInOutput s = true) :
    exportVarLineWithOptions s name = some (name ++ ": " ++ val ++ ";" ++ "") := by
  simp only [exportVarLineWithOptions, hval]
  rw [if_pos hopts]
  rw [if_neg (by simp [hout])]
  rfl

theorem optTemplate_ne_nil (t0 binv : Bool) (dh ds dl : Option (List Char))
    (h : t0 = true ∨ binv = true ∨ dh.isSome = true ∨ ds.isSome = true ∨ dl.isSome = true) :
    optTemplate t0 binv dh ds dl ≠ [] := by
  cases t0 <;> cases binv <;> rcases dh with _ | d1 <;> rcases ds with _ | d2 <;>
    rcases dl with _ | d3 <;> simp_all [optTemplate]

/-- Claim C7 (amended): exporting a variable's declaration line with explicit
adjustment options enabled and re-importing it restores the value, restores
`saveExplicitRgbInOutput` to the truthiness it had, restores each
natural-number-valued numeric option to its exact value and each omitted
numeric option to its neutral value (hueRotate 0, the factors 1), and
restores `optionInvert` to whether the field was *defined* — a
defined-but-`false` invert comes back `true`; when no option is exported,
importing the plain declaration restores only the value. -/
theorem c7_export_import_roundtrip
    (s sA : VarState) (w : List Char) (hw : w ≠ []) (hwd : ∀ c ∈ w, isWordDash c = true)
    (v0 : Char) (val' : List Char) (hv1 : ∀ c ∈ v0 :: val', (c = ';') = False)
    (hv2 : isSepJs v0 = false)
    (hval : s.value = some (String.mk (v0 :: val')))
    (nh ns nl : Option ℕ)
    (hh : s.optionHueRotate = nh.map (fun n : ℕ => (n : ℚ)))
    (hs : s.optionSaturationFactor = ns.map (fun n : ℕ => (n : ℚ)))
    (hl : s.optionLightnessFactor = nl.map (fun n : ℕ => (n : ℚ))) :
    (truthyB s.saveExplicitRgbInOutput = true ∨ s.optionInvert.isSome = true ∨
        nh.isSome = true ∨ ns.isSome = true ∨ nl.isSome = true →
      exportImportVar s sA (String.mk ('-' :: '-' :: w))
        = some { sA with
            value := some (String.mk (v0 :: val')),
            saveExplicitRgbInOutput := some (truthyB s.saveExplicitRgbInOutput),
            optionInvert := some s.optionInvert.isSome,
            optionHueRotate := some ((nh.map (fun n : ℕ => (n : ℚ))).getD 0),
            optionSaturationFactor := some ((ns.map (fun n : ℕ => (n : ℚ))).getD 1),
            optionLightnessFactor := some ((nl.map (fun n : ℕ => (n : ℚ))).getD 1) })
    ∧ (optionTokens s = [] → valueShouldGoInOutput s = true →
      exportImportVar s sA (String.mk ('-' :: '-' :: w))
        = some { sA with value := some (String.mk (v0 :: val')) }) := by
  have hdigits : ∀ (no : Option ℕ), ∀ d ∈ no.map natToDigits,
      d ≠ [] ∧ ∀ c ∈ d, isDigitJs c = true := by
    intro no d hd
    rcases no with _ | n
    · exact absurd hd (by simp)
    · simp only [Option.map_some', Option.mem_def, Option.some.injEq] at hd
      subst hd
      obtain ⟨h1, h2, _⟩ := natToDigits_spec n
      exact ⟨h1, h2⟩
  constructor
  · intro hpres
    have hwfT := optTemplate_wf (truthyB s.saveExplicitRgbInOutput) s.optionInvert.isSome
      (nh.map natToDigits) (ns.map natToDigits) (nl.map natToDigits)
      (hdigits nh) (hdigits ns) (hdigits nl)
    have hism : ∀ (no : Option ℕ), (no.map natToDigits).isSome = no.isSome := by
      intro no; cases no <;> rfl
    have htne := optTemplate_ne_nil (truthyB s.saveExplicitRgbInOutput) s.optionInvert.isSome
      (nh.map natToDigits) (ns.map natToDigits) (nl.map natToDigits)
      (by rcases hpres with h | h | h | h | h
          · exact Or.inl h
          · exact Or.inr (Or.inl h)
          · exact Or.inr (Or.inr (Or.inl ((hism nh).trans h)))
          · exact Or.inr (Or.inr (Or.inr (Or.inl ((hism ns).trans h))))
          · exact Or.inr (Or.inr (Or.inr (Or.inr ((hism nl).trans h)))))
    have hopt := optionTokens_template s nh ns nl hh hs hl
    have hoptne : optionTokens s ≠ [] := by
      rw [hopt]
      intro he
      exact htne (List.map_eq_nil.mp he)
    rw [exportImportVar, exportVarLine_some s _ _ hval hoptne, hopt]
    show importRestoreFields sA _ = _
    rw [importRestoreFields_line sA w hw hwd v0 val' hv1 hv2 _ hwfT htne,
      foldImportedOptions_template]
    have hfield : ∀ (no : Option ℕ) (dflt : ℚ),
        ((no.map natToDigits).map (fun d => (jsParseFloatTok d).getD 0)).getD dflt
          = (no.map (fun n : ℕ => (n : ℚ))).getD dflt := by
      intro no dflt
      rcases no with _ | n
      · rfl
      · obtain ⟨h1, h2, h3⟩ := natToDigits_spec n
        simp only [Option.map_some', Option.getD_some]
        rw [jsParseFloatTok_digits _ h1 h2, h3]
        rfl
    rw [hfield nh 0, hfield ns 1, hfield nl 1]
  · intro hopts hout
    rw [exportImportVar, exportVarLine_nc s _ _ hval hopts hout]
    show importRestoreFields sA _ = _
    exact importRestoreFields_line_nc sA w hw hwd v0 val' hv1 hv2

theorem c7_counterexample :
    c7State.optionInvert = some false ∧
    (exportImportVar c7State VarState.init "--x").map (fun s' => s'.optionInvert)
      = some (some true) := by
  constructor
  · rfl
  · rfl

theorem c7_witness :
    exportImportVar c7S VarState.init (String.mk ('-' :: '-' :: ['x']))
      = some { VarState.init with
          value := some (String.mk ('#' :: "112233".data)),
          saveExplicitRgbInOutput := some false,
          optionInvert := some true,
          optionHueRotate := some ((30 : ℕ) : ℚ),
          optionSaturationFactor := some 1,
          optionLightnessFactor := some 1 } := by
  have h := c7_export_import_roundtrip c7S VarState.init ['x'] (by decide) (by decide)
    '#' "112233".data (by decide) (by decide) rfl (some 30) none none rfl rfl rfl
  exact h.1 (Or.inr (Or.inl rfl))

theorem jround_err (x : ℚ) : |(jround x : ℚ) - x| ≤ 1/2 := by
  rw [abs_le]
  constructor
  · have h := Int.lt_floor_add_one (x + 1/2)
    rw [jround]
    push_cast
    linarith
  · have h := Int.floor_le (x + 1/2)
    rw [jround]
    push_cast
    linarith

theorem jround_le_of_le {x : ℚ} {n : ℤ} (h : x ≤ n) : jround x ≤ n := by
  rw [jround]
  have : x + 1/2 < n + 1 := by linarith
  exact Int.lt_add_one_iff.mp (Int.floor_lt.mpr (by push_cast; linarith))

theorem jround_nonneg' {x : ℚ} (h : 0 ≤ x) : 0 ≤ jround x := by
  rw [jround]
  have : (0 : ℚ) ≤ x + 1/2 := by linarith
  exact Int.floor_nonneg.mpr this

theorem wClamp_lo {k : ℚ} (h : k ≤ 0) : wClamp k = 0 := by
  rw [wClamp, max_eq_right]
  rcases le_total k (4 - k) with h1 | h1
  · rw [min_eq_left h1]
    exact min_le_of_left_le h
  · calc min (min k (4 - k)) 1 ≤ min k (4 - k) := min_le_left _ _
      _ ≤ k := min_le_left _ _
      _ ≤ 0 := h

theorem wClamp_hi {k : ℚ} (h : 4 ≤ k) : wClamp k = 0 := by
  rw [wClamp, max_eq_right]
  calc min (min k (4 - k)) 1 ≤ min k (4 - k) := min_le_left _ _
    _ ≤ 4 - k := min_le_right _ _
    _ ≤ 0 := by linarith

theorem wClamp_id {k : ℚ} (h0 : 0 ≤ k) (h1 : k ≤ 1) : wClamp k = k := by
  rw [wClamp, min_eq_left (by rcases min_cases k (4-k) with ⟨e,_⟩|⟨e,_⟩ <;> rw [e] <;> linarith),
    min_eq_left (by linarith), max_eq_left h0]

theorem wClamp_one {k : ℚ} (h1 : 1 ≤ k) (h3 : k ≤ 3) : wClamp k = 1 := by
  rw [wClamp, min_eq_right (by rcases min_cases k (4-k) with ⟨e,_⟩|⟨e,_⟩ <;> rw [e] <;> linarith),
    max_eq_left (by norm_num)]

theorem wClamp_down {k : ℚ} (h3 : 3 ≤ k) (h4 : k ≤ 4) : wClamp k = 4 - k := by
  rw [wClamp, show min k (4 - k) = 4 - k from min_eq_right (by linarith),
    show min (4 - k) 1 = 4 - k from min_eq_left (by linarith), max_eq_left (by linarith)]

theorem wClamp_mem (k : ℚ) : 0 ≤ wClamp k ∧ wClamp k ≤ 1 := by
  constructor
  · exact le_max_right _ _
  · rw [wClamp]
    rcases max_cases (min (min k (4 - k)) 1) 0 with ⟨e, _⟩ | ⟨e, _⟩
    · rw [e]
      exact min_le_right _ _
    · rw [e]
      norm_num

theorem uClamp_lo {k : ℚ} (h : k ≤ 2) : uClamp k = -1 := by
  rw [uClamp, max_eq_right]
  calc min (min (k - 3) (9 - k)) 1 ≤ min (k - 3) (9 - k) := min_le_left _ _
    _ ≤ k - 3 := min_le_left _ _
    _ ≤ -1 := by linarith

theorem uClamp_hi {k : ℚ} (h : 10 ≤ k) : uClamp k = -1 := by
  rw [uClamp, max_eq_right]
  calc min (min (k - 3) (9 - k)) 1 ≤ min (k - 3) (9 - k) := min_le_left _ _
    _ ≤ 9 - k := min_le_right _ _
    _ ≤ -1 := by linarith

theorem uClamp_up {k : ℚ} (h2 : 2 ≤ k) (h4 : k ≤ 4) : uClamp k = k - 3 := by
  rw [uClamp, show min (k - 3) (9 - k) = k - 3 from min_eq_left (by linarith),
    show min (k - 3) 1 = k - 3 from min_eq_left (by linarith), max_eq_left (by linarith)]

theorem uClamp_one {k : ℚ} (h4 : 4 ≤ k) (h8 : k ≤ 8) : uClamp k = 1 := by
  rw [uClamp, min_eq_right (by rcases min_cases (k-3) (9-k) with ⟨e,_⟩|⟨e,_⟩ <;> rw [e] <;> linarith),
    max_eq_left (by norm_num)]

theorem uClamp_dn {k : ℚ} (h8 : 8 ≤ k) (h10 : k ≤ 10) : uClamp k = 9 - k := by
  rw [uClamp, show min (k - 3) (9 - k) = 9 - k from min_eq_right (by linarith),
    show min (9 - k) 1 = 9 - k from min_eq_left (by linarith), max_eq_left (by linarith)]

theorem uClamp_mem (k : ℚ) : -1 ≤ uClamp k ∧ uClamp k ≤ 1 := by
  constructor
  · exact le_max_right _ _
  · rw [uClamp]
    rcases max_cases (min (min (k - 3) (9 - k)) 1) (-1 : ℚ) with ⟨e, _⟩ | ⟨e, _⟩
    · rw [e]
      exact min_le_right _ _
    · rw [e]
      norm_num

theorem jsMod_eq_self {x b : ℚ} (hb : 0 < b) (h0 : 0 ≤ x) (h1 : x < b) : jsMod x b = x := by
  rw [jsMod, jsTrunc, if_pos (div_nonneg h0 hb.le)]
  rw [show ⌊x / b⌋ = 0 from Int.floor_eq_zero_iff.mpr
    ⟨div_nonneg h0 hb.le, by rw [div_lt_one hb]; exact h1⟩]
  push_cast
  ring

theorem jsMod_shift {x b : ℚ} (hb : 0 < b) (h0 : b ≤ x) (h1 : x < 2 * b) : jsMod x b = x - b := by
  rw [jsMod, jsTrunc, if_pos (div_nonneg (by linarith) hb.le)]
  rw [show ⌊x / b⌋ = 1 from by
    rw [Int.floor_eq_iff]
    constructor
    · push_cast
      rw [le_div_iff₀ hb]
      linarith
    · push_cast
      rw [div_lt_iff₀ hb]
      linarith]
  push_cast
  ring

theorem min_lip (a b c d : ℚ) : |min a b - min c d| ≤ max |a - c| |b - d| := by
  have p1 : a - c ≤ |a - c| := le_abs_self _
  have p2 : c - a ≤ |a - c| := by rw [abs_sub_comm]; exact le_abs_self _
  have p3 : b - d ≤ |b - d| := le_abs_self _
  have p4 : d - b ≤ |b - d| := by rw [abs_sub_comm]; exact le_abs_self _
  have m1 : |a - c| ≤ max |a - c| |b - d| := le_max_left _ _
  have m2 : |b - d| ≤ max |a - c| |b - d| := le_max_right _ _
  rw [abs_le]
  constructor <;>
    rcases min_cases a b with ⟨e1, h1⟩ | ⟨e1, h1⟩ <;>
    rcases min_cases c d with ⟨e2, h2⟩ | ⟨e2, h2⟩ <;>
    rw [e1, e2] <;> linarith

theorem max_lip (a b c d : ℚ) : |max a b - max c d| ≤ max |a - c| |b - d| := by
  have p1 : a - c ≤ |a - c| := le_abs_self _
  have p2 : c - a ≤ |a - c| := by rw [abs_sub_comm]; exact le_abs_self _
  have p3 : b - d ≤ |b - d| := le_abs_self _
  have p4 : d - b ≤ |b - d| := by rw [abs_sub_comm]; exact le_abs_self _
  have m1 : |a - c| ≤ max |a - c| |b - d| := le_max_left _ _
  have m2 : |b - d| ≤ max |a - c| |b - d| := le_max_right _ _
  rw [abs_le]
  constructor <;>
    rcases max_cases a b with ⟨e1, h1⟩ | ⟨e1, h1⟩ <;>
    rcases max_cases c d with ⟨e2, h2⟩ | ⟨e2, h2⟩ <;>
    rw [e1, e2] <;> linarith

theorem wClamp_lip (x y : ℚ) : |wClamp x - wClamp y| ≤ |x - y| := by
  have h1 := min_lip x (4 - x) y (4 - y)
  have h2 := min_lip (min x (4 - x)) 1 (min y (4 - y)) 1
  have h3 := max_lip (min (min x (4 - x)) 1) 0 (min (min y (4 - y)) 1) 0
  rw [wClamp, wClamp]
  have e1 : |(4 - x) - (4 - y)| = |x - y| := by rw [show (4 - x) - (4 - y) = -(x - y) by ring, abs_neg]
  have e2 : |(1 : ℚ) - 1| = 0 := by norm_num
  have e3 : |(0 : ℚ) - 0| = 0 := by norm_num
  rw [e1] at h1
  rw [e2] at h2
  rw [e3] at h3
  simp only [max_self] at h1
  calc |max (min (min x (4 - x)) 1) 0 - max (min (min y (4 - y)) 1) 0|
      ≤ max |min (min x (4 - x)) 1 - min (min y (4 - y)) 1| 0 := h3
    _ ≤ max (max |min x (4 - x) - min y (4 - y)| 0) 0 := by
        exact max_le_max h2 (le_refl 0)
    _ ≤ |x - y| := by
        rw [max_le_iff, max_le_iff]
        exact ⟨⟨le_trans h1 (le_refl _), abs_nonneg _⟩, abs_nonneg _⟩

theorem uClamp_lip (x y : ℚ) : |uClamp x - uClamp y| ≤ |x - y| := by
  have h1 := min_lip (x - 3) (9 - x) (y - 3) (9 - y)
  have h2 := min_lip (min (x - 3) (9 - x)) 1 (min (y - 3) (9 - y)) 1
  have h3 := max_lip (min (min (x - 3) (9 - x)) 1) (-1) (min (min (y - 3) (9 - y)) 1) (-1)
  rw [uClamp, uClamp]
  have e1 : |(x - 3) - (y - 3)| = |x - y| := by rw [show (x - 3) - (y - 3) = x - y by ring]
  have e2 : |(9 - x) - (9 - y)| = |x - y| := by rw [show (9 - x) - (9 - y) = -(x - y) by ring, abs_neg]
  have e3 : |(1 : ℚ) - 1| = 0 := by norm_num
  have e4 : |(-1 : ℚ) - -1| = 0 := by norm_num
  rw [e1, e2] at h1
  rw [e3] at h2
  rw [e4] at h3
  simp only [max_self] at h1
  calc |max (min (min (x - 3) (9 - x)) 1) (-1) - max (min (min (y - 3) (9 - y)) 1) (-1)|
      ≤ max |min (min (x - 3) (9 - x)) 1 - min (min (y - 3) (9 - y)) 1| 0 := h3
    _ ≤ max (max |min (x - 3) (9 - x) - min (y - 3) (9 - y)| 0) 0 := max_le_max h2 (le_refl 0)
    _ ≤ |x - y| := by
        rw [max_le_iff, max_le_iff]
        exact ⟨⟨le_trans h1 (le_refl _), abs_nonneg _⟩, abs_nonneg _⟩

theorem jsMod_floor {x : ℚ} (b : ℚ) (hb : 0 < b) (h0 : 0 ≤ x) :
    jsMod x b = x - b * (⌊x / b⌋ : ℚ) := by
  rw [jsMod, jsTrunc, if_pos (div_nonneg h0 hb.le)]

theorem jsMod_bounds {x b : ℚ} (hb : 0 < b) (h0 : 0 ≤ x) :
    0 ≤ jsMod x b ∧ jsMod x b < b := by
  rw [jsMod_floor b hb h0]
  constructor
  · have h := Int.floor_le (x / b)
    have : (⌊x / b⌋ : ℚ) * b ≤ x / b * b := by
      exact mul_le_mul_of_nonneg_right h hb.le
    rw [div_mul_cancel₀ x hb.ne'] at this
    linarith
  · have h := Int.lt_floor_add_one (x / b)
    have : x / b * b < ((⌊x / b⌋ : ℚ) + 1) * b := by
      exact mul_lt_mul_of_pos_right h hb
    rw [div_mul_cancel₀ x hb.ne'] at this
    linarith

theorem floor_diff_le_one {x y : ℚ} (hxy : |x - y| ≤ 1/2) (b : ℚ) (hb : 1 ≤ b) :
    ⌊y / b⌋ - 1 ≤ ⌊x / b⌋ ∧ ⌊x / b⌋ ≤ ⌊y / b⌋ + 1 := by
  obtain ⟨hl, hr⟩ := abs_le.mp hxy
  have hb0 : (0 : ℚ) < b := by linarith
  constructor
  · have h1 : y / b - 1 ≤ x / b := by
      rw [div_sub' _ _ _ hb0.ne', div_le_div_iff hb0 hb0]
      nlinarith
    calc ⌊y / b⌋ - 1 = ⌊y / b - 1⌋ := by rw [Int.floor_sub_one]
      _ ≤ ⌊x / b⌋ := Int.floor_le_floor h1
  · have h1 : x / b ≤ y / b + 1 := by
      rw [div_add' _ _ _ hb0.ne', div_le_div_iff hb0 hb0]
      nlinarith
    calc ⌊x / b⌋ ≤ ⌊y / b + 1⌋ := Int.floor_le_floor h1
      _ = ⌊y / b⌋ + 1 := by rw [Int.floor_add_one]

theorem wWrap_lip {x y : ℚ} (hx : 0 ≤ x) (hy : 0 ≤ y) (hxy : |x - y| ≤ 1/2) :
    |wClamp (jsMod x 6) - wClamp (jsMod y 6)| ≤ |x - y| := by
  obtain ⟨hl, hr⟩ := abs_le.mp hxy
  have h6 : (0 : ℚ) < 6 := by norm_num
  obtain ⟨hd1, hd2⟩ := floor_diff_le_one hxy 6 (by norm_num)
  have hfx1 : (⌊x / 6⌋ : ℚ) * 6 ≤ x := by
    have := mul_le_mul_of_nonneg_right (Int.floor_le (x / 6)) h6.le
    rwa [div_mul_cancel₀ x h6.ne'] at this
  have hfx2 : x < ((⌊x / 6⌋ : ℚ) + 1) * 6 := by
    have := mul_lt_mul_of_pos_right (Int.lt_floor_add_one (x / 6)) h6
    rwa [div_mul_cancel₀ x h6.ne'] at this
  have hfy1 : (⌊y / 6⌋ : ℚ) * 6 ≤ y := by
    have := mul_le_mul_of_nonneg_right (Int.floor_le (y / 6)) h6.le
    rwa [div_mul_cancel₀ y h6.ne'] at this
  have hfy2 : y < ((⌊y / 6⌋ : ℚ) + 1) * 6 := by
    have := mul_lt_mul_of_pos_right (Int.lt_floor_add_one (y / 6)) h6
    rwa [div_mul_cancel₀ y h6.ne'] at this
  rw [jsMod_floor 6 h6 hx, jsMod_floor 6 h6 hy]
  rcases Int.lt_or_le ⌊x / 6⌋ ⌊y / 6⌋ with hc | hc
  · -- ⌊x/6⌋ = ⌊y/6⌋ - 1
    have he : ⌊x / 6⌋ = ⌊y / 6⌋ - 1 := by omega
    rw [he]
    have hyc : (⌊y / 6⌋ : ℚ) * 6 ≤ y := hfy1
    have hxc : x < (⌊y / 6⌋ : ℚ) * 6 := by
      have : ((⌊y / 6⌋ - 1 : ℤ) : ℚ) + 1 = (⌊y / 6⌋ : ℚ) := by push_cast; ring
      calc x < (((⌊y / 6⌋ - 1 : ℤ) : ℚ) + 1) * 6 := by rw [← he]; exact hfx2
        _ = (⌊y / 6⌋ : ℚ) * 6 := by rw [this]
    have hwx : wClamp (x - 6 * ((⌊y / 6⌋ - 1 : ℤ) : ℚ)) = 0 := by
      apply wClamp_hi
      push_cast
      nlinarith
    have hwy : wClamp (y - 6 * (⌊y / 6⌋ : ℚ)) = y - 6 * (⌊y / 6⌋ : ℚ) := by
      apply wClamp_id
      · linarith
      · nlinarith
    rw [hwx, hwy, zero_sub, abs_neg, abs_of_nonneg (by linarith)]
    rw [show |x - y| = y - x from by rw [abs_sub_comm]; exact abs_of_nonneg (by linarith)]
    linarith
  · rcases Int.lt_or_le ⌊y / 6⌋ ⌊x / 6⌋ with hc2 | hc2
    · -- ⌊x/6⌋ = ⌊y/6⌋ + 1
      have he : ⌊y / 6⌋ = ⌊x / 6⌋ - 1 := by omega
      rw [he]
      have hyc : y < (⌊x / 6⌋ : ℚ) * 6 := by
        have : ((⌊x / 6⌋ - 1 : ℤ) : ℚ) + 1 = (⌊x / 6⌋ : ℚ) := by push_cast; ring
        calc y < (((⌊x / 6⌋ - 1 : ℤ) : ℚ) + 1) * 6 := by rw [← he]; exact hfy2
          _ = (⌊x / 6⌋ : ℚ) * 6 := by rw [this]
      have hwy : wClamp (y - 6 * ((⌊x / 6⌋ - 1 : ℤ) : ℚ)) = 0 := by
        apply wClamp_hi
        push_cast
        nlinarith
      have hwx : wClamp (x - 6 * (⌊x / 6⌋ : ℚ)) = x - 6 * (⌊x / 6⌋ : ℚ) := by
        apply wClamp_id
        · linarith
        · nlinarith
      rw [hwx, hwy, sub_zero, abs_of_nonneg (by linarith),
        abs_of_nonneg (show (0 : ℚ) ≤ x - y from by linarith)]
      linarith
    · -- equal floors
      have he : ⌊x / 6⌋ = ⌊y / 6⌋ := le_antisymm hc2 hc
      rw [he]
      calc |wClamp (x - 6 * (⌊y / 6⌋ : ℚ)) - wClamp (y - 6 * (⌊y / 6⌋ : ℚ))|
          ≤ |(x - 6 * (⌊y / 6⌋ : ℚ)) - (y - 6 * (⌊y / 6⌋ : ℚ))| := wClamp_lip _ _
        _ = |x - y| := by ring_nf

theorem uWrap_lip {x y : ℚ} (hx : 0 ≤ x) (hy : 0 ≤ y) (hxy : |x - y| ≤ 1/2) :
    |uClamp (jsMod x 12) - uClamp (jsMod y 12)| ≤ |x - y| := by
  obtain ⟨hl, hr⟩ := abs_le.mp hxy
  have h12 : (0 : ℚ) < 12 := by norm_num
  obtain ⟨hd1, hd2⟩ := floor_diff_le_one hxy 12 (by norm_num)
  have hfx1 : (⌊x / 12⌋ : ℚ) * 12 ≤ x := by
    have := mul_le_mul_of_nonneg_right (Int.floor_le (x / 12)) h12.le
    rwa [div_mul_cancel₀ x h12.ne'] at this
  have hfx2 : x < ((⌊x / 12⌋ : ℚ) + 1) * 12 := by
    have := mul_lt_mul_of_pos_right (Int.lt_floor_add_one (x / 12)) h12
    rwa [div_mul_cancel₀ x h12.ne'] at this
  have hfy1 : (⌊y / 12⌋ : ℚ) * 12 ≤ y := by
    have := mul_le_mul_of_nonneg_right (Int.floor_le (y / 12)) h12.le
    rwa [div_mul_cancel₀ y h12.ne'] at this
  have hfy2 : y < ((⌊y / 12⌋ : ℚ) + 1) * 12 := by
    have := mul_lt_mul_of_pos_right (Int.lt_floor_add_one (y / 12)) h12
    rwa [div_mul_cancel₀ y h12.ne'] at this
  rw [jsMod_floor 12 h12 hx, jsMod_floor 12 h12 hy]
  rcases Int.lt_or_le ⌊x / 12⌋ ⌊y / 12⌋ with hc | hc
  · have he : ⌊x / 12⌋ = ⌊y / 12⌋ - 1 := by omega
    rw [he]
    have hxc : x < (⌊y / 12⌋ : ℚ) * 12 := by
      have h' : ((⌊y / 12⌋ - 1 : ℤ) : ℚ) + 1 = (⌊y / 12⌋ : ℚ) := by push_cast; ring
      calc x < (((⌊y / 12⌋ - 1 : ℤ) : ℚ) + 1) * 12 := by rw [← he]; exact hfx2
        _ = (⌊y / 12⌋ : ℚ) * 12 := by rw [h']
    have hux : uClamp (x - 12 * ((⌊y / 12⌋ - 1 : ℤ) : ℚ)) = -1 := by
      apply uClamp_hi
      push_cast
      nlinarith
    have huy : uClamp (y - 12 * (⌊y / 12⌋ : ℚ)) = -1 := by
      apply uClamp_lo
      nlinarith
    rw [hux, huy]
    simp [abs_nonneg]
  · rcases Int.lt_or_le ⌊y / 12⌋ ⌊x / 12⌋ with hc2 | hc2
    · have he : ⌊y / 12⌋ = ⌊x / 12⌋ - 1 := by omega
      rw [he]
      have hyc : y < (⌊x / 12⌋ : ℚ) * 12 := by
        have h' : ((⌊x / 12⌋ - 1 : ℤ) : ℚ) + 1 = (⌊x / 12⌋ : ℚ) := by push_cast; ring
        calc y < (((⌊x / 12⌋ - 1 : ℤ) : ℚ) + 1) * 12 := by rw [← he]; exact hfy2
          _ = (⌊x / 12⌋ : ℚ) * 12 := by rw [h']
      have huy : uClamp (y - 12 * ((⌊x / 12⌋ - 1 : ℤ) : ℚ)) = -1 := by
        apply uClamp_hi
        push_cast
        nlinarith
      have hux : uClamp (x - 12 * (⌊x / 12⌋ : ℚ)) = -1 := by
        apply uClamp_lo
        nlinarith
      rw [hux, huy]
      simp [abs_nonneg]
    · have he : ⌊x / 12⌋ = ⌊y / 12⌋ := le_antisymm hc2 hc
      rw [he]
      calc |uClamp (x - 12 * (⌊y / 12⌋ : ℚ)) - uClamp (y - 12 * (⌊y / 12⌋ : ℚ))|
          ≤ |(x - 12 * (⌊y / 12⌋ : ℚ)) - (y - 12 * (⌊y / 12⌋ : ℚ))| := uClamp_lip _ _
        _ = |x - y| := by ring_nf

theorem chan_bound (v s h : ℚ) (V S H rr : ℤ) (n : ℚ)
    (hn : 0 ≤ n) (hv0 : 0 ≤ v) (hv1 : v ≤ 1) (hs0 : 0 ≤ s) (hs1 : s ≤ 1)
    (hh0 : 0 ≤ h) (hHq : 0 ≤ (H : ℚ))
    (hVd : |(V : ℚ) - 100 * v| ≤ 1/2) (hSd : |(S : ℚ) - 100 * s| ≤ 1/2)
    (hHd : |(H : ℚ) - h| ≤ 1/2)
    (hV0 : 0 ≤ V) (hV1 : V ≤ 100) (hS0 : 0 ≤ S) (hS1 : S ≤ 100)
    (hexact : v * (1 - s * wClamp (jsMod (n + h / 60) 6)) * 255 = (rr : ℚ)) :
    |jround ((V : ℚ) / 100 * (1 - (S : ℚ) / 100 * wClamp (jsMod (n + (H : ℚ) / 60) 6)) * 255)
      - rr| ≤ 5 := by
  obtain ⟨hW0, hW1⟩ := wClamp_mem (jsMod (n + h / 60) 6)
  obtain ⟨hW0', hW1'⟩ := wClamp_mem (jsMod (n + (H : ℚ) / 60) 6)
  have hWd : |wClamp (jsMod (n + (H : ℚ) / 60) 6) - wClamp (jsMod (n + h / 60) 6)| ≤ 1/120 := by
    have harg : |(n + (H : ℚ) / 60) - (n + h / 60)| ≤ 1/120 := by
      rw [show (n + (H : ℚ) / 60) - (n + h / 60) = ((H : ℚ) - h) / 60 from by ring,
        abs_div, abs_of_pos (show (0:ℚ) < 60 from by norm_num)]
      linarith [hHd]
    calc |wClamp (jsMod (n + (H : ℚ) / 60) 6) - wClamp (jsMod (n + h / 60) 6)|
        ≤ |(n + (H : ℚ) / 60) - (n + h / 60)| :=
          wWrap_lip (by positivity) (by positivity) (by linarith [harg])
      _ ≤ 1/120 := harg
  set W : ℚ := wClamp (jsMod (n + h / 60) 6) with hWdef
  set W' : ℚ := wClamp (jsMod (n + (H : ℚ) / 60) 6) with hWdef'
  have hSq0 : (0 : ℚ) ≤ (S : ℚ) / 100 := by positivity
  have hSq1 : (S : ℚ) / 100 ≤ 1 := by
    rw [div_le_one (by norm_num)]
    exact_mod_cast hS1
  have ha : |(V : ℚ) / 100 - v| ≤ 1/200 := by
    rw [show (V : ℚ) / 100 - v = ((V : ℚ) - 100 * v) / 100 from by ring, abs_div,
      abs_of_pos (show (0:ℚ) < 100 from by norm_num)]
    linarith [hVd]
  have hb : |(S : ℚ) / 100 - s| ≤ 1/200 := by
    rw [show (S : ℚ) / 100 - s = ((S : ℚ) - 100 * s) / 100 from by ring, abs_div,
      abs_of_pos (show (0:ℚ) < 100 from by norm_num)]
    linarith [hSd]
  have e1 : |((V : ℚ) / 100 - v) * (1 - (S : ℚ) / 100 * W')| ≤ 1/200 := by
    have h2 : |1 - (S : ℚ) / 100 * W'| ≤ 1 := by
      rw [abs_le]
      constructor <;> nlinarith
    calc |((V : ℚ) / 100 - v) * (1 - (S : ℚ) / 100 * W')|
        = |(V : ℚ) / 100 - v| * |1 - (S : ℚ) / 100 * W'| := abs_mul _ _
      _ ≤ (1/200) * 1 := mul_le_mul ha h2 (abs_nonneg _) (by norm_num)
      _ = 1/200 := by norm_num
  have e2 : |v * s * (W - W')| ≤ 1/120 := by
    have h1 : |v * s| ≤ 1 := by
      rw [abs_mul, abs_of_nonneg hv0, abs_of_nonneg hs0]
      nlinarith
    have h2 : |W - W'| ≤ 1/120 := by
      rw [abs_sub_comm]
      exact hWd
    calc |v * s * (W - W')| = |v * s| * |W - W'| := abs_mul _ _
      _ ≤ 1 * (1/120) := mul_le_mul h1 h2 (abs_nonneg _) (by norm_num)
      _ = 1/120 := by norm_num
  have e3 : |v * (s - (S : ℚ) / 100) * W'| ≤ 1/200 := by
    have h1 : |v * (s - (S : ℚ) / 100)| ≤ 1/200 := by
      have hbs : |s - (S : ℚ) / 100| ≤ 1/200 := by
        rw [abs_sub_comm]
        exact hb
      rw [abs_mul, abs_of_nonneg hv0]
      nlinarith [abs_nonneg (s - (S : ℚ) / 100)]
    have h2 : |W'| ≤ 1 := by
      rw [abs_of_nonneg hW0']
      exact hW1'
    calc |v * (s - (S : ℚ) / 100) * W'| = |v * (s - (S : ℚ) / 100)| * |W'| := abs_mul _ _
      _ ≤ (1/200) * 1 := mul_le_mul h1 h2 (abs_nonneg _) (by norm_num)
      _ = 1/200 := by norm_num
  have hsum : |(V : ℚ) / 100 * (1 - (S : ℚ) / 100 * W') - v * (1 - s * W)| ≤ 11/600 := by
    have hdecomp : (V : ℚ) / 100 * (1 - (S : ℚ) / 100 * W') - v * (1 - s * W)
        = ((V : ℚ) / 100 - v) * (1 - (S : ℚ) / 100 * W') + v * s * (W - W')
          + v * (s - (S : ℚ) / 100) * W' := by ring
    rw [hdecomp]
    calc |((V : ℚ) / 100 - v) * (1 - (S : ℚ) / 100 * W') + v * s * (W - W')
          + v * (s - (S : ℚ) / 100) * W'|
        ≤ |((V : ℚ) / 100 - v) * (1 - (S : ℚ) / 100 * W') + v * s * (W - W')|
          + |v * (s - (S : ℚ) / 100) * W'| := abs_add _ _
      _ ≤ |((V : ℚ) / 100 - v) * (1 - (S : ℚ) / 100 * W')| + |v * s * (W - W')|
          + |v * (s - (S : ℚ) / 100) * W'| := by
            have habs2 := abs_add (((V : ℚ) / 100 - v) * (1 - (S : ℚ) / 100 * W'))
              (v * s * (W - W'))
            linarith
      _ ≤ 1/200 + 1/120 + 1/200 := by linarith
      _ = 11/600 := by norm_num
  obtain ⟨hsl, hsr⟩ := abs_le.mp hsum
  rw [jround]
  have hup : ⌊(V : ℚ) / 100 * (1 - (S : ℚ) / 100 * W') * 255 + 1/2⌋ < rr + 6 := by
    rw [Int.floor_lt]
    push_cast
    linarith [hexact]
  have hdn : rr - 5 ≤ ⌊(V : ℚ) / 100 * (1 - (S : ℚ) / 100 * W') * 255 + 1/2⌋ := by
    rw [Int.le_floor]
    push_cast
    linarith [hexact]
  rw [abs_le]
  omega

set_option maxHeartbeats 1000000 in
theorem chanL_bound (l sl h : ℚ) (L SL H rr : ℤ) (n : ℚ)
    (hn : 0 ≤ n) (hl0 : 0 ≤ l) (hl1 : l ≤ 1) (hs0 : 0 ≤ sl) (hs1 : sl ≤ 1)
    (hh0 : 0 ≤ h) (hHq : 0 ≤ (H : ℚ))
    (hLd : |(L : ℚ) - 100 * l| ≤ 1/2) (hSd : |(SL : ℚ) - 100 * sl| ≤ 1/2)
    (hHd : |(H : ℚ) - h| ≤ 1/2)
    (hL0 : 0 ≤ L) (hL1 : L ≤ 100) (hS0 : 0 ≤ SL) (hS1 : SL ≤ 100)
    (hexact : (l - sl * min l (1 - l) * uClamp (jsMod (n + h / 30) 12)) * 255 = (rr : ℚ)) :
    |jround (((L : ℚ) / 100 - (SL : ℚ) / 100 * min ((L : ℚ) / 100) (1 - (L : ℚ) / 100)
      * uClamp (jsMod (n + (H : ℚ) / 30) 12)) * 255) - rr| ≤ 5 := by
  obtain ⟨hU0, hU1⟩ := uClamp_mem (jsMod (n + h / 30) 12)
  obtain ⟨hU0', hU1'⟩ := uClamp_mem (jsMod (n + (H : ℚ) / 30) 12)
  have hUd : |uClamp (jsMod (n + (H : ℚ) / 30) 12) - uClamp (jsMod (n + h / 30) 12)| ≤ 1/60 := by
    have harg : |(n + (H : ℚ) / 30) - (n + h / 30)| ≤ 1/60 := by
      rw [show (n + (H : ℚ) / 30) - (n + h / 30) = ((H : ℚ) - h) / 30 from by ring,
        abs_div, abs_of_pos (show (0:ℚ) < 30 from by norm_num)]
      linarith [hHd]
    calc |uClamp (jsMod (n + (H : ℚ) / 30) 12) - uClamp (jsMod (n + h / 30) 12)|
        ≤ |(n + (H : ℚ) / 30) - (n + h / 30)| :=
          uWrap_lip (by positivity) (by positivity) (by linarith [harg])
      _ ≤ 1/60 := harg
  set U : ℚ := uClamp (jsMod (n + h / 30) 12) with hUdef
  set U' : ℚ := uClamp (jsMod (n + (H : ℚ) / 30) 12) with hUdef'
  set X : ℚ := (L : ℚ) / 100 with hXdef
  set Sg : ℚ := (SL : ℚ) / 100 with hSgdef
  have hX0 : 0 ≤ X := by rw [hXdef]; positivity
  have hX1 : X ≤ 1 := by
    rw [hXdef, div_le_one (by norm_num)]
    exact_mod_cast hL1
  have hSg0 : 0 ≤ Sg := by rw [hSgdef]; positivity
  have hSg1 : Sg ≤ 1 := by
    rw [hSgdef, div_le_one (by norm_num)]
    exact_mod_cast hS1
  have hm : 0 ≤ min l (1 - l) ∧ min l (1 - l) ≤ 1/2 := by
    constructor
    · rcases min_cases l (1 - l) with ⟨e, _⟩ | ⟨e, _⟩ <;> rw [e] <;> linarith
    · rcases min_cases l (1 - l) with ⟨e, h⟩ | ⟨e, h⟩ <;> rw [e] <;> linarith
  have hm' : 0 ≤ min X (1 - X) ∧ min X (1 - X) ≤ 1/2 := by
    constructor
    · rcases min_cases X (1 - X) with ⟨e, _⟩ | ⟨e, _⟩ <;> rw [e] <;> linarith
    · rcases min_cases X (1 - X) with ⟨e, h⟩ | ⟨e, h⟩ <;> rw [e] <;> linarith
  have ha : |X - l| ≤ 1/200 := by
    rw [hXdef, show (L : ℚ) / 100 - l = ((L : ℚ) - 100 * l) / 100 from by ring, abs_div,
      abs_of_pos (show (0:ℚ) < 100 from by norm_num)]
    linarith [hLd]
  have hb : |Sg - sl| ≤ 1/200 := by
    rw [hSgdef, show (SL : ℚ) / 100 - sl = ((SL : ℚ) - 100 * sl) / 100 from by ring, abs_div,
      abs_of_pos (show (0:ℚ) < 100 from by norm_num)]
    linarith [hSd]
  have hmd : |min X (1 - X) - min l (1 - l)| ≤ 1/200 := by
    have h := min_lip X (1 - X) l (1 - l)
    have e1 : |(1 - X) - (1 - l)| = |X - l| := by
      rw [show (1 - X) - (1 - l) = -(X - l) from by ring, abs_neg]
    rw [e1, max_self] at h
    linarith
  have e1 : |(Sg - sl) * min X (1 - X) * U'| ≤ 1/400 := by
    have h1 : |(Sg - sl) * min X (1 - X)| ≤ 1/400 := by
      rw [abs_mul, abs_of_nonneg hm'.1]
      nlinarith [abs_nonneg (Sg - sl)]
    have h2 : |U'| ≤ 1 := abs_le.mpr ⟨hU0', hU1'⟩
    calc |(Sg - sl) * min X (1 - X) * U'| = |(Sg - sl) * min X (1 - X)| * |U'| := abs_mul _ _
      _ ≤ (1/400) * 1 := mul_le_mul h1 h2 (abs_nonneg _) (by norm_num)
      _ = 1/400 := by norm_num
  have e2 : |sl * (min X (1 - X) - min l (1 - l)) * U'| ≤ 1/200 := by
    have h1 : |sl * (min X (1 - X) - min l (1 - l))| ≤ 1/200 := by
      rw [abs_mul, abs_of_nonneg hs0]
      nlinarith [abs_nonneg (min X (1 - X) - min l (1 - l))]
    have h2 : |U'| ≤ 1 := abs_le.mpr ⟨hU0', hU1'⟩
    calc |sl * (min X (1 - X) - min l (1 - l)) * U'|
        = |sl * (min X (1 - X) - min l (1 - l))| * |U'| := abs_mul _ _
      _ ≤ (1/200) * 1 := mul_le_mul h1 h2 (abs_nonneg _) (by norm_num)
      _ = 1/200 := by norm_num
  have e3 : |sl * min l (1 - l) * (U' - U)| ≤ 1/120 := by
    have h1 : |sl * min l (1 - l)| ≤ 1/2 := by
      rw [abs_mul, abs_of_nonneg hs0, abs_of_nonneg hm.1]
      nlinarith
    calc |sl * min l (1 - l) * (U' - U)| = |sl * min l (1 - l)| * |U' - U| := abs_mul _ _
      _ ≤ (1/2) * (1/60) := mul_le_mul h1 hUd (abs_nonneg _) (by norm_num)
      _ = 1/120 := by norm_num
  have hsum : |(X - Sg * min X (1 - X) * U') - (l - sl * min l (1 - l) * U)| ≤ 25/1200 := by
    have hdecomp : (X - Sg * min X (1 - X) * U') - (l - sl * min l (1 - l) * U)
        = (X - l) - ((Sg - sl) * min X (1 - X) * U' + sl * (min X (1 - X) - min l (1 - l)) * U'
          + sl * min l (1 - l) * (U' - U)) := by ring
    rw [hdecomp]
    have t1 := abs_add ((Sg - sl) * min X (1 - X) * U')
      (sl * (min X (1 - X) - min l (1 - l)) * U')
    have t2 := abs_add ((Sg - sl) * min X (1 - X) * U'
      + sl * (min X (1 - X) - min l (1 - l)) * U') (sl * min l (1 - l) * (U' - U))
    have t3 := abs_sub (X - l) ((Sg - sl) * min X (1 - X) * U'
      + sl * (min X (1 - X) - min l (1 - l)) * U' + sl * min l (1 - l) * (U' - U))
    linarith
  obtain ⟨hsl', hsr'⟩ := abs_le.mp hsum
  rw [jround]
  have hup : ⌊(X - Sg * min X (1 - X) * U') * 255 + 1/2⌋ < rr + 6 := by
    rw [Int.floor_lt]
    push_cast
    linarith [hexact]
  have hdn : rr - 5 ≤ ⌊(X - Sg * min X (1 - X) * U') * 255 + 1/2⌋ := by
    rw [Int.le_floor]
    push_cast
    linarith [hexact]
  rw [abs_le]
  omega


set_option maxHeartbeats 2000000 in
theorem hsv_exact (r' g' b' mx mn d s v h : ℚ)
    (hr0 : 0 ≤ r') (hr1 : r' ≤ 1) (hg0 : 0 ≤ g') (hg1 : g' ≤ 1)
    (hb0 : 0 ≤ b') (hb1 : b' ≤ 1)
    (hmx : mx = max r' (max g' b')) (hmn : mn = min r' (min g' b'))
    (hd : d = mx - mn) (hs : s = if mx = 0 then 0 else d / mx) (hv : v = mx)
    (hh : h = (if mx = mn then 0
          else if mx = r' then jsMod (60 * (g' - b') / d + 360) 360
          else if mx = g' then jsMod (60 * (b' - r') / d + 120) 360
          else jsMod (60 * (r' - g') / d + 240) 360)) :
    (0 ≤ h ∧ h < 360) ∧ (0 ≤ s ∧ s ≤ 1) ∧ (0 ≤ v ∧ v ≤ 1) ∧
    v * (1 - s * wClamp (jsMod (5 + h / 60) 6)) * 255 = r' * 255 ∧
    v * (1 - s * wClamp (jsMod (3 + h / 60) 6)) * 255 = g' * 255 ∧
    v * (1 - s * wClamp (jsMod (1 + h / 60) 6)) * 255 = b' * 255 := by
  have hrx : r' ≤ mx := by rw [hmx]; exact le_max_left _ _
  have hgx : g' ≤ mx := by rw [hmx]; exact le_trans (le_max_left _ _) (le_max_right _ _)
  have hbx : b' ≤ mx := by rw [hmx]; exact le_trans (le_max_right _ _) (le_max_right _ _)
  have hnr : mn ≤ r' := by rw [hmn]; exact min_le_left _ _
  have hng : mn ≤ g' := by rw [hmn]; exact le_trans (min_le_right _ _) (min_le_left _ _)
  have hnb : mn ≤ b' := by rw [hmn]; exact le_trans (min_le_right _ _) (min_le_right _ _)
  have hmx1 : mx ≤ 1 := by
    rw [hmx]
    exact max_le hr1 (max_le hg1 hb1)
  have hmn0 : 0 ≤ mn := by
    rw [hmn]
    exact le_min hr0 (le_min hg0 hb0)
  have hd0 : 0 ≤ d := by rw [hd]; linarith [le_trans hnr hrx]
  by_cases hdz : mx = mn
  · have hre : r' = mx := le_antisymm hrx (hdz ▸ hnr)
    have hge : g' = mx := le_antisymm hgx (hdz ▸ hng)
    have hbe : b' = mx := le_antisymm hbx (hdz ▸ hnb)
    have hs0 : s = 0 := by
      rw [hs]
      split_ifs with hz
      · rfl
      · rw [hd, hdz, sub_self, zero_div]
    have hh0 : h = 0 := by rw [hh, if_pos hdz]
    refine ⟨⟨by rw [hh0], by rw [hh0]; norm_num⟩, ⟨by rw [hs0], by rw [hs0]; norm_num⟩,
      ⟨by rw [hv, hmx]; positivity, by rw [hv]; exact hmx1⟩, ?_, ?_, ?_⟩
    · rw [hs0, hv, hre]; ring
    · rw [hs0, hv, hge]; ring
    · rw [hs0, hv, hbe]; ring
  · have hlt : mn < mx := lt_of_le_of_ne (by linarith [le_trans hnr hrx]) (Ne.symm hdz)
    have hdp : 0 < d := by rw [hd]; linarith
    have hmxp : 0 < mx := lt_of_le_of_lt hmn0 hlt
    have hse : s = d / mx := by rw [hs, if_neg hmxp.ne']
    have hs01 : 0 ≤ s ∧ s ≤ 1 := by
      constructor
      · rw [hse]; positivity
      · rw [hse, div_le_one hmxp, hd]; linarith
    have hvs : v * s = d := by
      rw [hv, hse]
      field_simp
    have key : ∀ W : ℚ, v * (1 - s * W) * 255 = (mx - d * W) * 255 := by
      intro W
      have h1 : v = mx := hv
      linear_combination (255 : ℚ) * h1 - (255 : ℚ) * W * hvs
    have hv01 : 0 ≤ v ∧ v ≤ 1 := ⟨by rw [hv]; linarith, by rw [hv]; exact hmx1⟩
    by_cases hxr : mx = r'
    · -- red sector
      have hmng : mn = min g' b' := by
        rw [hmn, min_eq_right]
        rw [hxr] at hgx hbx
        exact le_trans (min_le_left _ _) hgx
      set t : ℚ := (g' - b') / d with htdef
      have ht1l : -1 ≤ t := by
        rw [htdef, le_div_iff₀ hdp, hd, hxr]
        linarith
      have ht1r : t ≤ 1 := by
        rw [htdef, div_le_one hdp, hd, hxr]
        linarith
      have hdt : d * t = g' - b' := by
        rw [htdef]
        field_simp
      have hharg : 60 * (g' - b') / d + 360 = 60 * t + 360 := by
        rw [htdef]
        ring
      by_cases hgb : b' ≤ g'
      · -- t ∈ [0, 1], h = 60 t
        have ht0 : 0 ≤ t := by
          rw [htdef]
          exact div_nonneg (by linarith) hd0
        have hmnb : mn = b' := by rw [hmng, min_eq_right hgb]
        have hhe : h = 60 * t := by
          rw [hh, if_neg hdz, if_pos hxr, hharg, jsMod_shift (by norm_num)
            (by linarith) (by linarith)]
          ring
        have hh60 : h / 60 = t := by rw [hhe]; ring
        refine ⟨⟨by rw [hhe]; linarith, by rw [hhe]; linarith⟩, hs01, hv01, ?_, ?_, ?_⟩
        · rw [key, hh60]
          have hW : wClamp (jsMod (5 + t) 6) = 0 := by
            by_cases h6 : 5 + t < 6
            · rw [jsMod_eq_self (by norm_num) (by linarith) h6]
              exact wClamp_hi (by linarith)
            · rw [jsMod_shift (by norm_num) (by linarith) (by linarith)]
              exact wClamp_lo (by linarith)
          rw [hW, hxr]
          ring
        · rw [key, hh60, jsMod_eq_self (by norm_num) (by linarith) (by linarith),
            wClamp_down (by linarith) (by linarith)]
          linarith [hdt, hd, hmnb]
        · rw [key, hh60, jsMod_eq_self (by norm_num) (by linarith) (by linarith),
            wClamp_one (by linarith) (by linarith)]
          linarith [hd, hmnb]
      · -- t ∈ [-1, 0), h = 60 t + 360
        push_neg at hgb
        have ht0 : t < 0 := by
          rw [htdef]
          exact div_neg_of_neg_of_pos (by linarith) hdp
        have hmng' : mn = g' := by rw [hmng, min_eq_left (by linarith)]
        have hhe : h = 60 * t + 360 := by
          rw [hh, if_neg hdz, if_pos hxr, hharg, jsMod_eq_self (by norm_num)
            (by linarith) (by linarith)]
        have hh60 : h / 60 = t + 6 := by rw [hhe]; ring
        refine ⟨⟨by rw [hhe]; linarith, by rw [hhe]; linarith⟩, hs01, hv01, ?_, ?_, ?_⟩
        · rw [key, hh60, show (5 : ℚ) + (t + 6) = 11 + t from by ring,
            jsMod_shift (by norm_num) (by linarith) (by linarith),
            wClamp_hi (by linarith)]
          rw [hxr]
          ring
        · rw [key, hh60, show (3 : ℚ) + (t + 6) = 9 + t from by ring,
            jsMod_shift (by norm_num) (by linarith) (by linarith),
            wClamp_one (by linarith) (by linarith)]
          linarith [hd, hmng']
        · rw [key, hh60, show (1 : ℚ) + (t + 6) = 7 + t from by ring,
            jsMod_shift (by norm_num) (by linarith) (by linarith),
            wClamp_id (by linarith) (by linarith)]
          linarith [hd, hmng', hdt]
    · by_cases hxg : mx = g'
      · -- green sector
        have hmnrb : mn = min r' b' := by
          rw [hmn]
          rw [show min r' (min g' b') = min g' (min r' b') from by
            rw [min_comm r' (min g' b'), min_assoc, min_comm b' r']]
          rw [min_eq_right]
          rw [hxg] at hrx hbx
          exact le_trans (min_le_left _ _) hrx
        set u : ℚ := (b' - r') / d with hudef
        have hu1l : -1 ≤ u := by
          rw [hudef, le_div_iff₀ hdp, hd, hxg]
          linarith
        have hu1r : u ≤ 1 := by
          rw [hudef, div_le_one hdp, hd, hxg]
          linarith
        have hdu : d * u = b' - r' := by
          rw [hudef]
          field_simp
        have hhe : h = 60 * u + 120 := by
          rw [hh, if_neg hdz, if_neg hxr, if_pos hxg,
            show 60 * (b' - r') / d + 120 = 60 * u + 120 from by rw [hudef]; ring,
            jsMod_eq_self (by norm_num) (by linarith) (by linarith)]
        have hh60 : h / 60 = u + 2 := by rw [hhe]; ring
        refine ⟨⟨by rw [hhe]; linarith, by rw [hhe]; linarith⟩, hs01, hv01, ?_, ?_, ?_⟩
        · rw [key, hh60, show (5 : ℚ) + (u + 2) = 7 + u from by ring,
            jsMod_shift (by norm_num) (by linarith) (by linarith)]
          by_cases hur : u ≤ 0
          · have hmnb : mn = b' := by
              rw [hmnrb, min_eq_right (by nlinarith [hdu])]
            rw [wClamp_id (by linarith) (by linarith)]
            linarith [hd, hmnb, hdu]
          · push_neg at hur
            have hmnr : mn = r' := by
              rw [hmnrb, min_eq_left (by nlinarith [hdu])]
            rw [wClamp_one (by linarith) (by linarith)]
            linarith [hd, hmnr]
        · rw [key, hh60, show (3 : ℚ) + (u + 2) = 5 + u from by ring]
          have hW : wClamp (jsMod (5 + u) 6) = 0 := by
            by_cases h6 : 5 + u < 6
            · rw [jsMod_eq_self (by norm_num) (by linarith) h6]
              exact wClamp_hi (by linarith)
            · rw [jsMod_shift (by norm_num) (by linarith) (by linarith)]
              exact wClamp_lo (by linarith)
          rw [hW, hxg]
          ring
        · rw [key, hh60, show (1 : ℚ) + (u + 2) = 3 + u from by ring,
            jsMod_eq_self (by norm_num) (by linarith) (by linarith)]
          by_cases hur : u ≤ 0
          · have hmnb : mn = b' := by
              rw [hmnrb, min_eq_right (by nlinarith [hdu])]
            rw [wClamp_one (by linarith) (by linarith)]
            linarith [hd, hmnb]
          · push_neg at hur
            have hmnr : mn = r' := by
              rw [hmnrb, min_eq_left (by nlinarith [hdu])]
            rw [wClamp_down (by linarith) (by linarith)]
            linarith [hd, hmnr, hdu]
      · -- blue sector
        have hxb : mx = b' := by
          rcases max_choice r' (max g' b') with e2 | e2
          · exact absurd (hmx.trans e2) hxr
          · rcases max_choice g' b' with e | e
            · exact absurd ((hmx.trans e2).trans e) hxg
            · exact (hmx.trans e2).trans e
        have hmnrg : mn = min r' g' := by
          rw [hxb] at hgx
          rw [hmn, min_eq_left hgx]
        set w : ℚ := (r' - g') / d with hwdef
        have hw1l : -1 ≤ w := by
          rw [hwdef, le_div_iff₀ hdp, hd, hxb]
          linarith
        have hw1r : w ≤ 1 := by
          rw [hwdef, div_le_one hdp, hd, hxb]
          linarith
        have hdw : d * w = r' - g' := by
          rw [hwdef]
          field_simp
        have hhe : h = 60 * w + 240 := by
          rw [hh, if_neg hdz, if_neg hxr, if_neg hxg,
            show 60 * (r' - g') / d + 240 = 60 * w + 240 from by rw [hwdef]; ring,
            jsMod_eq_self (by norm_num) (by linarith) (by linarith)]
        have hh60 : h / 60 = w + 4 := by rw [hhe]; ring
        refine ⟨⟨by rw [hhe]; linarith, by rw [hhe]; linarith⟩, hs01, hv01, ?_, ?_, ?_⟩
        · rw [key, hh60, show (5 : ℚ) + (w + 4) = 9 + w from by ring,
            jsMod_shift (by norm_num) (by linarith) (by linarith)]
          by_cases hwr : w ≤ 0
          · have hmnr : mn = r' := by
              rw [hmnrg, min_eq_left (by nlinarith [hdw])]
            rw [wClamp_one (by linarith) (by linarith)]
            linarith [hd, hmnr]
          · push_neg at hwr
            have hmng2 : mn = g' := by
              rw [hmnrg, min_eq_right (by nlinarith [hdw])]
            rw [wClamp_down (by linarith) (by linarith)]
            linarith [hd, hmng2, hdw]
        · rw [key, hh60, show (3 : ℚ) + (w + 4) = 7 + w from by ring,
            jsMod_shift (by norm_num) (by linarith) (by linarith)]
          by_cases hwr : w ≤ 0
          · have hmnr : mn = r' := by
              rw [hmnrg, min_eq_left (by nlinarith [hdw])]
            rw [wClamp_id (by linarith) (by linarith)]
            linarith [hd, hmnr, hdw]
          · push_neg at hwr
            have hmng2 : mn = g' := by
              rw [hmnrg, min_eq_right (by nlinarith [hdw])]
            rw [wClamp_one (by linarith) (by linarith)]
            linarith [hd, hmng2]
        · rw [key, hh60, show (1 : ℚ) + (w + 4) = 5 + w from by ring]
          have hW : wClamp (jsMod (5 + w) 6) = 0 := by
            by_cases h6 : 5 + w < 6
            · rw [jsMod_eq_self (by norm_num) (by linarith) h6]
              exact wClamp_hi (by linarith)
            · rw [jsMod_shift (by norm_num) (by linarith) (by linarith)]
              exact wClamp_lo (by linarith)
          rw [hW, hxb]
          ring

set_option maxHeartbeats 2000000 in
theorem hsl_exact (r' g' b' mx mn d sl l h : ℚ)
    (hr0 : 0 ≤ r') (hr1 : r' ≤ 1) (hg0 : 0 ≤ g') (hg1 : g' ≤ 1)
    (hb0 : 0 ≤ b') (hb1 : b' ≤ 1)
    (hmx : mx = max r' (max g' b')) (hmn : mn = min r' (min g' b'))
    (hd : d = mx - mn)
    (hsl : sl = if mx = mn then 0 else d / (1 - |mx + mn - 1|))
    (hl : l = (mx + mn) / 2)
    (hh : h = (if mx = mn then 0
          else if mx = r' then jsMod (60 * (g' - b') / d + 360) 360
          else if mx = g' then jsMod (60 * (b' - r') / d + 120) 360
          else jsMod (60 * (r' - g') / d + 240) 360)) :
    (0 ≤ sl ∧ sl ≤ 1) ∧ (0 ≤ l ∧ l ≤ 1) ∧
    (l - sl * min l (1 - l) * uClamp (jsMod (0 + h / 30) 12)) * 255 = r' * 255 ∧
    (l - sl * min l (1 - l) * uClamp (jsMod (8 + h / 30) 12)) * 255 = g' * 255 ∧
    (l - sl * min l (1 - l) * uClamp (jsMod (4 + h / 30) 12)) * 255 = b' * 255 := by
  have hrx : r' ≤ mx := by rw [hmx]; exact le_max_left _ _
  have hgx : g' ≤ mx := by rw [hmx]; exact le_trans (le_max_left _ _) (le_max_right _ _)
  have hbx : b' ≤ mx := by rw [hmx]; exact le_trans (le_max_right _ _) (le_max_right _ _)
  have hnr : mn ≤ r' := by rw [hmn]; exact min_le_left _ _
  have hng : mn ≤ g' := by rw [hmn]; exact le_trans (min_le_right _ _) (min_le_left _ _)
  have hnb : mn ≤ b' := by rw [hmn]; exact le_trans (min_le_right _ _) (min_le_right _ _)
  have hmx1 : mx ≤ 1 := by
    rw [hmx]
    exact max_le hr1 (max_le hg1 hb1)
  have hmn0 : 0 ≤ mn := by
    rw [hmn]
    exact le_min hr0 (le_min hg0 hb0)
  have hd0 : 0 ≤ d := by rw [hd]; linarith [le_trans hnr hrx]
  have hl01 : 0 ≤ l ∧ l ≤ 1 := by
    constructor
    · rw [hl]; linarith [le_trans hnr hrx]
    · rw [hl]; linarith [le_trans hnr hrx]
  by_cases hdz : mx = mn
  · have hre : r' = mx := le_antisymm hrx (hdz ▸ hnr)
    have hge : g' = mx := le_antisymm hgx (hdz ▸ hng)
    have hbe : b' = mx := le_antisymm hbx (hdz ▸ hnb)
    have hsl0 : sl = 0 := by rw [hsl, if_pos hdz]
    have hlm : l = mx := by rw [hl, ← hdz]; ring
    refine ⟨⟨by rw [hsl0], by rw [hsl0]; norm_num⟩, hl01, ?_, ?_, ?_⟩
    · rw [hsl0, hlm, hre]; ring
    · rw [hsl0, hlm, hge]; ring
    · rw [hsl0, hlm, hbe]; ring
  · have hlt : mn < mx := lt_of_le_of_ne (by linarith [le_trans hnr hrx]) (Ne.symm hdz)
    have hdp : 0 < d := by rw [hd]; linarith
    have hmxp : 0 < mx := lt_of_le_of_lt hmn0 hlt
    have hA : |mx + mn - 1| < 1 := by
      rw [abs_lt]
      constructor
      · linarith
      · linarith
    have hAp : 0 < 1 - |mx + mn - 1| := by linarith
    have hsle : sl = d / (1 - |mx + mn - 1|) := by rw [hsl, if_neg hdz]
    have hdA : d ≤ 1 - |mx + mn - 1| := by
      rcases abs_cases (mx + mn - 1) with ⟨e, _⟩ | ⟨e, _⟩ <;> rw [e] <;>
        rw [hd] <;> linarith
    have hsl01 : 0 ≤ sl ∧ sl ≤ 1 := by
      constructor
      · rw [hsle]; positivity
      · rw [hsle, div_le_one hAp]; exact hdA
    have hminl : min l (1 - l) = (1 - |mx + mn - 1|) / 2 := by
      rcases abs_cases (mx + mn - 1) with ⟨e, e2⟩ | ⟨e, e2⟩ <;> rw [e, hl]
      · rw [min_eq_right (by linarith)]
        ring
      · rw [min_eq_left (by linarith)]
        ring
    have hq : sl * min l (1 - l) = d / 2 := by
      rw [hsle, hminl]
      field_simp
    by_cases hxr : mx = r'
    · -- red sector
      have hmng : mn = min g' b' := by
        rw [hmn, min_eq_right]
        rw [hxr] at hgx hbx
        exact le_trans (min_le_left _ _) hgx
      set t : ℚ := (g' - b') / d with htdef
      have ht1l : -1 ≤ t := by
        rw [htdef, le_div_iff₀ hdp, hd, hxr]
        linarith
      have ht1r : t ≤ 1 := by
        rw [htdef, div_le_one hdp, hd, hxr]
        linarith
      have hdt : d * t = g' - b' := by
        rw [htdef]
        field_simp
      have hharg : 60 * (g' - b') / d + 360 = 60 * t + 360 := by
        rw [htdef]
        ring
      by_cases hgb : b' ≤ g'
      · -- t ∈ [0, 1], h = 60 t
        have ht0 : 0 ≤ t := by
          rw [htdef]
          exact div_nonneg (by linarith) hd0
        have hmnb : mn = b' := by rw [hmng, min_eq_right hgb]
        have hhe : h = 60 * t := by
          rw [hh, if_neg hdz, if_pos hxr, hharg, jsMod_shift (by norm_num)
            (by linarith) (by linarith)]
          ring
        have hh30 : h / 30 = 2 * t := by rw [hhe]; ring
        refine ⟨hsl01, hl01, ?_, ?_, ?_⟩
        · rw [hq, hh30, jsMod_eq_self (by norm_num) (by linarith) (by linarith),
            uClamp_lo (by linarith)]
          rw [hl, hd, hxr]
          ring
        · rw [hq, hh30, jsMod_eq_self (by norm_num) (by linarith) (by linarith),
            uClamp_dn (by linarith) (by linarith)]
          rw [hl]
          linarith [hd, hmnb, hdt]
        · rw [hq, hh30, jsMod_eq_self (by norm_num) (by linarith) (by linarith),
            uClamp_one (by linarith) (by linarith)]
          rw [hl]
          linarith [hd, hmnb]
      · -- t ∈ [-1, 0), h = 60 t + 360
        push_neg at hgb
        have ht0 : t < 0 := by
          rw [htdef]
          exact div_neg_of_neg_of_pos (by linarith) hdp
        have hmng' : mn = g' := by rw [hmng, min_eq_left (by linarith)]
        have hhe : h = 60 * t + 360 := by
          rw [hh, if_neg hdz, if_pos hxr, hharg, jsMod_eq_self (by norm_num)
            (by linarith) (by linarith)]
        have hh30 : h / 30 = 2 * t + 12 := by rw [hhe]; ring
        refine ⟨hsl01, hl01, ?_, ?_, ?_⟩
        · rw [hq, hh30, jsMod_eq_self (by norm_num) (by linarith) (by linarith),
            uClamp_hi (by linarith)]
          rw [hl, hd, hxr]
          ring
        · rw [hq, hh30, jsMod_shift (by norm_num) (by linarith) (by linarith),
            uClamp_one (by linarith) (by linarith)]
          rw [hl]
          linarith [hd, hmng']
        · rw [hq, hh30, jsMod_shift (by norm_num) (by linarith) (by linarith),
            uClamp_up (by linarith) (by linarith)]
          rw [hl]
          linarith [hd, hmng', hdt]
    · by_cases hxg : mx = g'
      · -- green sector
        have hmnrb : mn = min r' b' := by
          rw [hmn]
          rw [show min r' (min g' b') = min g' (min r' b') from by
            rw [min_comm r' (min g' b'), min_assoc, min_comm b' r']]
          rw [min_eq_right]
          rw [hxg] at hrx hbx
          exact le_trans (min_le_left _ _) hrx
        set u : ℚ := (b' - r') / d with hudef
        have hu1l : -1 ≤ u := by
          rw [hudef, le_div_iff₀ hdp, hd, hxg]
          linarith
        have hu1r : u ≤ 1 := by
          rw [hudef, div_le_one hdp, hd, hxg]
          linarith
        have hdu : d * u = b' - r' := by
          rw [hudef]
          field_simp
        have hhe : h = 60 * u + 120 := by
          rw [hh, if_neg hdz, if_neg hxr, if_pos hxg,
            show 60 * (b' - r') / d + 120 = 60 * u + 120 from by rw [hudef]; ring,
            jsMod_eq_self (by norm_num) (by linarith) (by linarith)]
        have hh30 : h / 30 = 2 * u + 4 := by rw [hhe]; ring
        refine ⟨hsl01, hl01, ?_, ?_, ?_⟩
        · rw [hq, hh30, jsMod_eq_self (by norm_num) (by linarith) (by linarith)]
          by_cases hur : u ≤ 0
          · have hmnb : mn = b' := by
              rw [hmnrb, min_eq_right (by nlinarith [hdu])]
            rw [uClamp_up (by linarith) (by linarith)]
            rw [hl]
            linarith [hd, hmnb, hdu]
          · push_neg at hur
            have hmnr : mn = r' := by
              rw [hmnrb, min_eq_left (by nlinarith [hdu])]
            rw [uClamp_one (by linarith) (by linarith)]
            rw [hl]
            linarith [hd, hmnr]
        · rw [hq, hh30]
          by_cases h12 : 8 + (2 * u + 4) < 12
          · rw [jsMod_eq_self (by norm_num) (by linarith) h12,
              uClamp_hi (by linarith)]
            rw [hl, hd, hxg]
            ring
          · rw [jsMod_shift (by norm_num) (by linarith) (by linarith),
              uClamp_lo (by linarith)]
            rw [hl, hd, hxg]
            ring
        · rw [hq, hh30, jsMod_eq_self (by norm_num) (by linarith) (by linarith)]
          by_cases hur : u ≤ 0
          · have hmnb : mn = b' := by
              rw [hmnrb, min_eq_right (by nlinarith [hdu])]
            rw [uClamp_one (by linarith) (by linarith)]
            rw [hl]
            linarith [hd, hmnb]
          · push_neg at hur
            have hmnr : mn = r' := by
              rw [hmnrb, min_eq_left (by nlinarith [hdu])]
            rw [uClamp_dn (by linarith) (by linarith)]
            rw [hl]
            linarith [hd, hmnr, hdu]
      · -- blue sector
        have hxb : mx = b' := by
          rcases max_choice r' (max g' b') with e2 | e2
          · exact absurd (hmx.trans e2) hxr
          · rcases max_choice g' b' with e | e
            · exact absurd ((hmx.trans e2).trans e) hxg
            · exact (hmx.trans e2).trans e
        have hmnrg : mn = min r' g' := by
          rw [hxb] at hgx
          rw [hmn, min_eq_left hgx]
        set w : ℚ := (r' - g') / d with hwdef
        have hw1l : -1 ≤ w := by
          rw [hwdef, le_div_iff₀ hdp, hd, hxb]
          linarith
        have hw1r : w ≤ 1 := by
          rw [hwdef, div_le_one hdp, hd, hxb]
          linarith
        have hdw : d * w = r' - g' := by
          rw [hwdef]
          field_simp
        have hhe : h = 60 * w + 240 := by
          rw [hh, if_neg hdz, if_neg hxr, if_neg hxg,
            show 60 * (r' - g') / d + 240 = 60 * w + 240 from by rw [hwdef]; ring,
            jsMod_eq_self (by norm_num) (by linarith) (by linarith)]
        have hh30 : h / 30 = 2 * w + 8 := by rw [hhe]; ring
        refine ⟨hsl01, hl01, ?_, ?_, ?_⟩
        · rw [hq, hh30, jsMod_eq_self (by norm_num) (by linarith) (by linarith)]
          by_cases hwr : w ≤ 0
          · have hmnr : mn = r' := by
              rw [hmnrg, min_eq_left (by nlinarith [hdw])]
            rw [uClamp_one (by linarith) (by linarith)]
            rw [hl]
            linarith [hd, hmnr]
          · push_neg at hwr
            have hmng2 : mn = g' := by
              rw [hmnrg, min_eq_right (by nlinarith [hdw])]
            rw [uClamp_dn (by linarith) (by linarith)]
            rw [hl]
            linarith [hd, hmng2, hdw]
        · rw [hq, hh30, jsMod_shift (by norm_num) (by linarith) (by linarith)]
          by_cases hwr : w ≤ 0
          · have hmnr : mn = r' := by
              rw [hmnrg, min_eq_left (by nlinarith [hdw])]
            rw [uClamp_up (by linarith) (by linarith)]
            rw [hl]
            linarith [hd, hmnr, hdw]
          · push_neg at hwr
            have hmng2 : mn = g' := by
              rw [hmnrg, min_eq_right (by nlinarith [hdw])]
            rw [uClamp_one (by linarith) (by linarith)]
            rw [hl]
            linarith [hd, hmng2]
        · rw [hq, hh30]
          by_cases h12 : 4 + (2 * w + 8) < 12
          · rw [jsMod_eq_self (by norm_num) (by linarith) h12,
              uClamp_hi (by linarith)]
            rw [hl, hd, hxb]
            ring
          · rw [jsMod_shift (by norm_num) (by linarith) (by linarith),
              uClamp_lo (by linarith)]
            rw [hl, hd, hxb]
            ring

set_option maxHeartbeats 1000000 in
theorem hsv_hsl_assemble (r g b : ℤ) (r' g' b' mx mn d s v sl l h : ℚ)
    (hir0 : 0 ≤ r) (hir1 : r ≤ 255) (hig0 : 0 ≤ g) (hig1 : g ≤ 255)
    (hib0 : 0 ≤ b) (hib1 : b ≤ 255)
    (hr' : r' = (r : ℚ) / 255) (hg' : g' = (g : ℚ) / 255) (hb' : b' = (b : ℚ) / 255)
    (hmx : mx = max r' (max g' b')) (hmn : mn = min r' (min g' b'))
    (hd : d = mx - mn) (hs : s = if mx = 0 then 0 else d / mx) (hv : v = mx)
    (hsl : sl = if mx = mn then 0 else d / (1 - |mx + mn - 1|))
    (hl : l = (mx + mn) / 2)
    (hh : h = (if mx = mn then 0
          else if mx = r' then jsMod (60 * (g' - b') / d + 360) 360
          else if mx = g' then jsMod (60 * (b' - r') / d + 120) 360
          else jsMod (60 * (r' - g') / d + 240) 360)) :
    (|(hsvToRgb (jround h : ℚ) (jround (s * 100) : ℚ) (jround (v * 100) : ℚ)).1 - r| ≤ 5 ∧
     |(hsvToRgb (jround h : ℚ) (jround (s * 100) : ℚ) (jround (v * 100) : ℚ)).2.1 - g| ≤ 5 ∧
     |(hsvToRgb (jround h : ℚ) (jround (s * 100) : ℚ) (jround (v * 100) : ℚ)).2.2 - b| ≤ 5) ∧
    (|(hslToRgb (jround h : ℚ)
        (jround (if mx = mn then 0 else 100 * d / (1 - |mx + mn - 1|)) : ℚ)
        (jround ((mx + mn) * 50) : ℚ)).1 - r| ≤ 5 ∧
     |(hslToRgb (jround h : ℚ)
        (jround (if mx = mn then 0 else 100 * d / (1 - |mx + mn - 1|)) : ℚ)
        (jround ((mx + mn) * 50) : ℚ)).2.1 - g| ≤ 5 ∧
     |(hslToRgb (jround h : ℚ)
        (jround (if mx = mn then 0 else 100 * d / (1 - |mx + mn - 1|)) : ℚ)
        (jround ((mx + mn) * 50) : ℚ)).2.2 - b| ≤ 5) := by
  have hrq0 : (0 : ℚ) ≤ (r : ℚ) := by exact_mod_cast hir0
  have hrq1 : (r : ℚ) ≤ 255 := by exact_mod_cast hir1
  have hgq0 : (0 : ℚ) ≤ (g : ℚ) := by exact_mod_cast hig0
  have hgq1 : (g : ℚ) ≤ 255 := by exact_mod_cast hig1
  have hbq0 : (0 : ℚ) ≤ (b : ℚ) := by exact_mod_cast hib0
  have hbq1 : (b : ℚ) ≤ 255 := by exact_mod_cast hib1
  have hr'0 : 0 ≤ r' := by rw [hr']; positivity
  have hr'1 : r' ≤ 1 := by rw [hr', div_le_one (by norm_num : (0:ℚ) < 255)]; exact hrq1
  have hg'0 : 0 ≤ g' := by rw [hg']; positivity
  have hg'1 : g' ≤ 1 := by rw [hg', div_le_one (by norm_num : (0:ℚ) < 255)]; exact hgq1
  have hb'0 : 0 ≤ b' := by rw [hb']; positivity
  have hb'1 : b' ≤ 1 := by rw [hb', div_le_one (by norm_num : (0:ℚ) < 255)]; exact hbq1
  obtain ⟨⟨hh0, hh360⟩, ⟨hs0, hs1⟩, ⟨hv0, hv1⟩, er, eg, eb⟩ :=
    hsv_exact r' g' b' mx mn d s v h hr'0 hr'1 hg'0 hg'1 hb'0 hb'1 hmx hmn hd hs hv hh
  obtain ⟨⟨hsl0, hsl1⟩, ⟨hl0, hl1⟩, lr, lg, lb⟩ :=
    hsl_exact r' g' b' mx mn d sl l h hr'0 hr'1 hg'0 hg'1 hb'0 hb'1 hmx hmn hd hsl hl hh
  have hmn0 : 0 ≤ mn := by
    rw [hmn]
    exact le_min hr'0 (le_min hg'0 hb'0)
  have hmx0 : 0 ≤ mx := hv ▸ hv0
  have hmx1 : mx ≤ 1 := hv ▸ hv1
  have hmn1 : mn ≤ 1 := le_trans (hmn ▸ min_le_left _ _) hr'1
  have c255r : r' * 255 = (r : ℚ) := by rw [hr']; field_simp
  have c255g : g' * 255 = (g : ℚ) := by rw [hg']; field_simp
  have c255b : b' * 255 = (b : ℚ) := by rw [hb']; field_simp
  have hHq : (0 : ℚ) ≤ ((jround h : ℤ) : ℚ) := by exact_mod_cast jround_nonneg' hh0
  have hHd : |((jround h : ℤ) : ℚ) - h| ≤ 1/2 := jround_err h
  have hVd : |((jround (v * 100) : ℤ) : ℚ) - 100 * v| ≤ 1/2 := by
    rw [show ((jround (v * 100) : ℤ) : ℚ) - 100 * v
      = ((jround (v * 100) : ℤ) : ℚ) - v * 100 from by ring]
    exact jround_err (v * 100)
  have hSd : |((jround (s * 100) : ℤ) : ℚ) - 100 * s| ≤ 1/2 := by
    rw [show ((jround (s * 100) : ℤ) : ℚ) - 100 * s
      = ((jround (s * 100) : ℤ) : ℚ) - s * 100 from by ring]
    exact jround_err (s * 100)
  have hV0 : 0 ≤ jround (v * 100) := jround_nonneg' (by positivity)
  have hV1 : jround (v * 100) ≤ 100 := jround_le_of_le (by push_cast; linarith)
  have hS0 : 0 ≤ jround (s * 100) := jround_nonneg' (by positivity)
  have hS1 : jround (s * 100) ≤ 100 := jround_le_of_le (by push_cast; linarith)
  have eSL : (if mx = mn then (0:ℚ) else 100 * d / (1 - |mx + mn - 1|)) = 100 * sl := by
    rw [hsl]
    split_ifs
    · ring
    · ring
  have eL : (mx + mn) * 50 = 100 * l := by rw [hl]; ring
  have hLd : |((jround ((mx + mn) * 50) : ℤ) : ℚ) - 100 * l| ≤ 1/2 := by
    rw [← eL]
    exact jround_err _
  have hSLd : |((jround (if mx = mn then (0:ℚ)
      else 100 * d / (1 - |mx + mn - 1|)) : ℤ) : ℚ) - 100 * sl| ≤ 1/2 := by
    rw [← eSL]
    exact jround_err _
  have hL0 : 0 ≤ jround ((mx + mn) * 50) := jround_nonneg' (by positivity)
  have hL1 : jround ((mx + mn) * 50) ≤ 100 := jround_le_of_le (by push_cast; linarith)
  have hSL0 : 0 ≤ jround (if mx = mn then (0:ℚ)
      else 100 * d / (1 - |mx + mn - 1|)) := jround_nonneg' (by rw [eSL]; linarith)
  have hSL1 : jround (if mx = mn then (0:ℚ)
      else 100 * d / (1 - |mx + mn - 1|)) ≤ 100 :=
    jround_le_of_le (by rw [eSL]; push_cast; linarith)
  refine ⟨⟨?_, ?_, ?_⟩, ⟨?_, ?_, ?_⟩⟩
  · exact chan_bound v s h (jround (v * 100)) (jround (s * 100)) (jround h) r 5
      (by norm_num) hv0 hv1 hs0 hs1 hh0 hHq hVd hSd hHd hV0 hV1 hS0 hS1 (er.trans c255r)
  · exact chan_bound v s h (jround (v * 100)) (jround (s * 100)) (jround h) g 3
      (by norm_num) hv0 hv1 hs0 hs1 hh0 hHq hVd hSd hHd hV0 hV1 hS0 hS1 (eg.trans c255g)
  · exact chan_bound v s h (jround (v * 100)) (jround (s * 100)) (jround h) b 1
      (by norm_num) hv0 hv1 hs0 hs1 hh0 hHq hVd hSd hHd hV0 hV1 hS0 hS1 (eb.trans c255b)
  · exact chanL_bound l sl h (jround ((mx + mn) * 50))
      (jround (if mx = mn then (0:ℚ) else 100 * d / (1 - |mx + mn - 1|))) (jround h) r 0
      (by norm_num) hl0 hl1 hsl0 hsl1 hh0 hHq hLd hSLd hHd hL0 hL1 hSL0 hSL1
      (lr.trans c255r)
  · exact chanL_bound l sl h (jround ((mx + mn) * 50))
      (jround (if mx = mn then (0:ℚ) else 100 * d / (1 - |mx + mn - 1|))) (jround h) g 8
      (by norm_num) hl0 hl1 hsl0 hsl1 hh0 hHq hLd hSLd hHd hL0 hL1 hSL0 hSL1
      (lg.trans c255g)
  · exact chanL_bound l sl h (jround ((mx + mn) * 50))
      (jround (if mx = mn then (0:ℚ) else 100 * d / (1 - |mx + mn - 1|))) (jround h) b 4
      (by norm_num) hl0 hl1 hsl0 hsl1 hh0 hHq hLd hSLd hHd hL0 hL1 hSL0 hSL1
      (lb.trans c255b)

/-- Claim C6 (corrected): for every RGB triple of integer channels in
[0,255], converting with `rgbToHsvSl` and back with `hsvToRgb` (via
hue/satHSV/value) and with `hslToRgb` (via hue/satHSL/lightness) yields
every channel within ±5 of the original. The claimed ±1 fails (see the
counterexample); the deviation stems from rounding hue to whole degrees
and saturation/value/lightness to whole percent before converting back. -/
theorem c6_roundtrip_within_five (r g b : ℤ)
    (hr0 : 0 ≤ r) (hr1 : r ≤ 255) (hg0 : 0 ≤ g) (hg1 : g ≤ 255)
    (hb0 : 0 ≤ b) (hb1 : b ≤ 255) :
    (|(roundtripHsv (r : ℚ) (g : ℚ) (b : ℚ)).1 - r| ≤ 5 ∧
     |(roundtripHsv (r : ℚ) (g : ℚ) (b : ℚ)).2.1 - g| ≤ 5 ∧
     |(roundtripHsv (r : ℚ) (g : ℚ) (b : ℚ)).2.2 - b| ≤ 5) ∧
    (|(roundtripHsl (r : ℚ) (g : ℚ) (b : ℚ)).1 - r| ≤ 5 ∧
     |(roundtripHsl (r : ℚ) (g : ℚ) (b : ℚ)).2.1 - g| ≤ 5 ∧
     |(roundtripHsl (r : ℚ) (g : ℚ) (b : ℚ)).2.2 - b| ≤ 5) := by
  exact hsv_hsl_assemble r g b _ _ _ _ _ _ _ _ _ _ _ hr0 hr1 hg0 hg1 hb0 hb1
    rfl rfl rfl rfl rfl rfl rfl rfl rfl rfl rfl

/-- Claim C6, counterexample to the literal ±1 bound: the HSV round trip
of the valid triple (0, 108, 254) returns (0, 111, 255); the green channel
moves by 3, exceeding the claimed ±1 tolerance. -/
theorem c6_counterexample :
    roundtripHsv 0 108 254 = (0, 111, 255) ∧
    ¬|(roundtripHsv 0 108 254).2.1 - 108| ≤ 1 := by
  have h : roundtripHsv 0 108 254 = (0, 111, 255) := by
    norm_num [roundtripHsv, rgbToHsvSl, hsvToRgb, jround, jsMod, jsTrunc, wClamp]
  exact ⟨h, by rw [h]; decide⟩

/-- Witness for C6: the round-trip bound instantiated at the concrete
triple (10, 20, 30). -/
theorem c6_witness :
    ((0:ℤ) ≤ 10 ∧ (10:ℤ) ≤ 255 ∧ (0:ℤ) ≤ 20 ∧ (20:ℤ) ≤ 255 ∧
      (0:ℤ) ≤ 30 ∧ (30:ℤ) ≤ 255) ∧
    ((|(roundtripHsv ((10:ℤ) : ℚ) ((20:ℤ) : ℚ) ((30:ℤ) : ℚ)).1 - 10| ≤ 5 ∧
      |(roundtripHsv ((10:ℤ) : ℚ) ((20:ℤ) : ℚ) ((30:ℤ) : ℚ)).2.1 - 20| ≤ 5 ∧
      |(roundtripHsv ((10:ℤ) : ℚ) ((20:ℤ) : ℚ) ((30:ℤ) : ℚ)).2.2 - 30| ≤ 5) ∧
     (|(roundtripHsl ((10:ℤ) : ℚ) ((20:ℤ) : ℚ) ((30:ℤ) : ℚ)).1 - 10| ≤ 5 ∧
      |(roundtripHsl ((10:ℤ) : ℚ) ((20:ℤ) : ℚ) ((30:ℤ) : ℚ)).2.1 - 20| ≤ 5 ∧
      |(roundtripHsl ((10:ℤ) : ℚ) ((20:ℤ) : ℚ) ((30:ℤ) : ℚ)).2.2 - 30| ≤ 5)) :=
  ⟨by decide,
   c6_roundtrip_within_five 10 20 30 (by decide) (by decide) (by decide)
     (by decide) (by decide) (by decide)⟩

end TCE
